import Mathlib

/-!
# ChildBroker (mojo/edk/system/child_broker.cc): connect / cancel / resolve state machine

A shallow embedding of `ChildBroker`.  The broker's own members are the fields of the
structure `ChildBroker`; every call the broker makes on an external collaborator
(`RoutedRawChannel`, `RawChannel`, `MessagePipeDispatcher`) is recorded, in program order,
in the append-only field `log`.  Pointers to dispatchers and channels are natural numbers
(object identities); the three nullable channel members are `Option`s.  A `CHECK` that
fails aborts the process: operations return an `Outcome` that carries the broker state at
the moment of the abort, so that "nothing was modified before the failure" is a statement
about that state.
-/

set_option linter.dupNamespace false

namespace mojo.edk

/-! ## Associative containers -/

/-- Modelled from the spec: the broker's tables are maps ("per-broker map from pipe
identifier to the local pipe endpoint", §2); child_broker.h with the container types is not
part of the sources.  A map is the list of its entries in iteration order, taken to be
ascending key order; `find` is the lookup behind `m.find(k) != m.end()` and behind reading
`m[k]` for a present key. -/
def StdMap.find (k : Nat) : List (Nat × Nat) → Option Nat
  | [] => none
  | it :: rest => if it.1 = k then some it.2 else StdMap.find k rest

/-- The assignment `m[k] = v`: overwrite the entry of `k`, or insert one at its place in key
order. -/
def StdMap.assign (k v : Nat) : List (Nat × Nat) → List (Nat × Nat)
  | [] => [(k, v)]
  | it :: rest =>
    if k < it.1 then (k, v) :: it :: rest
    else if k = it.1 then (k, v) :: rest
    else it :: StdMap.assign k v rest

/-- The call `m.erase(k)` with a key argument. -/
def StdMap.erase (k : Nat) (m : List (Nat × Nat)) : List (Nat × Nat) :=
  m.filter (fun it => it.1 ≠ k)

/-! ## Messages and collaborators -/

/-- Modelled from the spec: the control message vocabulary of §6 (broker_messages.h is not
part of the sources). -/
inductive MultiplexMessages
  | CONNECT_MESSAGE_PIPE
  | CANCEL_CONNECT_MESSAGE_PIPE
  | CONNECT_TO_PROCESS
  | PEER_PIPE_CONNECTED
  deriving DecidableEq, Repr

/-- The payload built by `ConnectMessagePipe`: `data.type` and `data.pipe_id`. -/
structure ConnectMessagePipeMessage where
  type : MultiplexMessages
  pipe_id : Nat
  deriving DecidableEq, Repr

/-- An outbound `MessageInTransit`: the route id set by `set_route_id` and the payload. -/
structure MessageInTransit where
  route_id : Nat
  data : ConnectMessagePipeMessage
  deriving DecidableEq, Repr

/-- The bytes of an inbound message as `OnReadMessage` reads them: the leading `type`, and
the `pipe_id` / `process_id` members of `ConnectToProcessMessage` and
`PeerPipeConnectedMessage` (a member the message kind does not have is ignored). -/
structure MessageView where
  type : MultiplexMessages
  pipe_id : Nat
  process_id : Nat
  deriving DecidableEq, Repr

/-- The sink given to `AddRoute`: the broker itself (`this`) or a dispatcher. -/
inductive Delegate
  | broker
  | pipe (message_pipe : Nat)
  deriving DecidableEq, Repr

/-- The error codes the broker passes to `MessagePipeDispatcher::OnError`. -/
inductive Error
  | ERROR_READ_SHUTDOWN
  deriving DecidableEq, Repr

/-- Modelled from the spec: the Routed Channel is an external leaf that "exposes
add_route(id, sink), remove_route(id), write(route_id, message)" (§2), and the endpoint is
notified "of errors or channel assignment" (§3); routed_raw_channel.h and
message_pipe_dispatcher.h are not part of the sources.  Each call of the broker on these
collaborators is one recorded effect. -/
inductive Effect
  | NewRoutedRawChannel (channel handle : Nat)
  | AddRoute (channel route_id : Nat) (delegate : Delegate)
  | RemoveRoute (channel route_id : Nat)
  | WriteMessage (channel : Nat) (message : MessageInTransit)
  | GotNonTransferableChannel (message_pipe channel : Nat)
  | OnError (message_pipe : Nat) (error : Error)
  deriving DecidableEq, Repr

/-! ## Broker state -/

/-- The members of `ChildBroker` used by child_broker.cc, the allocator counter standing
for `new RoutedRawChannel` (a fresh identity at every allocation), and the log of effects. -/
structure ChildBroker where
  pending_connects_ : List (Nat × Nat)
  pending_inprocess_connects_ : List (Nat × Nat)
  connected_pipes_ : List (Nat × Nat)
  channels_ : List (Nat × Nat)
  async_channel_queue_ : List MessageInTransit
  parent_async_channel_ : Option Nat
  in_process_pipes_channel1_ : Option Nat
  in_process_pipes_channel2_ : Option Nat
  next_channel : Nat
  log : List Effect
  deriving DecidableEq, Repr

/-- The constructor `ChildBroker::ChildBroker()`: the three channel members are null and
the containers are empty. -/
def ChildBroker.ChildBroker : ChildBroker where
  pending_connects_ := []
  pending_inprocess_connects_ := []
  connected_pipes_ := []
  channels_ := []
  async_channel_queue_ := []
  parent_async_channel_ := none
  in_process_pipes_channel1_ := none
  in_process_pipes_channel2_ := none
  next_channel := 0
  log := []

/-- Why an operation aborted: a failed `CHECK`, a failed `DCHECK` / `NOTREACHED` (only when
DCHECKs are compiled in), a dereferenced null pointer, an out-of-range vector index. -/
inductive Failure
  | CHECK
  | DCHECK
  | NULL_DEREFERENCE
  | OUT_OF_BOUNDS
  deriving DecidableEq, Repr

/-- The result of an operation: it returned in state `s`, it aborted in state `s`, or the
loop bound given to the model was exhausted in state `s`. -/
inductive Outcome
  | ok (s : ChildBroker)
  | fatal (failure : Failure) (s : ChildBroker)
  | outOfFuel (s : ChildBroker)
  deriving DecidableEq, Repr

/-- The operation aborted. -/
def Outcome.isFatal : Outcome → Bool
  | .fatal _ _ => true
  | _ => false

/-- The broker state an outcome carries. -/
def Outcome.state : Outcome → ChildBroker
  | .ok s => s
  | .fatal _ s => s
  | .outOfFuel s => s

/-! ## Operations -/

/-- The method `ChildBroker::WriteAsyncMessage`: stamp the broker route id, then write to
the parent channel if it exists, else append to the queue (`AddMessage`). -/
def WriteAsyncMessage (kBrokerRouteId : Nat) (data : ConnectMessagePipeMessage)
    (s : ChildBroker) : ChildBroker :=
  let message : MessageInTransit := { route_id := kBrokerRouteId, data := data }
  match s.parent_async_channel_ with
  | some parent => { s with log := s.log ++ [Effect.WriteMessage parent message] }
  | none => { s with async_channel_queue_ := s.async_channel_queue_ ++ [message] }

/-- The method `ChildBroker::ConnectMessagePipe`.  `channel_pair` is the (server, client)
handle pair that the platform hands out when the in-process pair is first created
(`PlatformChannelPair`, or `CreatePlatformChannelPairNoLock` on Windows, whose exchange on
the synchronous pipe is not an effect of this model). -/
def ConnectMessagePipe (kBrokerRouteId : Nat) (channel_pair : Nat × Nat)
    (pipe_id message_pipe : Nat) (s : ChildBroker) : Outcome :=
  match StdMap.find pipe_id s.pending_connects_ with
  | some pending_pipe =>
    match s.parent_async_channel_ with
    | none =>
      if StdMap.find pipe_id s.pending_inprocess_connects_ = none then
        .ok { s with pending_inprocess_connects_ :=
                StdMap.assign pipe_id message_pipe s.pending_inprocess_connects_ }
      else .fatal .CHECK s
    | some _ =>
      let s1 := WriteAsyncMessage kBrokerRouteId
        { type := .CANCEL_CONNECT_MESSAGE_PIPE, pipe_id := pipe_id } s
      let s2 : ChildBroker :=
        match s1.in_process_pipes_channel1_ with
        | some _ => s1
        | none =>
          { s1 with
            in_process_pipes_channel1_ := some s1.next_channel
            in_process_pipes_channel2_ := some (s1.next_channel + 1)
            next_channel := s1.next_channel + 2
            log := s1.log ++ [Effect.NewRoutedRawChannel s1.next_channel channel_pair.1,
                              Effect.NewRoutedRawChannel (s1.next_channel + 1) channel_pair.2] }
      match s2.in_process_pipes_channel1_, s2.in_process_pipes_channel2_ with
      | some channel1, some channel2 =>
        .ok { s2 with
              connected_pipes_ :=
                StdMap.assign message_pipe channel2
                  (StdMap.assign pending_pipe channel1 s2.connected_pipes_)
              log := s2.log ++ [Effect.AddRoute channel1 pipe_id (.pipe pending_pipe),
                                Effect.AddRoute channel2 pipe_id (.pipe message_pipe),
                                Effect.GotNonTransferableChannel pending_pipe channel1,
                                Effect.GotNonTransferableChannel message_pipe channel2]
              pending_connects_ := StdMap.erase pipe_id s2.pending_connects_ }
      | _, _ => .fatal .NULL_DEREFERENCE s2
  | none =>
    .ok (WriteAsyncMessage kBrokerRouteId
          { type := .CONNECT_MESSAGE_PIPE, pipe_id := pipe_id }
          { s with pending_connects_ := StdMap.assign pipe_id message_pipe s.pending_connects_ })

/-- The method `ChildBroker::CloseMessagePipe`. -/
def CloseMessagePipe (pipe_id message_pipe : Nat) (s : ChildBroker) : Outcome :=
  match StdMap.find message_pipe s.connected_pipes_ with
  | none => .fatal .CHECK s
  | some channel =>
    .ok { s with
          log := s.log ++ [Effect.RemoveRoute channel pipe_id]
          connected_pipes_ := StdMap.erase message_pipe s.connected_pipes_ }

/-- The method `ChildBroker::OnReadMessage`.  `DCHECK_IS_ON` tells whether `DCHECK` and
`NOTREACHED` are compiled in; `platform_handles` is `none` for a null
`ScopedPlatformHandleVectorPtr`. -/
def OnReadMessage (DCHECK_IS_ON : Bool) (message_view : MessageView)
    (platform_handles : Option (List Nat)) (s : ChildBroker) : Outcome :=
  match message_view.type with
  | .CONNECT_TO_PROCESS =>
    match platform_handles with
    | none => .fatal .NULL_DEREFERENCE s
    | some handles =>
      if DCHECK_IS_ON = true ∧ handles.length ≠ 1 then .fatal .DCHECK s
      else
        match handles with
        | [] => .fatal .OUT_OF_BOUNDS s
        | handle :: _ =>
          if StdMap.find message_view.process_id s.channels_ = none then
            .ok { s with
                  channels_ := StdMap.assign message_view.process_id s.next_channel s.channels_
                  next_channel := s.next_channel + 1
                  log := s.log ++ [Effect.NewRoutedRawChannel s.next_channel handle] }
          else .fatal .CHECK s
  | .PEER_PIPE_CONNECTED =>
    if DCHECK_IS_ON = true ∧ platform_handles ≠ none then .fatal .DCHECK s
    else
      let pipe_id := message_view.pipe_id
      let peer_pid := message_view.process_id
      match StdMap.find pipe_id s.pending_connects_ with
      | none => .fatal .CHECK s
      | some pipe =>
        let s1 : ChildBroker :=
          { s with pending_connects_ := StdMap.erase pipe_id s.pending_connects_ }
        if peer_pid = 0 then
          match s1.parent_async_channel_ with
          | none => .fatal .NULL_DEREFERENCE s1
          | some parent =>
            .ok { s1 with
                  connected_pipes_ := StdMap.assign pipe parent s1.connected_pipes_
                  log := s1.log ++ [Effect.AddRoute parent pipe_id (.pipe pipe),
                                    Effect.GotNonTransferableChannel pipe parent] }
        else
          match StdMap.find peer_pid s1.channels_ with
          | none => .ok { s1 with log := s1.log ++ [Effect.OnError pipe .ERROR_READ_SHUTDOWN] }
          | some channel =>
            if StdMap.find pipe s1.connected_pipes_ = none then
              .ok { s1 with
                    connected_pipes_ := StdMap.assign pipe channel s1.connected_pipes_
                    log := s1.log ++ [Effect.AddRoute channel pipe_id (.pipe pipe),
                                      Effect.GotNonTransferableChannel pipe channel] }
            else .fatal .CHECK s1
  | _ => if DCHECK_IS_ON = true then .fatal .DCHECK s else .ok s

/-- The loop of `ChildBroker::ChannelDestructed`: the key of the first registry entry, in
iteration order, whose channel is `channel`. -/
def ChannelDestructed.loop (channel : Nat) : List (Nat × Nat) → Option Nat
  | [] => none
  | it :: rest => if it.2 = channel then some it.1 else ChannelDestructed.loop channel rest

/-- The method `ChildBroker::ChannelDestructed`: erase the first matching entry and stop. -/
def ChannelDestructed (channel : Nat) (s : ChildBroker) : ChildBroker :=
  match ChannelDestructed.loop channel s.channels_ with
  | some process_id => { s with channels_ := StdMap.erase process_id s.channels_ }
  | none => s

/-- Modelled from the spec: the Async Send Queue is "drained strictly in FIFO order" (§3);
message_in_transit_queue.h is not part of the sources.  This is the first loop of
`InitAsyncChannel`: while the queue is not empty, `GetMessage` takes its head and the
message is written to the parent channel. -/
def InitAsyncChannel.drain (parent : Nat) : List MessageInTransit → ChildBroker → ChildBroker
  | [], s => { s with async_channel_queue_ := [] }
  | message :: rest, s =>
    InitAsyncChannel.drain parent rest
      { s with async_channel_queue_ := rest
               log := s.log ++ [Effect.WriteMessage parent message] }

/-- The second loop of `InitAsyncChannel`: while the staging map is not empty, call
`ConnectMessagePipe` on its first entry, then erase `begin()`.  `fuel` bounds the number
of iterations of the model. -/
def InitAsyncChannel.replay (kBrokerRouteId : Nat) (channel_pair : Nat × Nat) :
    Nat → ChildBroker → Outcome
  | fuel, s =>
    match s.pending_inprocess_connects_ with
    | [] => .ok s
    | it :: _ =>
      match fuel with
      | 0 => .outOfFuel s
      | fuel + 1 =>
        match ConnectMessagePipe kBrokerRouteId channel_pair it.1 it.2 s with
        | .ok s1 =>
          InitAsyncChannel.replay kBrokerRouteId channel_pair fuel
            { s1 with pending_inprocess_connects_ := s1.pending_inprocess_connects_.tail }
        | failed => failed

/-- The method `ChildBroker::InitAsyncChannel`. -/
def InitAsyncChannel (kBrokerRouteId : Nat) (channel_pair : Nat × Nat) (fuel : Nat)
    (parent_async_channel_handle : Nat) (s : ChildBroker) : Outcome :=
  let parent := s.next_channel
  let s1 : ChildBroker :=
    { s with
      parent_async_channel_ := some parent
      next_channel := s.next_channel + 1
      log := s.log ++ [Effect.NewRoutedRawChannel parent parent_async_channel_handle,
                       Effect.AddRoute parent kBrokerRouteId .broker] }
  InitAsyncChannel.replay kBrokerRouteId channel_pair fuel
    (InitAsyncChannel.drain parent s1.async_channel_queue_ s1)

/-! ## Traces, reachable states, observations on the log -/

/-- One call into the broker: the four methods reached from outside, and the posted
`InitAsyncChannel` task. -/
inductive Event
  | ConnectMessagePipe (channel_pair : Nat × Nat) (pipe_id message_pipe : Nat)
  | CloseMessagePipe (pipe_id message_pipe : Nat)
  | OnReadMessage (DCHECK_IS_ON : Bool) (message_view : MessageView)
      (platform_handles : Option (List Nat))
  | ChannelDestructed (channel : Nat)
  | InitAsyncChannel (channel_pair : Nat × Nat) (fuel : Nat) (parent_async_channel_handle : Nat)
  deriving DecidableEq, Repr

/-- Run one event. -/
def Event.run (kBrokerRouteId : Nat) : Event → ChildBroker → Outcome
  | .ConnectMessagePipe channel_pair pipe_id message_pipe, s =>
    mojo.edk.ConnectMessagePipe kBrokerRouteId channel_pair pipe_id message_pipe s
  | .CloseMessagePipe pipe_id message_pipe, s => mojo.edk.CloseMessagePipe pipe_id message_pipe s
  | .OnReadMessage dcheck message_view platform_handles, s =>
    mojo.edk.OnReadMessage dcheck message_view platform_handles s
  | .ChannelDestructed channel, s => .ok (mojo.edk.ChannelDestructed channel s)
  | .InitAsyncChannel channel_pair fuel handle, s =>
    mojo.edk.InitAsyncChannel kBrokerRouteId channel_pair fuel handle s

/-- Run a sequence of events, stopping at the first one that does not return. -/
def runEvents (kBrokerRouteId : Nat) : List Event → ChildBroker → Outcome
  | [], s => .ok s
  | e :: rest, s =>
    match e.run kBrokerRouteId s with
    | .ok s1 => runEvents kBrokerRouteId rest s1
    | failed => failed

/-- The states the broker can be in: the constructed broker, and every state in which an
event returns when run from a reachable state. -/
inductive Reachable (kBrokerRouteId : Nat) : ChildBroker → Prop
  | ctor : Reachable kBrokerRouteId ChildBroker.ChildBroker
  | step (e : Event) (s s1 : ChildBroker) :
      Reachable kBrokerRouteId s → e.run kBrokerRouteId s = .ok s1 → Reachable kBrokerRouteId s1

/-- The messages written to channels, in order, each with the channel written to. -/
def writes : List Effect → List (Nat × MessageInTransit)
  | [] => []
  | .WriteMessage channel message :: rest => (channel, message) :: writes rest
  | _ :: rest => writes rest

/-- The routes added to channels, in order. -/
def routesAdded : List Effect → List (Nat × Nat × Delegate)
  | [] => []
  | .AddRoute channel route_id delegate :: rest => (channel, route_id, delegate) :: routesAdded rest
  | _ :: rest => routesAdded rest

/-- The channels that dispatcher `message_pipe` was notified of, in order. -/
def channelsGot (message_pipe : Nat) : List Effect → List Nat
  | [] => []
  | .GotNonTransferableChannel pipe channel :: rest =>
    if pipe = message_pipe then channel :: channelsGot message_pipe rest
    else channelsGot message_pipe rest
  | _ :: rest => channelsGot message_pipe rest

/-- The errors delivered to dispatchers, in order, each with the dispatcher. -/
def errorsDelivered : List Effect → List (Nat × Error)
  | [] => []
  | .OnError pipe error :: rest => (pipe, error) :: errorsDelivered rest
  | _ :: rest => errorsDelivered rest

/-- The invariant of the channel members: the two in-process channels are both null or
both allocated and distinct, the registry has one entry per process id and never lists a
channel twice, and every channel the broker holds was handed out by the allocator. -/
structure WellFormed (s : ChildBroker) : Prop where
  pair : (s.in_process_pipes_channel1_ = none ∧ s.in_process_pipes_channel2_ = none) ∨
    (∃ channel1 channel2, s.in_process_pipes_channel1_ = some channel1 ∧
      s.in_process_pipes_channel2_ = some channel2 ∧ channel1 ≠ channel2 ∧
      channel1 < s.next_channel ∧ channel2 < s.next_channel)
  parent : ∀ parent, s.parent_async_channel_ = some parent → parent < s.next_channel
  keys : (s.channels_.map Prod.fst).Nodup
  values : (s.channels_.map Prod.snd).Nodup
  registry : ∀ it ∈ s.channels_, it.2 < s.next_channel
  connected : ∀ it ∈ s.connected_pipes_, it.2 < s.next_channel

/-- The transport contract (§6 of the spec): inbound messages are delivered by the parent
channel on the broker route, which `InitAsyncChannel` adds, so `OnReadMessage` runs only
once the bootstrap channel exists; the bootstrap handle is delivered once, so
`InitAsyncChannel` runs only while the bootstrap channel does not exist. -/
def Event.allowed (s : ChildBroker) : Event → Prop
  | .OnReadMessage _ _ _ => s.parent_async_channel_ ≠ none
  | .InitAsyncChannel _ _ _ => s.parent_async_channel_ = none
  | _ => True

/-- The states reachable from the constructed broker by events that respect the transport
contract. -/
inductive ReachableByProtocol (kBrokerRouteId : Nat) : ChildBroker → Prop
  | ctor : ReachableByProtocol kBrokerRouteId ChildBroker.ChildBroker
  | step (e : Event) (s s1 : ChildBroker) :
      ReachableByProtocol kBrokerRouteId s → e.allowed s →
      e.run kBrokerRouteId s = .ok s1 → ReachableByProtocol kBrokerRouteId s1

/-- The invariant of the window before the bootstrap channel exists: every staged pipe id
is pending, the queue holds only `CONNECT_MESSAGE_PIPE` messages, the staging map has one
entry per pipe id; and once the bootstrap channel exists the queue and the staging map are
empty. -/
structure BootstrapWindow (s : ChildBroker) : Prop where
  staged_pending : s.parent_async_channel_ = none →
    ∀ it ∈ s.pending_inprocess_connects_, StdMap.find it.1 s.pending_connects_ ≠ none
  queued_connects : s.parent_async_channel_ = none →
    ∀ message ∈ s.async_channel_queue_,
      message.data.type = MultiplexMessages.CONNECT_MESSAGE_PIPE
  flushed : s.parent_async_channel_ ≠ none →
    s.async_channel_queue_ = [] ∧ s.pending_inprocess_connects_ = []
  staged_unique : (s.pending_inprocess_connects_.map Prod.fst).Nodup

/-- The calls that can reach the broker while the bootstrap channel does not exist: every
method except the posted `InitAsyncChannel` task, which creates that channel, and
`OnReadMessage`, which is called by that channel once the broker is its route. -/
def Event.beforeBootstrap : Event → Bool
  | .OnReadMessage _ _ _ => false
  | .InitAsyncChannel _ _ _ => false
  | _ => true

/-- The invariant of the replay loop of `InitAsyncChannel` for a pipe id `pipe_id` that is
pending with dispatcher `X` and staged with dispatcher `Y`: the bootstrap channel exists,
the staging map has one entry per pipe id and every staged pipe id is pending; and either
the entry of `pipe_id` is still to be replayed, or `pipe_id` is not pending any more, the
in-process pair exists and `X` and `Y` are each connected to one of its halves.  Under
`exclusive`, no other pipe id is pending or staged with `X` or `Y`, and after the replay of
`pipe_id` dispatcher `X` is on the first half and `Y` on the second. -/
def InitAsyncChannel.ReplayInvariant (exclusive : Prop) (pipe_id X Y : Nat)
    (s : ChildBroker) : Prop :=
  WellFormed s ∧ s.parent_async_channel_ ≠ none ∧
  (s.pending_inprocess_connects_.map Prod.fst).Nodup ∧
  (∀ it ∈ s.pending_inprocess_connects_, StdMap.find it.1 s.pending_connects_ ≠ none) ∧
  (exclusive →
    (∀ it ∈ s.pending_inprocess_connects_, it.2 = X ∨ it.2 = Y → it.1 = pipe_id) ∧
    (∀ it ∈ s.pending_connects_, it.2 = X ∨ it.2 = Y → it.1 = pipe_id)) ∧
  ((StdMap.find pipe_id s.pending_connects_ = some X ∧
      (pipe_id, Y) ∈ s.pending_inprocess_connects_) ∨
    (StdMap.find pipe_id s.pending_connects_ = none ∧
      ∃ channel1 channel2,
        s.in_process_pipes_channel1_ = some channel1 ∧
        s.in_process_pipes_channel2_ = some channel2 ∧ channel1 ≠ channel2 ∧
        (StdMap.find X s.connected_pipes_ = some channel1 ∨
          StdMap.find X s.connected_pipes_ = some channel2) ∧
        (StdMap.find Y s.connected_pipes_ = some channel1 ∨
          StdMap.find Y s.connected_pipes_ = some channel2) ∧
        (exclusive →
          StdMap.find X s.connected_pipes_ = some channel1 ∧
          StdMap.find Y s.connected_pipes_ = some channel2)))

/-! ## The synchronous service (the `OS_WIN` part of child_broker.cc) -/

/-- Modelled from the spec: the message kinds of the synchronous service (§6);
broker_messages.h is not part of the sources. -/
inductive BrokerMessageId
  | CREATE_PLATFORM_CHANNEL_PAIR
  | HANDLE_TO_TOKEN
  | TOKEN_TO_HANDLE
  deriving DecidableEq, Repr

/-- A `BrokerMessage` as child_broker.cc fills it: the header members `size` and `id`, and
the elements of the trailing array (`handles[]` or `tokens[]`), in order. -/
structure BrokerMessage where
  size : Nat
  id : BrokerMessageId
  payload : List Nat
  deriving DecidableEq, Repr

/-- One call on the synchronous pipe: `WriteFile` with the message and the byte count it
was asked to write, or `ReadFile` with the byte count it was asked to read and its result
(`none` when it failed, the bytes it delivered otherwise). -/
inductive PipeCall
  | WriteFile (message : BrokerMessage) (nNumberOfBytesToWrite : Nat)
  | ReadFile (nNumberOfBytesToRead : Nat) (result : Option (List Nat))
  deriving DecidableEq, Repr

/-- The member `parent_sync_channel_` together with the parent behind it: whether the handle
is valid, what `WriteFile` answers for a message (`rv`, `bytes_written`), and what the
`k`-th `ReadFile` of a round trip answers when asked for a number of bytes. -/
structure SyncChannel where
  is_valid : Bool
  WriteFile : BrokerMessage → Bool × Nat
  ReadFile : Nat → Nat → Option (List Nat)

/-- The conversion to `uint32_t`. -/
def uint32 (n : Nat) : Nat := n % 4294967296

/-- The bytes `ReadFile` delivers land in the buffer at the position `response` points to. -/
def store (buffer : List Nat) (response : Nat) (bytes : List Nat) : List Nat :=
  buffer.take response ++ bytes ++ buffer.drop (response + bytes.length)

/-- The result of `WriteAndReadResponse`: it returned `result` with the response buffer and
the calls made on the pipe, it aborted, or the loop bound of the model was exhausted. -/
inductive RoundTrip
  | returned (result : Bool) (buffer : List Nat) (io : List PipeCall)
  | fatal (failure : Failure) (io : List PipeCall)
  | outOfFuel (buffer : List Nat) (io : List PipeCall)
  deriving DecidableEq, Repr

/-- The read loop of `WriteAndReadResponse`: `k` counts the reads made, `response_size` is
the `uint32_t` still to be read, `response` the position the pointer has advanced to. -/
def WriteAndReadResponse.loop (ReadFile : Nat → Nat → Option (List Nat)) :
    Nat → Nat → Nat → Nat → List Nat → List PipeCall → RoundTrip
  | 0, _, response_size, _, buffer, io =>
    if response_size = 0 then .returned true buffer io else .outOfFuel buffer io
  | fuel + 1, k, response_size, response, buffer, io =>
    if response_size = 0 then .returned true buffer io
    else
      match ReadFile k response_size with
      | none => .returned false buffer (io ++ [PipeCall.ReadFile response_size none])
      | some bytes =>
        WriteAndReadResponse.loop ReadFile fuel (k + 1)
          (uint32 (response_size + 4294967296 - uint32 bytes.length))
          (response + uint32 bytes.length)
          (store buffer response bytes)
          (io ++ [PipeCall.ReadFile response_size (some bytes)])

/-- The method `ChildBroker::WriteAndReadResponse`; `buffer` is the memory `response`
points to. -/
def WriteAndReadResponse (parent_sync_channel_ : SyncChannel) (fuel : Nat)
    (message : BrokerMessage) (buffer : List Nat) (response_size : Nat)
    (io : List PipeCall) : RoundTrip :=
  if parent_sync_channel_.is_valid = true then
    let written := parent_sync_channel_.WriteFile message
    let io1 := io ++ [PipeCall.WriteFile message message.size]
    if written.1 = true ∧ written.2 = message.size then
      WriteAndReadResponse.loop parent_sync_channel_.ReadFile fuel 0 response_size 0 buffer io1
    else .returned false buffer io1
  else .fatal .CHECK io

/-- The member `sync_channel_lock_` (`true` while held) and the calls made on the pipe. -/
structure SyncState where
  sync_channel_lock_ : Bool
  io : List PipeCall
  deriving DecidableEq, Repr

/-- The result of an operation of the synchronous service: it returned with the caller's
output in `value`, it waits in `Lock()` for a lock that is held, it aborted, or the loop
bound of the model was exhausted. -/
inductive SyncOutcome (α : Type)
  | returned (value : α) (st : SyncState)
  | blocked (st : SyncState)
  | fatal (failure : Failure) (st : SyncState)
  | outOfFuel (st : SyncState)
  deriving DecidableEq, Repr

/-- The method `ChildBroker::HandleToToken`; `count` is the length of `platform_handles`,
`tokens` is the caller's output array as bytes. -/
def HandleToToken (sizeof_HANDLE kBrokerMessageHeaderSize : Nat)
    (parent_sync_channel_ : SyncChannel) (fuel : Nat) (platform_handles : List Nat)
    (tokens : List Nat) (st : SyncState) : SyncOutcome (List Nat) :=
  let count := platform_handles.length
  let size := uint32 (kBrokerMessageHeaderSize + count * sizeof_HANDLE)
  let message : BrokerMessage :=
    { size := size, id := .HANDLE_TO_TOKEN, payload := platform_handles }
  let response_size := uint32 (count * 8)
  if st.sync_channel_lock_ = true then .blocked st
  else
    match WriteAndReadResponse parent_sync_channel_ fuel message tokens response_size st.io with
    | .returned _ tokens1 io => .returned tokens1 { sync_channel_lock_ := false, io := io }
    | .fatal failure io => .fatal failure { sync_channel_lock_ := true, io := io }
    | .outOfFuel _ io => .outOfFuel { sync_channel_lock_ := true, io := io }

/-- The method `ChildBroker::TokenToHandle`; `count` is the length of `tokens`, `handles`
is the caller's output array, each element the bytes of one `HANDLE`; `handles_temp` is
value-initialised by `std::vector`. -/
def TokenToHandle (sizeof_HANDLE kBrokerMessageHeaderSize : Nat)
    (parent_sync_channel_ : SyncChannel) (fuel : Nat) (tokens : List Nat)
    (handles : List (List Nat)) (st : SyncState) : SyncOutcome (List (List Nat)) :=
  let count := tokens.length
  let size := uint32 (kBrokerMessageHeaderSize + count * 8)
  let message : BrokerMessage := { size := size, id := .TOKEN_TO_HANDLE, payload := tokens }
  let handles_temp := List.replicate (count * sizeof_HANDLE) 0
  let response_size := uint32 (uint32 count * sizeof_HANDLE)
  if st.sync_channel_lock_ = true then .blocked st
  else
    match WriteAndReadResponse parent_sync_channel_ fuel message handles_temp response_size
        st.io with
    | .returned true temp io =>
      .returned
        ((List.range count).map (fun i => (temp.drop (i * sizeof_HANDLE)).take sizeof_HANDLE)
          ++ handles.drop count)
        { sync_channel_lock_ := false, io := io }
    | .returned false _ io => .returned handles { sync_channel_lock_ := true, io := io }
    | .fatal failure io => .fatal failure { sync_channel_lock_ := true, io := io }
    | .outOfFuel _ io => .outOfFuel { sync_channel_lock_ := true, io := io }

/-- The method `ChildBroker::CreatePlatformChannelPairNoLock`; `server` and `client` are
the caller's handles (the bytes of one `HANDLE` each); the local array `handles[2]` is
uninitialised in the source and taken as zeroes. -/
def CreatePlatformChannelPairNoLock (sizeof_HANDLE kBrokerMessageHeaderSize : Nat)
    (parent_sync_channel_ : SyncChannel) (fuel : Nat) (server client : List Nat)
    (st : SyncState) : SyncOutcome (List Nat × List Nat) :=
  let message : BrokerMessage :=
    { size := uint32 kBrokerMessageHeaderSize, id := .CREATE_PLATFORM_CHANNEL_PAIR,
      payload := [] }
  let response_size := uint32 (2 * sizeof_HANDLE)
  let handles := List.replicate (2 * sizeof_HANDLE) 0
  match WriteAndReadResponse parent_sync_channel_ fuel message handles response_size st.io with
  | .returned true handles1 io =>
    .returned (handles1.take sizeof_HANDLE, (handles1.drop sizeof_HANDLE).take sizeof_HANDLE)
      { st with io := io }
  | .returned false _ io => .returned (server, client) { st with io := io }
  | .fatal failure io => .fatal failure { st with io := io }
  | .outOfFuel _ io => .outOfFuel { st with io := io }

/-- The method `ChildBroker::CreatePlatformChannelPair`. -/
def CreatePlatformChannelPair (sizeof_HANDLE kBrokerMessageHeaderSize : Nat)
    (parent_sync_channel_ : SyncChannel) (fuel : Nat) (server client : List Nat)
    (st : SyncState) : SyncOutcome (List Nat × List Nat) :=
  if st.sync_channel_lock_ = true then .blocked st
  else
    match CreatePlatformChannelPairNoLock sizeof_HANDLE kBrokerMessageHeaderSize
        parent_sync_channel_ fuel server client { st with sync_channel_lock_ := true } with
    | .returned value st1 => .returned value { st1 with sync_channel_lock_ := false }
    | failed => failed

/-- The reads of a round trip in which the fragments `fragments` arrive in this order, when
`response_size` bytes are still missing: each read asks for what is missing. -/
def expectedReads : Nat → List (List Nat) → List PipeCall
  | _, [] => []
  | response_size, bytes :: rest =>
    PipeCall.ReadFile response_size (some bytes) ::
      expectedReads (response_size - bytes.length) rest

/-! ## Lemmas on the containers -/

theorem StdMap.find_assign_self (k v : Nat) (m : List (Nat × Nat)) :
    StdMap.find k (StdMap.assign k v m) = some v := by
  induction m with
  | nil => simp [StdMap.assign, StdMap.find]
  | cons it rest ih =>
    unfold StdMap.assign
    by_cases h1 : k < it.1
    · simp [h1, StdMap.find]
    · by_cases h2 : k = it.1
      · simp [h1, h2, StdMap.find]
      · have h3 : ¬ it.1 = k := fun h => h2 h.symm
        simp [h1, h2, h3, StdMap.find, ih]

theorem StdMap.find_assign_ne (k v q : Nat) (m : List (Nat × Nat)) (hq : q ≠ k) :
    StdMap.find q (StdMap.assign k v m) = StdMap.find q m := by
  have hk : ¬ k = q := fun h => hq h.symm
  induction m with
  | nil => simp [StdMap.assign, StdMap.find, hk]
  | cons it rest ih =>
    simp only [StdMap.assign]
    split_ifs with h1 h2
    · simp [StdMap.find, hk]
    · have h3 : ¬ it.1 = q := fun h => hk (h2.trans h)
      simp [StdMap.find, hk, h3]
    · simp only [StdMap.find, ih]

theorem StdMap.find_erase_self (k : Nat) (m : List (Nat × Nat)) :
    StdMap.find k (StdMap.erase k m) = none := by
  induction m with
  | nil => simp [StdMap.erase, StdMap.find]
  | cons it rest ih =>
    simp only [StdMap.erase] at ih
    by_cases h : it.1 = k
    · simp only [StdMap.erase, List.filter, h, ne_eq, not_true_eq_false, decide_False]
      exact ih
    · simp only [StdMap.erase, List.filter, h, ne_eq, not_false_eq_true, decide_True,
        StdMap.find, if_false]
      exact ih

theorem StdMap.find_erase_ne (k q : Nat) (m : List (Nat × Nat)) (hq : q ≠ k) :
    StdMap.find q (StdMap.erase k m) = StdMap.find q m := by
  induction m with
  | nil => simp [StdMap.erase, StdMap.find]
  | cons it rest ih =>
    simp only [StdMap.erase] at ih
    by_cases h : it.1 = k
    · subst h
      have h3 : ¬ it.1 = q := fun h4 => hq h4.symm
      simp only [StdMap.erase, List.filter, ne_eq, not_true_eq_false, decide_False,
        StdMap.find, h3, if_false]
      exact ih
    · simp only [StdMap.erase, List.filter, h, ne_eq, not_false_eq_true, decide_True,
        StdMap.find]
      rw [ih]

theorem StdMap.mem_erase (k : Nat) (m : List (Nat × Nat)) (x : Nat × Nat) :
    x ∈ StdMap.erase k m ↔ x ∈ m ∧ x.1 ≠ k := by
  simp [StdMap.erase]

theorem StdMap.mem_assign (k v : Nat) (m : List (Nat × Nat)) (x : Nat × Nat)
    (hx : x ∈ StdMap.assign k v m) : x = (k, v) ∨ x ∈ m := by
  induction m with
  | nil => simpa [StdMap.assign] using hx
  | cons it rest ih =>
    simp only [StdMap.assign] at hx
    split_ifs at hx with h1 h2
    · simpa using hx
    · rcases List.mem_cons.1 hx with hx | hx
      · exact Or.inl hx
      · exact Or.inr (List.mem_cons_of_mem _ hx)
    · rcases List.mem_cons.1 hx with hx | hx
      · exact Or.inr (by simp [hx])
      · rcases ih hx with h | h
        · exact Or.inl h
        · exact Or.inr (List.mem_cons_of_mem _ h)

theorem StdMap.find_eq_none_iff (k : Nat) (m : List (Nat × Nat)) :
    StdMap.find k m = none ↔ ∀ x ∈ m, x.1 ≠ k := by
  induction m with
  | nil => simp [StdMap.find]
  | cons it rest ih =>
    by_cases h : it.1 = k
    · simp [StdMap.find, h]
    · simp [StdMap.find, h, ih]

theorem StdMap.mem_of_find (k v : Nat) (m : List (Nat × Nat))
    (h : StdMap.find k m = some v) : (k, v) ∈ m := by
  induction m with
  | nil => simp [StdMap.find] at h
  | cons it rest ih =>
    by_cases h1 : it.1 = k
    · simp only [StdMap.find, h1, if_true, Option.some.injEq] at h
      have : it = (k, v) := by rw [← h1, ← h]
      simp [this]
    · simp only [StdMap.find, h1, if_false] at h
      exact List.mem_cons_of_mem _ (ih h)

theorem StdMap.assign_perm (k v : Nat) (m : List (Nat × Nat))
    (h : StdMap.find k m = none) : (StdMap.assign k v m).Perm ((k, v) :: m) := by
  induction m with
  | nil => simp [StdMap.assign]
  | cons it rest ih =>
    have hk : ¬ k = it.1 := by
      intro e
      simp [StdMap.find, e] at h
    have hr : StdMap.find k rest = none := by
      have : ¬ it.1 = k := fun e => hk e.symm
      simpa [StdMap.find, this] using h
    unfold StdMap.assign
    by_cases h1 : k < it.1
    · simp [h1]
    · simp only [h1, hk, if_false]
      exact ((ih hr).cons it).trans (List.Perm.swap _ _ _)

/-! ## Lemmas on the observations -/

theorem writes_append (l1 l2 : List Effect) : writes (l1 ++ l2) = writes l1 ++ writes l2 := by
  induction l1 with
  | nil => rfl
  | cons e rest ih => cases e <;> simp [writes, ih]

theorem routesAdded_append (l1 l2 : List Effect) :
    routesAdded (l1 ++ l2) = routesAdded l1 ++ routesAdded l2 := by
  induction l1 with
  | nil => rfl
  | cons e rest ih => cases e <;> simp [routesAdded, ih]

theorem errorsDelivered_append (l1 l2 : List Effect) :
    errorsDelivered (l1 ++ l2) = errorsDelivered l1 ++ errorsDelivered l2 := by
  induction l1 with
  | nil => rfl
  | cons e rest ih => cases e <;> simp [errorsDelivered, ih]

/-! ## The branches of the operations -/

theorem ConnectMessagePipe_eq_first (kBrokerRouteId : Nat) (channel_pair : Nat × Nat)
    (pipe_id message_pipe : Nat) (s : ChildBroker)
    (h : StdMap.find pipe_id s.pending_connects_ = none) :
    ConnectMessagePipe kBrokerRouteId channel_pair pipe_id message_pipe s =
      .ok (WriteAsyncMessage kBrokerRouteId
        { type := .CONNECT_MESSAGE_PIPE, pipe_id := pipe_id }
        { s with pending_connects_ :=
            StdMap.assign pipe_id message_pipe s.pending_connects_ }) := by
  simp only [ConnectMessagePipe, h]

theorem ConnectMessagePipe_eq_staged (kBrokerRouteId : Nat) (channel_pair : Nat × Nat)
    (pipe_id message_pipe pending_pipe : Nat) (s : ChildBroker)
    (h : StdMap.find pipe_id s.pending_connects_ = some pending_pipe)
    (hparent : s.parent_async_channel_ = none)
    (hstaged : StdMap.find pipe_id s.pending_inprocess_connects_ = none) :
    ConnectMessagePipe kBrokerRouteId channel_pair pipe_id message_pipe s =
      .ok { s with pending_inprocess_connects_ :=
              StdMap.assign pipe_id message_pipe s.pending_inprocess_connects_ } := by
  simp only [ConnectMessagePipe, h, hparent, hstaged, if_true]

theorem ConnectMessagePipe_eq_staged_twice (kBrokerRouteId : Nat) (channel_pair : Nat × Nat)
    (pipe_id message_pipe pending_pipe : Nat) (s : ChildBroker)
    (h : StdMap.find pipe_id s.pending_connects_ = some pending_pipe)
    (hparent : s.parent_async_channel_ = none)
    (hstaged : StdMap.find pipe_id s.pending_inprocess_connects_ ≠ none) :
    ConnectMessagePipe kBrokerRouteId channel_pair pipe_id message_pipe s =
      .fatal .CHECK s := by
  simp only [ConnectMessagePipe, h, hparent, hstaged, if_false]

theorem ConnectMessagePipe_eq_shortcut (kBrokerRouteId : Nat) (channel_pair : Nat × Nat)
    (pipe_id message_pipe pending_pipe parent channel1 channel2 : Nat) (s : ChildBroker)
    (h : StdMap.find pipe_id s.pending_connects_ = some pending_pipe)
    (hparent : s.parent_async_channel_ = some parent)
    (h1 : s.in_process_pipes_channel1_ = some channel1)
    (h2 : s.in_process_pipes_channel2_ = some channel2) :
    ConnectMessagePipe kBrokerRouteId channel_pair pipe_id message_pipe s =
      .ok { s with
            connected_pipes_ :=
              StdMap.assign message_pipe channel2
                (StdMap.assign pending_pipe channel1 s.connected_pipes_)
            log := s.log ++
              [Effect.WriteMessage parent
                 { route_id := kBrokerRouteId,
                   data := { type := .CANCEL_CONNECT_MESSAGE_PIPE, pipe_id := pipe_id } },
               Effect.AddRoute channel1 pipe_id (.pipe pending_pipe),
               Effect.AddRoute channel2 pipe_id (.pipe message_pipe),
               Effect.GotNonTransferableChannel pending_pipe channel1,
               Effect.GotNonTransferableChannel message_pipe channel2]
            pending_connects_ := StdMap.erase pipe_id s.pending_connects_ } := by
  simp [ConnectMessagePipe, WriteAsyncMessage, h, hparent, h1, h2]

theorem ConnectMessagePipe_eq_shortcut_new (kBrokerRouteId : Nat) (channel_pair : Nat × Nat)
    (pipe_id message_pipe pending_pipe parent : Nat) (s : ChildBroker)
    (h : StdMap.find pipe_id s.pending_connects_ = some pending_pipe)
    (hparent : s.parent_async_channel_ = some parent)
    (h1 : s.in_process_pipes_channel1_ = none) :
    ConnectMessagePipe kBrokerRouteId channel_pair pipe_id message_pipe s =
      .ok { s with
            in_process_pipes_channel1_ := some s.next_channel
            in_process_pipes_channel2_ := some (s.next_channel + 1)
            next_channel := s.next_channel + 2
            connected_pipes_ :=
              StdMap.assign message_pipe (s.next_channel + 1)
                (StdMap.assign pending_pipe s.next_channel s.connected_pipes_)
            log := s.log ++
              [Effect.WriteMessage parent
                 { route_id := kBrokerRouteId,
                   data := { type := .CANCEL_CONNECT_MESSAGE_PIPE, pipe_id := pipe_id } },
               Effect.NewRoutedRawChannel s.next_channel channel_pair.1,
               Effect.NewRoutedRawChannel (s.next_channel + 1) channel_pair.2,
               Effect.AddRoute s.next_channel pipe_id (.pipe pending_pipe),
               Effect.AddRoute (s.next_channel + 1) pipe_id (.pipe message_pipe),
               Effect.GotNonTransferableChannel pending_pipe s.next_channel,
               Effect.GotNonTransferableChannel message_pipe (s.next_channel + 1)]
            pending_connects_ := StdMap.erase pipe_id s.pending_connects_ } := by
  simp [ConnectMessagePipe, WriteAsyncMessage, h, hparent, h1]

theorem OnReadMessage_eq_not_pending (DCHECK_IS_ON : Bool) (pipe_id process_id : Nat)
    (platform_handles : Option (List Nat)) (s : ChildBroker)
    (hd : DCHECK_IS_ON = false ∨ platform_handles = none)
    (h : StdMap.find pipe_id s.pending_connects_ = none) :
    OnReadMessage DCHECK_IS_ON
      { type := .PEER_PIPE_CONNECTED, pipe_id := pipe_id, process_id := process_id }
      platform_handles s = .fatal .CHECK s := by
  have hd1 : ¬ (DCHECK_IS_ON = true ∧ platform_handles ≠ none) := by
    rintro ⟨h1, h2⟩
    rcases hd with hd | hd
    · simp [hd] at h1
    · exact h2 hd
  simp only [OnReadMessage, hd1, if_false, h]

theorem OnReadMessage_eq_parent (DCHECK_IS_ON : Bool) (pipe_id pipe parent : Nat)
    (platform_handles : Option (List Nat)) (s : ChildBroker)
    (hd : DCHECK_IS_ON = false ∨ platform_handles = none)
    (h : StdMap.find pipe_id s.pending_connects_ = some pipe)
    (hparent : s.parent_async_channel_ = some parent) :
    OnReadMessage DCHECK_IS_ON
      { type := .PEER_PIPE_CONNECTED, pipe_id := pipe_id, process_id := 0 }
      platform_handles s =
      .ok { s with
            pending_connects_ := StdMap.erase pipe_id s.pending_connects_
            connected_pipes_ := StdMap.assign pipe parent s.connected_pipes_
            log := s.log ++ [Effect.AddRoute parent pipe_id (.pipe pipe),
                             Effect.GotNonTransferableChannel pipe parent] } := by
  have hd1 : ¬ (DCHECK_IS_ON = true ∧ platform_handles ≠ none) := by
    rintro ⟨h1, h2⟩
    rcases hd with hd | hd
    · simp [hd] at h1
    · exact h2 hd
  simp only [OnReadMessage, hd1, if_false, h, hparent, if_true]

theorem OnReadMessage_eq_peer_gone (DCHECK_IS_ON : Bool) (pipe_id process_id pipe : Nat)
    (platform_handles : Option (List Nat)) (s : ChildBroker)
    (hd : DCHECK_IS_ON = false ∨ platform_handles = none)
    (h : StdMap.find pipe_id s.pending_connects_ = some pipe)
    (hpid : process_id ≠ 0)
    (hgone : StdMap.find process_id s.channels_ = none) :
    OnReadMessage DCHECK_IS_ON
      { type := .PEER_PIPE_CONNECTED, pipe_id := pipe_id, process_id := process_id }
      platform_handles s =
      .ok { s with
            pending_connects_ := StdMap.erase pipe_id s.pending_connects_
            log := s.log ++ [Effect.OnError pipe .ERROR_READ_SHUTDOWN] } := by
  have hd1 : ¬ (DCHECK_IS_ON = true ∧ platform_handles ≠ none) := by
    rintro ⟨h1, h2⟩
    rcases hd with hd | hd
    · simp [hd] at h1
    · exact h2 hd
  simp only [OnReadMessage, hd1, if_false, h, hpid, hgone]

theorem OnReadMessage_eq_peer (DCHECK_IS_ON : Bool) (pipe_id process_id pipe channel : Nat)
    (platform_handles : Option (List Nat)) (s : ChildBroker)
    (hd : DCHECK_IS_ON = false ∨ platform_handles = none)
    (h : StdMap.find pipe_id s.pending_connects_ = some pipe)
    (hpid : process_id ≠ 0)
    (hpeer : StdMap.find process_id s.channels_ = some channel)
    (hfree : StdMap.find pipe s.connected_pipes_ = none) :
    OnReadMessage DCHECK_IS_ON
      { type := .PEER_PIPE_CONNECTED, pipe_id := pipe_id, process_id := process_id }
      platform_handles s =
      .ok { s with
            pending_connects_ := StdMap.erase pipe_id s.pending_connects_
            connected_pipes_ := StdMap.assign pipe channel s.connected_pipes_
            log := s.log ++ [Effect.AddRoute channel pipe_id (.pipe pipe),
                             Effect.GotNonTransferableChannel pipe channel] } := by
  have hd1 : ¬ (DCHECK_IS_ON = true ∧ platform_handles ≠ none) := by
    rintro ⟨h1, h2⟩
    rcases hd with hd | hd
    · simp [hd] at h1
    · exact h2 hd
  simp only [OnReadMessage, hd1, if_false, h, hpid, hpeer, hfree, if_true]

theorem OnReadMessage_eq_peer_already_connected (DCHECK_IS_ON : Bool)
    (pipe_id process_id pipe channel : Nat)
    (platform_handles : Option (List Nat)) (s : ChildBroker)
    (hd : DCHECK_IS_ON = false ∨ platform_handles = none)
    (h : StdMap.find pipe_id s.pending_connects_ = some pipe)
    (hpid : process_id ≠ 0)
    (hpeer : StdMap.find process_id s.channels_ = some channel)
    (hbusy : StdMap.find pipe s.connected_pipes_ ≠ none) :
    OnReadMessage DCHECK_IS_ON
      { type := .PEER_PIPE_CONNECTED, pipe_id := pipe_id, process_id := process_id }
      platform_handles s =
      .fatal .CHECK { s with pending_connects_ := StdMap.erase pipe_id s.pending_connects_ } := by
  have hd1 : ¬ (DCHECK_IS_ON = true ∧ platform_handles ≠ none) := by
    rintro ⟨h1, h2⟩
    rcases hd with hd | hd
    · simp [hd] at h1
    · exact h2 hd
  simp only [OnReadMessage, hd1, if_false, h, hpid, hpeer, hbusy]

theorem OnReadMessage_eq_unexpected_handles (pipe_id process_id : Nat)
    (platform_handles : Option (List Nat)) (s : ChildBroker)
    (h : platform_handles ≠ none) :
    OnReadMessage true
      { type := .PEER_PIPE_CONNECTED, pipe_id := pipe_id, process_id := process_id }
      platform_handles s = .fatal .DCHECK s := by
  simp [OnReadMessage, h]

theorem dcheck_off_or_no_handles (DCHECK_IS_ON : Bool) (platform_handles : Option (List Nat))
    (h : ¬ (DCHECK_IS_ON = true ∧ platform_handles ≠ none)) :
    DCHECK_IS_ON = false ∨ platform_handles = none := by
  cases DCHECK_IS_ON with
  | false => exact Or.inl rfl
  | true =>
    refine Or.inr ?_
    by_contra hne
    exact h ⟨rfl, hne⟩

/-! ## The invariant holds in every reachable state -/

theorem WellFormed_ctor : WellFormed ChildBroker.ChildBroker := by
  constructor <;> simp [ChildBroker.ChildBroker]

theorem WellFormed_of_channel_members (s s1 : ChildBroker) (h : WellFormed s)
    (h1 : s1.in_process_pipes_channel1_ = s.in_process_pipes_channel1_)
    (h2 : s1.in_process_pipes_channel2_ = s.in_process_pipes_channel2_)
    (h3 : s1.parent_async_channel_ = s.parent_async_channel_)
    (h4 : s1.channels_ = s.channels_)
    (h5 : s1.connected_pipes_ = s.connected_pipes_)
    (h6 : s1.next_channel = s.next_channel) : WellFormed s1 := by
  constructor
  · rw [h1, h2, h6]; exact h.pair
  · rw [h3, h6]; exact h.parent
  · rw [h4]; exact h.keys
  · rw [h4]; exact h.values
  · rw [h4, h6]; exact h.registry
  · rw [h5, h6]; exact h.connected

theorem WriteAsyncMessage_wellFormed (kBrokerRouteId : Nat) (data : ConnectMessagePipeMessage)
    (s : ChildBroker) (h : WellFormed s) :
    WellFormed (WriteAsyncMessage kBrokerRouteId data s) := by
  apply WellFormed_of_channel_members s _ h <;>
    (unfold WriteAsyncMessage; cases s.parent_async_channel_ <;> rfl)

theorem ConnectMessagePipe_wellFormed (kBrokerRouteId : Nat) (channel_pair : Nat × Nat)
    (pipe_id message_pipe : Nat) (s s1 : ChildBroker) (h : WellFormed s)
    (hrun : ConnectMessagePipe kBrokerRouteId channel_pair pipe_id message_pipe s = .ok s1) :
    WellFormed s1 := by
  cases hp : StdMap.find pipe_id s.pending_connects_ with
  | none =>
    rw [ConnectMessagePipe_eq_first _ _ _ _ _ hp] at hrun
    cases hrun
    apply WriteAsyncMessage_wellFormed
    exact WellFormed_of_channel_members s _ h rfl rfl rfl rfl rfl rfl
  | some pending_pipe =>
    cases hparent : s.parent_async_channel_ with
    | none =>
      by_cases hst : StdMap.find pipe_id s.pending_inprocess_connects_ = none
      · rw [ConnectMessagePipe_eq_staged _ _ _ _ _ _ hp hparent hst] at hrun
        cases hrun
        exact WellFormed_of_channel_members s _ h rfl rfl rfl rfl rfl rfl
      · rw [ConnectMessagePipe_eq_staged_twice _ _ _ _ _ _ hp hparent hst] at hrun
        cases hrun
    | some parent =>
      rcases h.pair with ⟨h1, _⟩ | ⟨channel1, channel2, h1, h2, hne, hlt1, hlt2⟩
      · rw [ConnectMessagePipe_eq_shortcut_new _ _ _ _ _ _ _ hp hparent h1] at hrun
        cases hrun
        constructor
        · exact Or.inr ⟨s.next_channel, s.next_channel + 1, rfl, rfl, by simp, by simp,
            by simp⟩
        · intro c hc
          have := h.parent c hc
          show c < s.next_channel + 2
          omega
        · exact h.keys
        · exact h.values
        · intro it hit
          have := h.registry it hit
          show it.2 < s.next_channel + 2
          omega
        · intro it hit
          show it.2 < s.next_channel + 2
          rcases StdMap.mem_assign _ _ _ _ hit with e | hit
          · rw [e]; simp
          · rcases StdMap.mem_assign _ _ _ _ hit with e | hit
            · rw [e]; simp
            · have := h.connected it hit
              omega
      · rw [ConnectMessagePipe_eq_shortcut _ _ _ _ _ _ _ _ _ hp hparent h1 h2] at hrun
        cases hrun
        constructor
        · exact h.pair
        · exact h.parent
        · exact h.keys
        · exact h.values
        · exact h.registry
        · intro it hit
          show it.2 < s.next_channel
          rcases StdMap.mem_assign _ _ _ _ hit with e | hit
          · rw [e]; exact hlt2
          · rcases StdMap.mem_assign _ _ _ _ hit with e | hit
            · rw [e]; exact hlt1
            · exact h.connected it hit

theorem CloseMessagePipe_wellFormed (pipe_id message_pipe : Nat) (s s1 : ChildBroker)
    (h : WellFormed s) (hrun : CloseMessagePipe pipe_id message_pipe s = .ok s1) :
    WellFormed s1 := by
  unfold CloseMessagePipe at hrun
  split at hrun
  · cases hrun
  · cases hrun
    constructor
    · exact h.pair
    · exact h.parent
    · exact h.keys
    · exact h.values
    · exact h.registry
    · intro it hit
      exact h.connected it ((StdMap.mem_erase _ _ _).1 hit).1

theorem StdMap.erase_sublist (k : Nat) (m : List (Nat × Nat)) :
    List.Sublist (StdMap.erase k m) m := by
  unfold StdMap.erase
  exact List.filter_sublist m

theorem ChannelDestructed_wellFormed (channel : Nat) (s : ChildBroker) (h : WellFormed s) :
    WellFormed (ChannelDestructed channel s) := by
  unfold ChannelDestructed
  split
  · constructor
    · exact h.pair
    · exact h.parent
    · exact h.keys.sublist ((StdMap.erase_sublist _ _).map _)
    · exact h.values.sublist ((StdMap.erase_sublist _ _).map _)
    · intro it hit
      exact h.registry it ((StdMap.mem_erase _ _ _).1 hit).1
    · exact h.connected
  · exact h

theorem OnReadMessage_wellFormed (DCHECK_IS_ON : Bool) (message_view : MessageView)
    (platform_handles : Option (List Nat)) (s s1 : ChildBroker) (h : WellFormed s)
    (hrun : OnReadMessage DCHECK_IS_ON message_view platform_handles s = .ok s1) :
    WellFormed s1 := by
  unfold OnReadMessage at hrun
  split at hrun
  · -- CONNECT_TO_PROCESS
    split at hrun
    · cases hrun
    · split at hrun
      · cases hrun
      · split at hrun
        · cases hrun
        · split at hrun
          · rename_i hfind
            cases hrun
            have hperm := StdMap.assign_perm message_view.process_id s.next_channel
              s.channels_ hfind
            constructor
            · rcases h.pair with hn | ⟨channel1, channel2, h1, h2, hne, hlt1, hlt2⟩
              · exact Or.inl hn
              · exact Or.inr ⟨channel1, channel2, h1, h2, hne,
                  Nat.lt_succ_of_lt hlt1, Nat.lt_succ_of_lt hlt2⟩
            · intro c hc
              exact Nat.lt_succ_of_lt (h.parent c hc)
            · refine ((hperm.map Prod.fst).nodup_iff).2 ?_
              simp only [List.map_cons, List.nodup_cons]
              refine ⟨?_, h.keys⟩
              intro hmem
              rcases List.mem_map.1 hmem with ⟨it, hit, e⟩
              exact (StdMap.find_eq_none_iff _ _).1 hfind it hit e
            · refine ((hperm.map Prod.snd).nodup_iff).2 ?_
              simp only [List.map_cons, List.nodup_cons]
              refine ⟨?_, h.values⟩
              intro hmem
              rcases List.mem_map.1 hmem with ⟨it, hit, e⟩
              have := h.registry it hit
              omega
            · intro it hit
              show it.2 < s.next_channel + 1
              rcases StdMap.mem_assign _ _ _ _ hit with e | hit
              · rw [e]; simp
              · exact Nat.lt_succ_of_lt (h.registry it hit)
            · intro it hit
              exact Nat.lt_succ_of_lt (h.connected it hit)
          · cases hrun
  · -- PEER_PIPE_CONNECTED
    split at hrun
    · cases hrun
    · simp only at hrun
      split at hrun
      · cases hrun
      · split at hrun
        · split at hrun
          · cases hrun
          · rename_i parent hparent
            cases hrun
            constructor
            · exact h.pair
            · exact h.parent
            · exact h.keys
            · exact h.values
            · exact h.registry
            · intro it hit
              show it.2 < s.next_channel
              rcases StdMap.mem_assign _ _ _ _ hit with e | hit
              · rw [e]; exact h.parent parent hparent
              · exact h.connected it hit
        · split at hrun
          · cases hrun
            exact WellFormed_of_channel_members s _ h rfl rfl rfl rfl rfl rfl
          · rename_i channel hchannel
            split at hrun
            · cases hrun
              constructor
              · exact h.pair
              · exact h.parent
              · exact h.keys
              · exact h.values
              · exact h.registry
              · intro it hit
                show it.2 < s.next_channel
                rcases StdMap.mem_assign _ _ _ _ hit with e | hit
                · rw [e]
                  exact h.registry (message_view.process_id, channel)
                    (StdMap.mem_of_find _ _ _ hchannel)
                · exact h.connected it hit
            · cases hrun
  · split at hrun
    · cases hrun
    · cases hrun
      exact h

theorem InitAsyncChannel.drain_wellFormed (parent : Nat) (queue : List MessageInTransit)
    (s : ChildBroker) (h : WellFormed s) :
    WellFormed (InitAsyncChannel.drain parent queue s) := by
  induction queue generalizing s with
  | nil => exact WellFormed_of_channel_members s _ h rfl rfl rfl rfl rfl rfl
  | cons message rest ih =>
    exact ih _ (WellFormed_of_channel_members s _ h rfl rfl rfl rfl rfl rfl)

theorem InitAsyncChannel.replay_wellFormed (kBrokerRouteId : Nat) (channel_pair : Nat × Nat)
    (fuel : Nat) (s s1 : ChildBroker) (h : WellFormed s)
    (hrun : InitAsyncChannel.replay kBrokerRouteId channel_pair fuel s = .ok s1) :
    WellFormed s1 := by
  induction fuel generalizing s with
  | zero =>
    unfold InitAsyncChannel.replay at hrun
    split at hrun
    · cases hrun; exact h
    · cases hrun
  | succ fuel ih =>
    unfold InitAsyncChannel.replay at hrun
    split at hrun
    · cases hrun; exact h
    · simp only at hrun
      split at hrun
      · rename_i s2 hconnect
        have h2 := ConnectMessagePipe_wellFormed _ _ _ _ _ _ h hconnect
        refine ih _ ?_ hrun
        exact WellFormed_of_channel_members s2 _ h2 rfl rfl rfl rfl rfl rfl
      · rename_i hfailed
        rw [hrun] at hfailed
        exact absurd rfl (hfailed s1)

theorem InitAsyncChannel_wellFormed (kBrokerRouteId : Nat) (channel_pair : Nat × Nat)
    (fuel handle : Nat) (s s1 : ChildBroker) (h : WellFormed s)
    (hrun : InitAsyncChannel kBrokerRouteId channel_pair fuel handle s = .ok s1) :
    WellFormed s1 := by
  unfold InitAsyncChannel at hrun
  refine InitAsyncChannel.replay_wellFormed _ _ _ _ _ ?_ hrun
  apply InitAsyncChannel.drain_wellFormed
  constructor
  · rcases h.pair with hn | ⟨channel1, channel2, h1, h2, hne, hlt1, hlt2⟩
    · exact Or.inl hn
    · exact Or.inr ⟨channel1, channel2, h1, h2, hne,
        Nat.lt_succ_of_lt hlt1, Nat.lt_succ_of_lt hlt2⟩
  · intro c hc
    show c < s.next_channel + 1
    cases hc
    simp
  · exact h.keys
  · exact h.values
  · intro it hit
    exact Nat.lt_succ_of_lt (h.registry it hit)
  · intro it hit
    exact Nat.lt_succ_of_lt (h.connected it hit)

theorem Reachable.wellFormed (kBrokerRouteId : Nat) (s : ChildBroker)
    (h : Reachable kBrokerRouteId s) : WellFormed s := by
  induction h with
  | ctor => exact WellFormed_ctor
  | step e s s1 _ hrun ih =>
    cases e with
    | ConnectMessagePipe channel_pair pipe_id message_pipe =>
      exact ConnectMessagePipe_wellFormed _ _ _ _ _ _ ih hrun
    | CloseMessagePipe pipe_id message_pipe =>
      exact CloseMessagePipe_wellFormed _ _ _ _ ih hrun
    | OnReadMessage dcheck message_view platform_handles =>
      exact OnReadMessage_wellFormed _ _ _ _ _ ih hrun
    | ChannelDestructed channel =>
      simp only [Event.run, Outcome.ok.injEq] at hrun
      rw [← hrun]
      exact ChannelDestructed_wellFormed _ _ ih
    | InitAsyncChannel channel_pair fuel handle =>
      exact InitAsyncChannel_wellFormed _ _ _ _ _ _ ih hrun

theorem Reachable.of_runEvents (kBrokerRouteId : Nat) (events : List Event)
    (s s1 : ChildBroker) (h : Reachable kBrokerRouteId s)
    (hrun : runEvents kBrokerRouteId events s = .ok s1) : Reachable kBrokerRouteId s1 := by
  induction events generalizing s with
  | nil =>
    simp only [runEvents, Outcome.ok.injEq] at hrun
    rw [← hrun]
    exact h
  | cons e rest ih =>
    unfold runEvents at hrun
    split at hrun
    · rename_i s2 hstep
      exact ih s2 (Reachable.step e s s2 h hstep) hrun
    · rename_i hfailed
      rw [hrun] at hfailed
      exact absurd rfl (hfailed s1)

/-! ## Connecting a pipe -/

/-- C1: for every broker state and every pipe id with no pending entry,
`ConnectMessagePipe` returns, records the pending entry `pipe_id -> message_pipe` and
touches no other pending entry, leaves the connected-pipe table, the registry, the staging
map and the channel members unchanged, and emits exactly one `CONNECT_MESSAGE_PIPE`
message for `pipe_id` stamped with the broker route: written to the parent channel when it
exists (queue unchanged), appended at the tail of the queue otherwise (log unchanged). -/
theorem ConnectMessagePipe_first_request (kBrokerRouteId : Nat) (channel_pair : Nat × Nat)
    (pipe_id message_pipe : Nat) (s : ChildBroker)
    (h : StdMap.find pipe_id s.pending_connects_ = none) :
    ∃ s1, ConnectMessagePipe kBrokerRouteId channel_pair pipe_id message_pipe s = .ok s1 ∧
      s1.pending_connects_ = StdMap.assign pipe_id message_pipe s.pending_connects_ ∧
      StdMap.find pipe_id s1.pending_connects_ = some message_pipe ∧
      (∀ q, q ≠ pipe_id →
        StdMap.find q s1.pending_connects_ = StdMap.find q s.pending_connects_) ∧
      s1.connected_pipes_ = s.connected_pipes_ ∧
      s1.channels_ = s.channels_ ∧
      s1.pending_inprocess_connects_ = s.pending_inprocess_connects_ ∧
      s1.parent_async_channel_ = s.parent_async_channel_ ∧
      s1.in_process_pipes_channel1_ = s.in_process_pipes_channel1_ ∧
      s1.in_process_pipes_channel2_ = s.in_process_pipes_channel2_ ∧
      s1.next_channel = s.next_channel ∧
      (∀ parent, s.parent_async_channel_ = some parent →
        s1.log = s.log ++ [Effect.WriteMessage parent
          { route_id := kBrokerRouteId,
            data := { type := .CONNECT_MESSAGE_PIPE, pipe_id := pipe_id } }] ∧
        s1.async_channel_queue_ = s.async_channel_queue_) ∧
      (s.parent_async_channel_ = none →
        s1.log = s.log ∧
        s1.async_channel_queue_ = s.async_channel_queue_ ++
          [{ route_id := kBrokerRouteId,
             data := { type := .CONNECT_MESSAGE_PIPE, pipe_id := pipe_id } }]) := by
  have hrun : ConnectMessagePipe kBrokerRouteId channel_pair pipe_id message_pipe s =
      .ok (WriteAsyncMessage kBrokerRouteId
        { type := .CONNECT_MESSAGE_PIPE, pipe_id := pipe_id }
        { s with pending_connects_ :=
            StdMap.assign pipe_id message_pipe s.pending_connects_ }) := by
    simp only [ConnectMessagePipe, h]
  refine ⟨_, hrun, ?_⟩
  cases hp : s.parent_async_channel_ with
  | none =>
    simp [WriteAsyncMessage, hp, StdMap.find_assign_self]
    intro q hq
    exact StdMap.find_assign_ne _ _ _ _ hq
  | some parent =>
    simp [WriteAsyncMessage, hp, StdMap.find_assign_self]
    intro q hq
    exact StdMap.find_assign_ne _ _ _ _ hq

/-- Witness for C1 on the constructed broker: pipe id 42 is not pending there. -/
theorem ConnectMessagePipe_first_request_witness :
    ∃ s1, ConnectMessagePipe 1 (100, 101) 42 7 ChildBroker.ChildBroker = .ok s1 ∧
      s1.pending_connects_ = StdMap.assign 42 7 ChildBroker.ChildBroker.pending_connects_ ∧
      StdMap.find 42 s1.pending_connects_ = some 7 ∧
      (∀ q, q ≠ 42 →
        StdMap.find q s1.pending_connects_ =
          StdMap.find q ChildBroker.ChildBroker.pending_connects_) ∧
      s1.connected_pipes_ = ChildBroker.ChildBroker.connected_pipes_ ∧
      s1.channels_ = ChildBroker.ChildBroker.channels_ ∧
      s1.pending_inprocess_connects_ = ChildBroker.ChildBroker.pending_inprocess_connects_ ∧
      s1.parent_async_channel_ = ChildBroker.ChildBroker.parent_async_channel_ ∧
      s1.in_process_pipes_channel1_ = ChildBroker.ChildBroker.in_process_pipes_channel1_ ∧
      s1.in_process_pipes_channel2_ = ChildBroker.ChildBroker.in_process_pipes_channel2_ ∧
      s1.next_channel = ChildBroker.ChildBroker.next_channel ∧
      (∀ parent, ChildBroker.ChildBroker.parent_async_channel_ = some parent →
        s1.log = ChildBroker.ChildBroker.log ++ [Effect.WriteMessage parent
          { route_id := 1, data := { type := .CONNECT_MESSAGE_PIPE, pipe_id := 42 } }] ∧
        s1.async_channel_queue_ = ChildBroker.ChildBroker.async_channel_queue_) ∧
      (ChildBroker.ChildBroker.parent_async_channel_ = none →
        s1.log = ChildBroker.ChildBroker.log ∧
        s1.async_channel_queue_ = ChildBroker.ChildBroker.async_channel_queue_ ++
          [{ route_id := 1, data := { type := .CONNECT_MESSAGE_PIPE, pipe_id := 42 } }]) :=
  ConnectMessagePipe_first_request 1 (100, 101) 42 7 ChildBroker.ChildBroker (by decide)

/-- C2: in every reachable state in which the bootstrap channel exists and `pipe_id` is
pending with dispatcher `X`, `ConnectMessagePipe(pipe_id, Y)` with `Y ≠ X` returns; the
only message it writes is one `CANCEL_CONNECT_MESSAGE_PIPE(pipe_id)` on the broker route
of the parent channel; afterwards `pipe_id` is not pending, the two in-process channels
exist and differ, `X` is connected to the first and `Y` to the second, the only routes
added are `pipe_id -> X` on the first and `pipe_id -> Y` on the second, each of the two
dispatchers is notified of its channel exactly once, and no error is delivered. -/
theorem ConnectMessagePipe_same_process (kBrokerRouteId : Nat) (channel_pair : Nat × Nat)
    (pipe_id X Y parent : Nat) (s : ChildBroker)
    (hreach : Reachable kBrokerRouteId s)
    (hparent : s.parent_async_channel_ = some parent)
    (hpending : StdMap.find pipe_id s.pending_connects_ = some X)
    (hne : Y ≠ X) :
    ∃ s1 channel1 channel2 emitted,
      ConnectMessagePipe kBrokerRouteId channel_pair pipe_id Y s = .ok s1 ∧
      s1.log = s.log ++ emitted ∧
      writes emitted = [(parent,
        { route_id := kBrokerRouteId,
          data := { type := .CANCEL_CONNECT_MESSAGE_PIPE, pipe_id := pipe_id } })] ∧
      s1.async_channel_queue_ = s.async_channel_queue_ ∧
      StdMap.find pipe_id s1.pending_connects_ = none ∧
      s1.in_process_pipes_channel1_ = some channel1 ∧
      s1.in_process_pipes_channel2_ = some channel2 ∧
      channel1 ≠ channel2 ∧
      StdMap.find X s1.connected_pipes_ = some channel1 ∧
      StdMap.find Y s1.connected_pipes_ = some channel2 ∧
      routesAdded emitted = [(channel1, pipe_id, .pipe X), (channel2, pipe_id, .pipe Y)] ∧
      channelsGot X emitted = [channel1] ∧
      channelsGot Y emitted = [channel2] ∧
      errorsDelivered emitted = [] := by
  have hwf := hreach.wellFormed
  have hne1 : ¬ X = Y := fun e => hne e.symm
  rcases hwf.pair with ⟨h1, _⟩ | ⟨channel1, channel2, h1, h2, hdiff, _, _⟩
  · refine ⟨_, s.next_channel, s.next_channel + 1, _,
      ConnectMessagePipe_eq_shortcut_new _ _ _ _ _ _ _ hpending hparent h1, rfl, ?_⟩
    simp [writes, routesAdded, channelsGot, errorsDelivered, StdMap.find_erase_self,
      StdMap.find_assign_self, StdMap.find_assign_ne _ _ _ _ hne.symm, hne, hne1]
  · refine ⟨_, channel1, channel2, _,
      ConnectMessagePipe_eq_shortcut _ _ _ _ _ _ _ _ _ hpending hparent h1 h2, rfl, ?_⟩
    simp [writes, routesAdded, channelsGot, errorsDelivered, StdMap.find_erase_self,
      StdMap.find_assign_self, StdMap.find_assign_ne _ _ _ _ hne.symm, hne, hne1, h1, h2,
      hdiff]

/-- Witness for C2: after `InitAsyncChannel` and `ConnectMessagePipe(42, 7)` the bootstrap
channel is channel 0 and pipe id 42 is pending with dispatcher 7; connecting dispatcher 8
to pipe id 42 from there takes the same-process branch. -/
theorem ConnectMessagePipe_same_process_witness :
    ∃ s1 channel1 channel2 emitted,
      ConnectMessagePipe 1 (100, 101) 42 8
        (runEvents 1 [.InitAsyncChannel (100, 101) 0 55, .ConnectMessagePipe (100, 101) 42 7]
          ChildBroker.ChildBroker).state = .ok s1 ∧
      s1.log = (runEvents 1
        [.InitAsyncChannel (100, 101) 0 55, .ConnectMessagePipe (100, 101) 42 7]
          ChildBroker.ChildBroker).state.log ++ emitted ∧
      writes emitted = [(0,
        { route_id := 1, data := { type := .CANCEL_CONNECT_MESSAGE_PIPE, pipe_id := 42 } })] ∧
      StdMap.find 42 s1.pending_connects_ = none ∧
      channel1 ≠ channel2 ∧
      StdMap.find 7 s1.connected_pipes_ = some channel1 ∧
      StdMap.find 8 s1.connected_pipes_ = some channel2 ∧
      channelsGot 7 emitted = [channel1] ∧
      channelsGot 8 emitted = [channel2] := by
  obtain ⟨s1, channel1, channel2, emitted, h1, h2, h3, _, h5, _, _, h8, h9, h10, _, h12, h13,
      _⟩ :=
    ConnectMessagePipe_same_process 1 (100, 101) 42 7 8 0
      (runEvents 1 [.InitAsyncChannel (100, 101) 0 55, .ConnectMessagePipe (100, 101) 42 7]
        ChildBroker.ChildBroker).state
      (Reachable.of_runEvents 1
        [.InitAsyncChannel (100, 101) 0 55, .ConnectMessagePipe (100, 101) 42 7]
        ChildBroker.ChildBroker _ Reachable.ctor rfl)
      rfl rfl (by decide)
  exact ⟨s1, channel1, channel2, emitted, h1, h2, h3, h5, h8, h9, h10, h12, h13⟩

/-! ## Resolution messages from the parent -/

/-- C3 (as amended): in every broker state in which `pipe_id` is pending with dispatcher
`pipe`, and either `process_id = 0` and the bootstrap channel `channel` exists, or
`process_id ≠ 0`, the registry maps `process_id` to `channel` and `pipe` has no
connected-pipe entry, receiving `PEER_PIPE_CONNECTED(pipe_id, process_id)` returns, removes
the pending entry of `pipe_id` and no other, maps `pipe` to `channel` in the connected-pipe
table and changes no other entry of it, leaves the registry unchanged, adds exactly the
route `pipe_id -> pipe` on `channel`, notifies `pipe` of `channel` once, writes no message
and delivers no error. -/
theorem OnReadMessage_peer_pipe_connected (DCHECK_IS_ON : Bool)
    (pipe_id process_id pipe channel : Nat) (s : ChildBroker)
    (hpending : StdMap.find pipe_id s.pending_connects_ = some pipe)
    (hchannel : (process_id = 0 ∧ s.parent_async_channel_ = some channel) ∨
      (process_id ≠ 0 ∧ StdMap.find process_id s.channels_ = some channel ∧
        StdMap.find pipe s.connected_pipes_ = none)) :
    ∃ s1 emitted,
      OnReadMessage DCHECK_IS_ON
        { type := .PEER_PIPE_CONNECTED, pipe_id := pipe_id, process_id := process_id }
        none s = .ok s1 ∧
      s1.log = s.log ++ emitted ∧
      routesAdded emitted = [(channel, pipe_id, .pipe pipe)] ∧
      channelsGot pipe emitted = [channel] ∧
      writes emitted = [] ∧
      errorsDelivered emitted = [] ∧
      StdMap.find pipe_id s1.pending_connects_ = none ∧
      (∀ q, q ≠ pipe_id →
        StdMap.find q s1.pending_connects_ = StdMap.find q s.pending_connects_) ∧
      StdMap.find pipe s1.connected_pipes_ = some channel ∧
      (∀ other, other ≠ pipe →
        StdMap.find other s1.connected_pipes_ = StdMap.find other s.connected_pipes_) ∧
      s1.channels_ = s.channels_ ∧
      s1.pending_inprocess_connects_ = s.pending_inprocess_connects_ ∧
      s1.async_channel_queue_ = s.async_channel_queue_ := by
  rcases hchannel with ⟨hzero, hparent⟩ | ⟨hpid, hpeer, hfree⟩
  · subst hzero
    exact ⟨_, _, OnReadMessage_eq_parent _ _ _ _ _ _ (Or.inr rfl) hpending hparent, rfl,
      rfl, by simp [channelsGot], rfl, rfl, StdMap.find_erase_self _ _,
      fun q hq => StdMap.find_erase_ne _ _ _ hq, StdMap.find_assign_self _ _ _,
      fun other ho => StdMap.find_assign_ne _ _ _ _ ho, rfl, rfl, rfl⟩
  · exact ⟨_, _, OnReadMessage_eq_peer _ _ _ _ _ _ _ (Or.inr rfl) hpending hpid hpeer hfree,
      rfl, rfl, by simp [channelsGot], rfl, rfl, StdMap.find_erase_self _ _,
      fun q hq => StdMap.find_erase_ne _ _ _ hq, StdMap.find_assign_self _ _ _,
      fun other ho => StdMap.find_assign_ne _ _ _ _ ho, rfl, rfl, rfl⟩

/-- Witness for C3 (as amended): after `InitAsyncChannel` and `ConnectMessagePipe(42, 7)`,
pipe id 42 is pending with dispatcher 7 and the bootstrap channel is channel 0;
`PEER_PIPE_CONNECTED(42, 0)` attaches 7 to channel 0. -/
theorem OnReadMessage_peer_pipe_connected_witness :
    ∃ s1 emitted,
      OnReadMessage true { type := .PEER_PIPE_CONNECTED, pipe_id := 42, process_id := 0 } none
        (runEvents 1 [.InitAsyncChannel (100, 101) 0 55, .ConnectMessagePipe (100, 101) 42 7]
          ChildBroker.ChildBroker).state = .ok s1 ∧
      s1.log = (runEvents 1
        [.InitAsyncChannel (100, 101) 0 55, .ConnectMessagePipe (100, 101) 42 7]
          ChildBroker.ChildBroker).state.log ++ emitted ∧
      routesAdded emitted = [(0, 42, .pipe 7)] ∧
      channelsGot 7 emitted = [0] ∧
      StdMap.find 42 s1.pending_connects_ = none ∧
      StdMap.find 7 s1.connected_pipes_ = some 0 := by
  obtain ⟨s1, emitted, h1, h2, h3, h4, _, _, h7, _, h9, _⟩ :=
    OnReadMessage_peer_pipe_connected true 42 0 7 0
      (runEvents 1 [.InitAsyncChannel (100, 101) 0 55, .ConnectMessagePipe (100, 101) 42 7]
        ChildBroker.ChildBroker).state
      rfl (Or.inl ⟨rfl, rfl⟩)
  exact ⟨s1, emitted, h1, h2, h3, h4, h7, h9⟩

/-- C3 (counterexample): the claim as stated fails when the dispatcher is already
connected.  After `InitAsyncChannel`, `CONNECT_TO_PROCESS(5)`, `ConnectMessagePipe(1, 7)`,
`PEER_PIPE_CONNECTED(1, 0)` and `ConnectMessagePipe(2, 7)`, pipe id 2 is pending with
dispatcher 7 and process 5 has registry channel 1, yet `PEER_PIPE_CONNECTED(2, 5)` aborts on
the `CHECK` that 7 is not connected: the pending entry is already erased, no route is
added, and 7 stays mapped to channel 0. -/
theorem OnReadMessage_peer_pipe_connected_counterexample :
    StdMap.find 2 (runEvents 1
      [.InitAsyncChannel (100, 101) 0 55,
       .OnReadMessage true { type := .CONNECT_TO_PROCESS, pipe_id := 0, process_id := 5 }
         (some [77]),
       .ConnectMessagePipe (100, 101) 1 7,
       .OnReadMessage true { type := .PEER_PIPE_CONNECTED, pipe_id := 1, process_id := 0 } none,
       .ConnectMessagePipe (100, 101) 2 7] ChildBroker.ChildBroker).state.pending_connects_
      = some 7 ∧
    StdMap.find 5 (runEvents 1
      [.InitAsyncChannel (100, 101) 0 55,
       .OnReadMessage true { type := .CONNECT_TO_PROCESS, pipe_id := 0, process_id := 5 }
         (some [77]),
       .ConnectMessagePipe (100, 101) 1 7,
       .OnReadMessage true { type := .PEER_PIPE_CONNECTED, pipe_id := 1, process_id := 0 } none,
       .ConnectMessagePipe (100, 101) 2 7] ChildBroker.ChildBroker).state.channels_
      = some 1 ∧
    OnReadMessage true { type := .PEER_PIPE_CONNECTED, pipe_id := 2, process_id := 5 } none
      (runEvents 1
        [.InitAsyncChannel (100, 101) 0 55,
         .OnReadMessage true { type := .CONNECT_TO_PROCESS, pipe_id := 0, process_id := 5 }
           (some [77]),
         .ConnectMessagePipe (100, 101) 1 7,
         .OnReadMessage true { type := .PEER_PIPE_CONNECTED, pipe_id := 1, process_id := 0 } none,
         .ConnectMessagePipe (100, 101) 2 7] ChildBroker.ChildBroker).state
      = .fatal .CHECK
          { pending_connects_ := []
            pending_inprocess_connects_ := []
            connected_pipes_ := [(7, 0)]
            channels_ := [(5, 1)]
            async_channel_queue_ := []
            parent_async_channel_ := some 0
            in_process_pipes_channel1_ := none
            in_process_pipes_channel2_ := none
            next_channel := 2
            log := [Effect.NewRoutedRawChannel 0 55,
                    Effect.AddRoute 0 1 .broker,
                    Effect.NewRoutedRawChannel 1 77,
                    Effect.WriteMessage 0
                      { route_id := 1, data := { type := .CONNECT_MESSAGE_PIPE, pipe_id := 1 } },
                    Effect.AddRoute 0 1 (.pipe 7),
                    Effect.GotNonTransferableChannel 7 0,
                    Effect.WriteMessage 0
                      { route_id := 1,
                        data := { type := .CONNECT_MESSAGE_PIPE, pipe_id := 2 } }] } := by
  decide

/-- C4 (as amended): when `pipe_id` is pending with dispatcher `pipe`, `process_id` is
non-zero and the registry has no channel for it, receiving
`PEER_PIPE_CONNECTED(pipe_id, process_id)` returns and its only effect is one
`OnError(ERROR_READ_SHUTDOWN)` on `pipe`: one more error delivered, no route added and
nothing written;
the pending entry of `pipe_id` is removed and no other; the connected-pipe table and the
registry are unchanged.  Hence, given that `pipe` was not connected before and was not
pending under another pipe id, afterwards `pipe` is in neither table. -/
theorem OnReadMessage_peer_gone (DCHECK_IS_ON : Bool) (pipe_id process_id pipe : Nat)
    (s : ChildBroker)
    (hpending : StdMap.find pipe_id s.pending_connects_ = some pipe)
    (hpid : process_id ≠ 0)
    (hgone : StdMap.find process_id s.channels_ = none)
    (hfree : StdMap.find pipe s.connected_pipes_ = none)
    (honce : ∀ q, q ≠ pipe_id → StdMap.find q s.pending_connects_ ≠ some pipe) :
    ∃ s1,
      OnReadMessage DCHECK_IS_ON
        { type := .PEER_PIPE_CONNECTED, pipe_id := pipe_id, process_id := process_id }
        none s = .ok s1 ∧
      s1.log = s.log ++ [Effect.OnError pipe .ERROR_READ_SHUTDOWN] ∧
      errorsDelivered s1.log = errorsDelivered s.log ++ [(pipe, .ERROR_READ_SHUTDOWN)] ∧
      routesAdded s1.log = routesAdded s.log ∧
      writes s1.log = writes s.log ∧
      (∀ q, StdMap.find q s1.pending_connects_ ≠ some pipe) ∧
      (∀ q, q ≠ pipe_id →
        StdMap.find q s1.pending_connects_ = StdMap.find q s.pending_connects_) ∧
      StdMap.find pipe s1.connected_pipes_ = none ∧
      s1.connected_pipes_ = s.connected_pipes_ ∧
      s1.channels_ = s.channels_ := by
  refine ⟨_, OnReadMessage_eq_peer_gone _ _ _ _ _ _ (Or.inr rfl) hpending hpid hgone, rfl,
    by simp [errorsDelivered_append, errorsDelivered],
    by simp [routesAdded_append, routesAdded], by simp [writes_append, writes], ?_,
    fun q hq => StdMap.find_erase_ne _ _ _ hq, hfree, rfl, rfl⟩
  intro q
  by_cases hq : q = pipe_id
  · subst hq
    show StdMap.find q (StdMap.erase q s.pending_connects_) ≠ some pipe
    rw [StdMap.find_erase_self]
    exact fun h => Option.noConfusion h
  · show StdMap.find q (StdMap.erase pipe_id s.pending_connects_) ≠ some pipe
    rw [StdMap.find_erase_ne _ _ _ hq]
    exact honce q hq

/-- Witness for C4 (as amended): after `InitAsyncChannel` and `ConnectMessagePipe(42, 7)`
the registry is empty; `PEER_PIPE_CONNECTED(42, 5)` fails dispatcher 7 with one error. -/
theorem OnReadMessage_peer_gone_witness :
    ∃ s1,
      OnReadMessage true { type := .PEER_PIPE_CONNECTED, pipe_id := 42, process_id := 5 } none
        (runEvents 1 [.InitAsyncChannel (100, 101) 0 55, .ConnectMessagePipe (100, 101) 42 7]
          ChildBroker.ChildBroker).state = .ok s1 ∧
      s1.log = (runEvents 1
        [.InitAsyncChannel (100, 101) 0 55, .ConnectMessagePipe (100, 101) 42 7]
          ChildBroker.ChildBroker).state.log ++ [Effect.OnError 7 .ERROR_READ_SHUTDOWN] ∧
      (∀ q, StdMap.find q s1.pending_connects_ ≠ some 7) ∧
      StdMap.find 7 s1.connected_pipes_ = none := by
  obtain ⟨s1, h1, h2, _, _, _, h5, _, h7, _⟩ :=
    OnReadMessage_peer_gone true 42 5 7
      (runEvents 1 [.InitAsyncChannel (100, 101) 0 55, .ConnectMessagePipe (100, 101) 42 7]
        ChildBroker.ChildBroker).state
      rfl (by decide) rfl rfl
      (fun q hq => by
        show StdMap.find q [(42, 7)] ≠ some 7
        have hq1 : ¬ 42 = q := fun e => hq e.symm
        simp [StdMap.find, hq1])
  exact ⟨s1, h1, h2, h5, h7⟩

/-- C4 (counterexample): the claim as stated fails when the dispatcher is pending under a
second pipe id.  After `InitAsyncChannel`, `ConnectMessagePipe(1, 7)` and
`ConnectMessagePipe(2, 7)`, dispatcher 7 is pending under pipe ids 1 and 2, is not
connected, and the registry has no channel for process 5; `PEER_PIPE_CONNECTED(1, 5)`
returns and erases only the entry of pipe id 1, so 7 is still in the pending table. -/
theorem OnReadMessage_peer_gone_counterexample :
    StdMap.find 1 (runEvents 1
      [.InitAsyncChannel (100, 101) 0 55, .ConnectMessagePipe (100, 101) 1 7,
       .ConnectMessagePipe (100, 101) 2 7] ChildBroker.ChildBroker).state.pending_connects_
      = some 7 ∧
    StdMap.find 5 (runEvents 1
      [.InitAsyncChannel (100, 101) 0 55, .ConnectMessagePipe (100, 101) 1 7,
       .ConnectMessagePipe (100, 101) 2 7] ChildBroker.ChildBroker).state.channels_ = none ∧
    StdMap.find 7 (runEvents 1
      [.InitAsyncChannel (100, 101) 0 55, .ConnectMessagePipe (100, 101) 1 7,
       .ConnectMessagePipe (100, 101) 2 7] ChildBroker.ChildBroker).state.connected_pipes_
      = none ∧
    (OnReadMessage true { type := .PEER_PIPE_CONNECTED, pipe_id := 1, process_id := 5 } none
      (runEvents 1
        [.InitAsyncChannel (100, 101) 0 55, .ConnectMessagePipe (100, 101) 1 7,
         .ConnectMessagePipe (100, 101) 2 7] ChildBroker.ChildBroker).state).isFatal = false ∧
    StdMap.find 2
      (OnReadMessage true { type := .PEER_PIPE_CONNECTED, pipe_id := 1, process_id := 5 } none
        (runEvents 1
          [.InitAsyncChannel (100, 101) 0 55, .ConnectMessagePipe (100, 101) 1 7,
           .ConnectMessagePipe (100, 101) 2 7]
          ChildBroker.ChildBroker).state).state.pending_connects_ = some 7 := by
  decide

/-- C5: for every broker state, every process id and every handle vector, receiving
`PEER_PIPE_CONNECTED(pipe_id, process_id)` for a pipe id with no pending entry aborts, and
the state at the abort is the state before the call: no table was modified and no
dispatcher was notified. -/
theorem OnReadMessage_unknown_pipe_fatal (DCHECK_IS_ON : Bool) (pipe_id process_id : Nat)
    (platform_handles : Option (List Nat)) (s : ChildBroker)
    (h : StdMap.find pipe_id s.pending_connects_ = none) :
    ∃ failure,
      OnReadMessage DCHECK_IS_ON
        { type := .PEER_PIPE_CONNECTED, pipe_id := pipe_id, process_id := process_id }
        platform_handles s = .fatal failure s := by
  by_cases hd : DCHECK_IS_ON = true ∧ platform_handles ≠ none
  · rcases hd with ⟨hd1, hd2⟩
    subst hd1
    exact ⟨.DCHECK, OnReadMessage_eq_unexpected_handles _ _ _ _ hd2⟩
  · exact ⟨.CHECK, OnReadMessage_eq_not_pending _ _ _ _ _
      (dcheck_off_or_no_handles _ _ hd) h⟩

/-- Witness for C5: pipe id 42 is not pending in the constructed broker. -/
theorem OnReadMessage_unknown_pipe_fatal_witness :
    StdMap.find 42 ChildBroker.ChildBroker.pending_connects_ = none ∧
    ∃ failure,
      OnReadMessage false { type := .PEER_PIPE_CONNECTED, pipe_id := 42, process_id := 0 }
        none ChildBroker.ChildBroker = .fatal failure ChildBroker.ChildBroker :=
  ⟨rfl, OnReadMessage_unknown_pipe_fatal false 42 0 none ChildBroker.ChildBroker rfl⟩

/-- C6 (as amended): in every reachable state in which the bootstrap channel exists and
`pipe_id` is pending, the second `ConnectMessagePipe(pipe_id, Y)` resolves the pipe
locally and returns; a `PEER_PIPE_CONNECTED(pipe_id, process_id)` that arrives afterwards
is not tolerated: `OnReadMessage` aborts, for every process id, with the pending table,
the connected-pipe table and the registry as they were before the message. -/
theorem OnReadMessage_stale_resolution_fatal (kBrokerRouteId : Nat) (channel_pair : Nat × Nat)
    (pipe_id X Y parent : Nat) (s : ChildBroker)
    (hreach : Reachable kBrokerRouteId s)
    (hparent : s.parent_async_channel_ = some parent)
    (hpending : StdMap.find pipe_id s.pending_connects_ = some X) :
    ∃ s1,
      ConnectMessagePipe kBrokerRouteId channel_pair pipe_id Y s = .ok s1 ∧
      ∀ (DCHECK_IS_ON : Bool) (process_id : Nat) (platform_handles : Option (List Nat)),
        ∃ failure,
          OnReadMessage DCHECK_IS_ON
            { type := .PEER_PIPE_CONNECTED, pipe_id := pipe_id, process_id := process_id }
            platform_handles s1 = .fatal failure s1 := by
  have hstale : ∀ (s1 : ChildBroker), StdMap.find pipe_id s1.pending_connects_ = none →
      ∀ (DCHECK_IS_ON : Bool) (process_id : Nat) (platform_handles : Option (List Nat)),
        ∃ failure,
          OnReadMessage DCHECK_IS_ON
            { type := .PEER_PIPE_CONNECTED, pipe_id := pipe_id, process_id := process_id }
            platform_handles s1 = .fatal failure s1 := by
    intro s1 hgone d process_id handles
    by_cases hd : d = true ∧ handles ≠ none
    · rcases hd with ⟨hd1, hd2⟩
      subst hd1
      exact ⟨.DCHECK, OnReadMessage_eq_unexpected_handles _ _ _ _ hd2⟩
    · exact ⟨.CHECK, OnReadMessage_eq_not_pending _ _ _ _ _
        (dcheck_off_or_no_handles _ _ hd) hgone⟩
  have hwf := hreach.wellFormed
  rcases hwf.pair with ⟨h1, _⟩ | ⟨channel1, channel2, h1, h2, _, _, _⟩
  · exact ⟨_, ConnectMessagePipe_eq_shortcut_new _ _ _ _ _ _ _ hpending hparent h1,
      hstale _ (StdMap.find_erase_self _ _)⟩
  · exact ⟨_, ConnectMessagePipe_eq_shortcut _ _ _ _ _ _ _ _ _ hpending hparent h1 h2,
      hstale _ (StdMap.find_erase_self _ _)⟩

/-- Witness for C6 (as amended): the state after `InitAsyncChannel` and
`ConnectMessagePipe(42, 7)`; the second connect returns and every later resolution for pipe
id 42 aborts. -/
theorem OnReadMessage_stale_resolution_fatal_witness :
    ∃ s1,
      ConnectMessagePipe 1 (100, 101) 42 8
        (runEvents 1 [.InitAsyncChannel (100, 101) 0 55, .ConnectMessagePipe (100, 101) 42 7]
          ChildBroker.ChildBroker).state = .ok s1 ∧
      ∀ (DCHECK_IS_ON : Bool) (process_id : Nat) (platform_handles : Option (List Nat)),
        ∃ failure,
          OnReadMessage DCHECK_IS_ON
            { type := .PEER_PIPE_CONNECTED, pipe_id := 42, process_id := process_id }
            platform_handles s1 = .fatal failure s1 :=
  OnReadMessage_stale_resolution_fatal 1 (100, 101) 42 7 8 0
    (runEvents 1 [.InitAsyncChannel (100, 101) 0 55, .ConnectMessagePipe (100, 101) 42 7]
      ChildBroker.ChildBroker).state
    (Reachable.of_runEvents 1
      [.InitAsyncChannel (100, 101) 0 55, .ConnectMessagePipe (100, 101) 42 7]
      ChildBroker.ChildBroker _ Reachable.ctor rfl)
    rfl rfl

/-- C6 (counterexample): after `InitAsyncChannel`, `ConnectMessagePipe(42, 7)` and
`ConnectMessagePipe(42, 8)` (pipe 42 resolved through the in-process pair, cancel sent),
all three of which return, a stale `PEER_PIPE_CONNECTED(42, 0)` is not discarded: the
handler aborts on its `CHECK`. -/
theorem OnReadMessage_stale_resolution_counterexample :
    (runEvents 1
      [.InitAsyncChannel (100, 101) 0 55, .ConnectMessagePipe (100, 101) 42 7,
       .ConnectMessagePipe (100, 101) 42 8] ChildBroker.ChildBroker).isFatal = false ∧
    writes (runEvents 1
      [.InitAsyncChannel (100, 101) 0 55, .ConnectMessagePipe (100, 101) 42 7,
       .ConnectMessagePipe (100, 101) 42 8] ChildBroker.ChildBroker).state.log =
      [(0, { route_id := 1, data := { type := .CONNECT_MESSAGE_PIPE, pipe_id := 42 } }),
       (0, { route_id := 1,
             data := { type := .CANCEL_CONNECT_MESSAGE_PIPE, pipe_id := 42 } })] ∧
    OnReadMessage true { type := .PEER_PIPE_CONNECTED, pipe_id := 42, process_id := 0 } none
      (runEvents 1
        [.InitAsyncChannel (100, 101) 0 55, .ConnectMessagePipe (100, 101) 42 7,
         .ConnectMessagePipe (100, 101) 42 8] ChildBroker.ChildBroker).state =
      .fatal .CHECK
        (runEvents 1
          [.InitAsyncChannel (100, 101) 0 55, .ConnectMessagePipe (100, 101) 42 7,
           .ConnectMessagePipe (100, 101) 42 8] ChildBroker.ChildBroker).state := by
  decide

/-! ## Connects issued before the bootstrap channel exists -/

theorem WriteAsyncMessage_eq_queued (kBrokerRouteId : Nat) (data : ConnectMessagePipeMessage)
    (s : ChildBroker) (h : s.parent_async_channel_ = none) :
    WriteAsyncMessage kBrokerRouteId data s =
      { s with async_channel_queue_ :=
          s.async_channel_queue_ ++ [{ route_id := kBrokerRouteId, data := data }] } := by
  simp only [WriteAsyncMessage, h]

theorem runEvents_connects_before_bootstrap (kBrokerRouteId : Nat) (channel_pair : Nat × Nat)
    (connects : List (Nat × Nat)) (s : ChildBroker)
    (hparent : s.parent_async_channel_ = none)
    (hfresh : ∀ c ∈ connects, StdMap.find c.1 s.pending_connects_ = none)
    (hdistinct : (connects.map Prod.fst).Nodup) :
    ∃ s1,
      runEvents kBrokerRouteId
        (connects.map fun c => Event.ConnectMessagePipe channel_pair c.1 c.2) s = .ok s1 ∧
      s1.log = s.log ∧
      s1.async_channel_queue_ = s.async_channel_queue_ ++ connects.map (fun c =>
        { route_id := kBrokerRouteId,
          data := { type := .CONNECT_MESSAGE_PIPE, pipe_id := c.1 } }) ∧
      s1.parent_async_channel_ = none ∧
      s1.pending_inprocess_connects_ = s.pending_inprocess_connects_ ∧
      s1.next_channel = s.next_channel := by
  induction connects generalizing s with
  | nil => exact ⟨s, rfl, rfl, by simp, hparent, rfl, rfl⟩
  | cons c rest ih =>
    have hc : StdMap.find c.1 s.pending_connects_ = none := hfresh c (List.mem_cons_self _ _)
    have hnd : c.1 ∉ rest.map Prod.fst ∧ (rest.map Prod.fst).Nodup := by
      simpa using hdistinct
    have hstep : ConnectMessagePipe kBrokerRouteId channel_pair c.1 c.2 s =
        .ok { s with
              pending_connects_ := StdMap.assign c.1 c.2 s.pending_connects_
              async_channel_queue_ := s.async_channel_queue_ ++
                [{ route_id := kBrokerRouteId,
                   data := { type := .CONNECT_MESSAGE_PIPE, pipe_id := c.1 } }] } := by
      simp only [ConnectMessagePipe, hc, WriteAsyncMessage, hparent]
    have hfresh2 : ∀ c2 ∈ rest,
        StdMap.find c2.1 (StdMap.assign c.1 c.2 s.pending_connects_) = none := by
      intro c2 hc2
      have hne : c2.1 ≠ c.1 := by
        intro e
        exact hnd.1 (e ▸ List.mem_map_of_mem Prod.fst hc2)
      rw [StdMap.find_assign_ne _ _ _ _ hne]
      exact hfresh c2 (List.mem_cons_of_mem _ hc2)
    obtain ⟨s1, h1, h2, h3, h4, h5, h6⟩ := ih
      { s with
        pending_connects_ := StdMap.assign c.1 c.2 s.pending_connects_
        async_channel_queue_ := s.async_channel_queue_ ++
          [{ route_id := kBrokerRouteId,
             data := { type := .CONNECT_MESSAGE_PIPE, pipe_id := c.1 } }] }
      hparent hfresh2 hnd.2
    refine ⟨s1, ?_, h2, ?_, h4, h5, h6⟩
    · simp only [List.map_cons, runEvents, Event.run, hstep]
      exact h1
    · rw [h3]
      simp

theorem InitAsyncChannel.drain_eq (parent : Nat) (queue : List MessageInTransit)
    (s : ChildBroker) :
    InitAsyncChannel.drain parent queue s =
      { s with async_channel_queue_ := []
               log := s.log ++ queue.map (Effect.WriteMessage parent) } := by
  induction queue generalizing s with
  | nil => simp [InitAsyncChannel.drain]
  | cons message rest ih => simp [InitAsyncChannel.drain, ih]

theorem InitAsyncChannel.replay_nothing_staged (kBrokerRouteId : Nat)
    (channel_pair : Nat × Nat) (fuel : Nat) (s : ChildBroker)
    (h : s.pending_inprocess_connects_ = []) :
    InitAsyncChannel.replay kBrokerRouteId channel_pair fuel s = .ok s := by
  cases fuel <;> simp [InitAsyncChannel.replay, h]

theorem InitAsyncChannel.replay_step (kBrokerRouteId : Nat) (channel_pair : Nat × Nat)
    (fuel : Nat) (s : ChildBroker) (it : Nat × Nat) (rest : List (Nat × Nat))
    (s1 : ChildBroker) (hstaged : s.pending_inprocess_connects_ = it :: rest)
    (hconnect : ConnectMessagePipe kBrokerRouteId channel_pair it.1 it.2 s = .ok s1) :
    InitAsyncChannel.replay kBrokerRouteId channel_pair (fuel + 1) s =
      InitAsyncChannel.replay kBrokerRouteId channel_pair fuel
        { s1 with pending_inprocess_connects_ := s1.pending_inprocess_connects_.tail } := by
  rw [InitAsyncChannel.replay]
  simp only [hstaged, hconnect]

theorem writes_map_WriteMessage (channel : Nat) (f : Nat × Nat → MessageInTransit)
    (connects : List (Nat × Nat)) :
    writes (connects.map (fun c => Effect.WriteMessage channel (f c))) =
      connects.map (fun c => (channel, f c)) := by
  induction connects with
  | nil => rfl
  | cons c rest ih => simp [writes, ih]

/-- C7: for every sequence of connects with pairwise distinct pipe ids issued on the
constructed broker, every connect returns and nothing is written to any channel (the log
is still empty); the queue then holds one `CONNECT_MESSAGE_PIPE` per connect in issue
order.  `InitAsyncChannel` then returns (for every loop bound: nothing is staged), creates
the parent channel, and the messages written are exactly
`CONNECT_MESSAGE_PIPE(p1), ..., CONNECT_MESSAGE_PIPE(pn)`, in issue order, on that channel;
the queue is left empty. -/
theorem InitAsyncChannel_flushes_queue_in_order (kBrokerRouteId : Nat)
    (channel_pair : Nat × Nat) (fuel handle : Nat) (connects : List (Nat × Nat))
    (hdistinct : (connects.map Prod.fst).Nodup) :
    ∃ s1 s2,
      runEvents kBrokerRouteId
        (connects.map fun c => Event.ConnectMessagePipe channel_pair c.1 c.2)
        ChildBroker.ChildBroker = .ok s1 ∧
      s1.log = [] ∧
      s1.async_channel_queue_ = connects.map (fun c =>
        { route_id := kBrokerRouteId,
          data := { type := .CONNECT_MESSAGE_PIPE, pipe_id := c.1 } }) ∧
      InitAsyncChannel kBrokerRouteId channel_pair fuel handle s1 = .ok s2 ∧
      s2.parent_async_channel_ = some 0 ∧
      s2.log = [Effect.NewRoutedRawChannel 0 handle, Effect.AddRoute 0 kBrokerRouteId .broker]
        ++ connects.map (fun c => Effect.WriteMessage 0
            { route_id := kBrokerRouteId,
              data := { type := .CONNECT_MESSAGE_PIPE, pipe_id := c.1 } }) ∧
      writes s2.log = connects.map (fun c =>
        (0, { route_id := kBrokerRouteId,
              data := { type := .CONNECT_MESSAGE_PIPE, pipe_id := c.1 } })) ∧
      s2.async_channel_queue_ = [] := by
  obtain ⟨s1, h1, h2, h3, h4, h5, h6⟩ :=
    runEvents_connects_before_bootstrap kBrokerRouteId channel_pair connects
      ChildBroker.ChildBroker rfl (fun _ _ => rfl) hdistinct
  have hlog : s1.log = [] := h2
  have hqueue : s1.async_channel_queue_ = connects.map (fun c =>
      { route_id := kBrokerRouteId,
        data := { type := .CONNECT_MESSAGE_PIPE, pipe_id := c.1 } }) := by
    rw [h3]; rfl
  have hnext : s1.next_channel = 0 := h6
  have hstaged : s1.pending_inprocess_connects_ = [] := h5
  have hinit : InitAsyncChannel kBrokerRouteId channel_pair fuel handle s1 =
      .ok { s1 with
            parent_async_channel_ := some 0
            next_channel := 1
            async_channel_queue_ := []
            log := [Effect.NewRoutedRawChannel 0 handle,
                    Effect.AddRoute 0 kBrokerRouteId .broker] ++
              connects.map (fun c => Effect.WriteMessage 0
                { route_id := kBrokerRouteId,
                  data := { type := .CONNECT_MESSAGE_PIPE, pipe_id := c.1 } }) } := by
    simp only [InitAsyncChannel]
    rw [InitAsyncChannel.drain_eq,
      InitAsyncChannel.replay_nothing_staged _ _ _ _ (by exact hstaged)]
    simp [hlog, hqueue, hnext, List.map_map, Function.comp_def]
  refine ⟨s1, _, h1, hlog, hqueue, hinit, rfl, rfl, ?_, rfl⟩
  show writes ([Effect.NewRoutedRawChannel 0 handle,
      Effect.AddRoute 0 kBrokerRouteId .broker] ++ _) = _
  simp only [List.cons_append, List.nil_append, writes]
  exact writes_map_WriteMessage 0 _ connects

/-- Witness for C7: three connects with pipe ids 1, 2, 3 on the constructed broker. -/
theorem InitAsyncChannel_flushes_queue_in_order_witness :
    ([(1, 7), (2, 8), (3, 9)].map Prod.fst).Nodup ∧
    ∃ s1 s2,
      runEvents 1
        [.ConnectMessagePipe (100, 101) 1 7, .ConnectMessagePipe (100, 101) 2 8,
         .ConnectMessagePipe (100, 101) 3 9] ChildBroker.ChildBroker = .ok s1 ∧
      s1.log = [] ∧
      InitAsyncChannel 1 (100, 101) 0 55 s1 = .ok s2 ∧
      writes s2.log =
        [(0, { route_id := 1, data := { type := .CONNECT_MESSAGE_PIPE, pipe_id := 1 } }),
         (0, { route_id := 1, data := { type := .CONNECT_MESSAGE_PIPE, pipe_id := 2 } }),
         (0, { route_id := 1, data := { type := .CONNECT_MESSAGE_PIPE, pipe_id := 3 } })] ∧
      s2.async_channel_queue_ = [] := by
  refine ⟨by decide, ?_⟩
  obtain ⟨s1, s2, h1, h2, _, h4, _, _, h7, h8⟩ :=
    InitAsyncChannel_flushes_queue_in_order 1 (100, 101) 0 55 [(1, 7), (2, 8), (3, 9)]
      (by decide)
  exact ⟨s1, s2, h1, h2, h4, h7, h8⟩

/-! ## Closing a pipe -/

/-- C9: `CloseMessagePipe(pipe_id, message_pipe)` aborts if and only if `message_pipe` has
no connected-pipe entry, and then the state at the abort is the state before the call.
When `message_pipe` is connected to `channel`, the call returns, its only effect is
`RemoveRoute(pipe_id)` on `channel`, the entry of `message_pipe` is gone from the
connected-pipe table, every other entry of that table is as before, and the pending
table, the registry, the staging map, the queue and the channel members are unchanged. -/
theorem CloseMessagePipe_spec (pipe_id message_pipe : Nat) (s : ChildBroker) :
    ((CloseMessagePipe pipe_id message_pipe s).isFatal = true ↔
      StdMap.find message_pipe s.connected_pipes_ = none) ∧
    (StdMap.find message_pipe s.connected_pipes_ = none →
      CloseMessagePipe pipe_id message_pipe s = .fatal .CHECK s) ∧
    (∀ channel, StdMap.find message_pipe s.connected_pipes_ = some channel →
      ∃ s1, CloseMessagePipe pipe_id message_pipe s = .ok s1 ∧
        s1.log = s.log ++ [Effect.RemoveRoute channel pipe_id] ∧
        StdMap.find message_pipe s1.connected_pipes_ = none ∧
        (∀ other, other ≠ message_pipe →
          StdMap.find other s1.connected_pipes_ = StdMap.find other s.connected_pipes_) ∧
        s1.pending_connects_ = s.pending_connects_ ∧
        s1.channels_ = s.channels_ ∧
        s1.pending_inprocess_connects_ = s.pending_inprocess_connects_ ∧
        s1.async_channel_queue_ = s.async_channel_queue_ ∧
        s1.parent_async_channel_ = s.parent_async_channel_ ∧
        s1.in_process_pipes_channel1_ = s.in_process_pipes_channel1_ ∧
        s1.in_process_pipes_channel2_ = s.in_process_pipes_channel2_ ∧
        s1.next_channel = s.next_channel) := by
  refine ⟨?_, ?_, ?_⟩
  · cases h : StdMap.find message_pipe s.connected_pipes_ with
    | none => simp [CloseMessagePipe, h, Outcome.isFatal]
    | some channel => simp [CloseMessagePipe, h, Outcome.isFatal]
  · intro h
    simp only [CloseMessagePipe, h]
  · intro channel h
    have hrun : CloseMessagePipe pipe_id message_pipe s =
        .ok { s with
              log := s.log ++ [Effect.RemoveRoute channel pipe_id]
              connected_pipes_ := StdMap.erase message_pipe s.connected_pipes_ } := by
      simp only [CloseMessagePipe, h]
    exact ⟨_, hrun, rfl, StdMap.find_erase_self _ _,
      fun other ho => StdMap.find_erase_ne _ _ _ ho, rfl, rfl, rfl, rfl, rfl, rfl, rfl, rfl⟩

/-! ## Destruction of a channel -/

theorem ChannelDestructed.loop_eq_none (channel : Nat) (m : List (Nat × Nat)) :
    ChannelDestructed.loop channel m = none ↔ ∀ it ∈ m, it.2 ≠ channel := by
  induction m with
  | nil => simp [ChannelDestructed.loop]
  | cons it rest ih =>
    by_cases h : it.2 = channel
    · simp [ChannelDestructed.loop, h]
    · simp [ChannelDestructed.loop, h, ih]

theorem ChannelDestructed.loop_mem (channel process_id : Nat) (m : List (Nat × Nat))
    (h : ChannelDestructed.loop channel m = some process_id) : (process_id, channel) ∈ m := by
  induction m with
  | nil => simp [ChannelDestructed.loop] at h
  | cons it rest ih =>
    by_cases h1 : it.2 = channel
    · simp only [ChannelDestructed.loop, h1, if_true, Option.some.injEq] at h
      have : it = (process_id, channel) := by rw [← h, ← h1]
      simp [this]
    · simp only [ChannelDestructed.loop, h1, if_false] at h
      exact List.mem_cons_of_mem _ (ih h)

theorem StdMap.find_of_mem (k v : Nat) (m : List (Nat × Nat))
    (hkeys : (m.map Prod.fst).Nodup) (h : (k, v) ∈ m) : StdMap.find k m = some v := by
  induction m with
  | nil => simp at h
  | cons it rest ih =>
    have hnd : it.1 ∉ rest.map Prod.fst ∧ (rest.map Prod.fst).Nodup := by
      simpa using hkeys
    rcases List.mem_cons.1 h with e | hmem
    · subst e
      simp [StdMap.find]
    · have hne : ¬ it.1 = k := by
        intro e
        exact hnd.1 (e ▸ List.mem_map_of_mem Prod.fst hmem)
      simp only [StdMap.find, hne, if_false]
      exact ih hnd.2 hmem

theorem ChannelDestructed_erases_channel (channel : Nat) (s : ChildBroker)
    (hwf : WellFormed s) :
    ∀ it ∈ (ChannelDestructed channel s).channels_, it.2 ≠ channel := by
  unfold ChannelDestructed
  split
  · rename_i process_id hloop
    intro it hit hc
    have hmem := (StdMap.mem_erase _ _ _).1 hit
    have hfirst := ChannelDestructed.loop_mem _ _ _ hloop
    have := List.inj_on_of_nodup_map hwf.values hmem.1 hfirst hc
    exact hmem.2 (by rw [this])
  · rename_i hloop
    exact (ChannelDestructed.loop_eq_none _ _).1 hloop

/-- C10: in every reachable broker state, after `ChannelDestructed(channel)` no registry
entry has channel `channel` (neither as a stored entry nor as the result of a lookup),
every process id whose registry channel was not `channel` still maps to the same channel,
all other members of the broker are unchanged, and a second `ChannelDestructed(channel)`
changes nothing (the operation has no failing path). -/
theorem ChannelDestructed_registry (kBrokerRouteId channel : Nat) (s : ChildBroker)
    (hreach : Reachable kBrokerRouteId s) :
    (∀ it ∈ (ChannelDestructed channel s).channels_, it.2 ≠ channel) ∧
    (∀ process_id, StdMap.find process_id (ChannelDestructed channel s).channels_
      ≠ some channel) ∧
    (∀ process_id, StdMap.find process_id s.channels_ ≠ some channel →
      StdMap.find process_id (ChannelDestructed channel s).channels_ =
        StdMap.find process_id s.channels_) ∧
    ChannelDestructed channel (ChannelDestructed channel s) = ChannelDestructed channel s ∧
    (ChannelDestructed channel s).pending_connects_ = s.pending_connects_ ∧
    (ChannelDestructed channel s).connected_pipes_ = s.connected_pipes_ ∧
    (ChannelDestructed channel s).pending_inprocess_connects_ = s.pending_inprocess_connects_ ∧
    (ChannelDestructed channel s).log = s.log := by
  have hwf := hreach.wellFormed
  have herased := ChannelDestructed_erases_channel channel s hwf
  refine ⟨herased, ?_, ?_, ?_, ?_, ?_, ?_, ?_⟩
  · intro process_id hfind
    exact herased _ (StdMap.mem_of_find _ _ _ hfind) rfl
  · intro process_id hother
    unfold ChannelDestructed
    split
    · rename_i first hloop
      have hfirst := ChannelDestructed.loop_mem _ _ _ hloop
      by_cases e : process_id = first
      · subst e
        exact absurd (StdMap.find_of_mem _ _ _ hwf.keys hfirst) hother
      · exact StdMap.find_erase_ne _ _ _ e
    · rfl
  · have hnone := (ChannelDestructed.loop_eq_none channel _).2 herased
    generalize ChannelDestructed channel s = s1 at hnone
    simp only [ChannelDestructed, hnone]
  all_goals (unfold ChannelDestructed; split <;> rfl)

/-- Witness for C10: after `InitAsyncChannel`, `CONNECT_TO_PROCESS(5)` and
`CONNECT_TO_PROCESS(6)` the registry maps 5 to channel 1 and 6 to channel 2; destroying
channel 1 leaves exactly the entry of process 6. -/
theorem ChannelDestructed_registry_witness :
    (ChannelDestructed 1 (runEvents 1
      [.InitAsyncChannel (100, 101) 0 55,
       .OnReadMessage true { type := .CONNECT_TO_PROCESS, pipe_id := 0, process_id := 5 }
         (some [77]),
       .OnReadMessage true { type := .CONNECT_TO_PROCESS, pipe_id := 0, process_id := 6 }
         (some [78])] ChildBroker.ChildBroker).state).channels_ = [(6, 2)] ∧
    (∀ process_id, StdMap.find process_id (ChannelDestructed 1 (runEvents 1
      [.InitAsyncChannel (100, 101) 0 55,
       .OnReadMessage true { type := .CONNECT_TO_PROCESS, pipe_id := 0, process_id := 5 }
         (some [77]),
       .OnReadMessage true { type := .CONNECT_TO_PROCESS, pipe_id := 0, process_id := 6 }
         (some [78])] ChildBroker.ChildBroker).state).channels_ ≠ some 1) :=
  ⟨by decide,
   (ChannelDestructed_registry 1 1
    (runEvents 1
      [.InitAsyncChannel (100, 101) 0 55,
       .OnReadMessage true { type := .CONNECT_TO_PROCESS, pipe_id := 0, process_id := 5 }
         (some [77]),
       .OnReadMessage true { type := .CONNECT_TO_PROCESS, pipe_id := 0, process_id := 6 }
         (some [78])] ChildBroker.ChildBroker).state
    (Reachable.of_runEvents 1
      [.InitAsyncChannel (100, 101) 0 55,
       .OnReadMessage true { type := .CONNECT_TO_PROCESS, pipe_id := 0, process_id := 5 }
         (some [77]),
       .OnReadMessage true { type := .CONNECT_TO_PROCESS, pipe_id := 0, process_id := 6 }
         (some [78])] ChildBroker.ChildBroker _ Reachable.ctor rfl)).2.1⟩

/-- C11 (as amended): in every reachable broker state, `ChannelDestructed(channel)` purges
only the registry: afterwards no registry entry has channel `channel`, and the
connected-pipe table is the table from before the call, so a dispatcher that was mapped to
`channel` is still mapped to it; the log shows that no route was removed. -/
theorem ChannelDestructed_keeps_connected_pipes (kBrokerRouteId channel : Nat)
    (s : ChildBroker) (hreach : Reachable kBrokerRouteId s) :
    (∀ it ∈ (ChannelDestructed channel s).channels_, it.2 ≠ channel) ∧
    (ChannelDestructed channel s).connected_pipes_ = s.connected_pipes_ ∧
    (∀ message_pipe, StdMap.find message_pipe s.connected_pipes_ = some channel →
      StdMap.find message_pipe (ChannelDestructed channel s).connected_pipes_
        = some channel) ∧
    (ChannelDestructed channel s).log = s.log := by
  have hconnected : (ChannelDestructed channel s).connected_pipes_ = s.connected_pipes_ := by
    unfold ChannelDestructed
    split <;> rfl
  refine ⟨ChannelDestructed_erases_channel channel s hreach.wellFormed, hconnected, ?_, ?_⟩
  · intro message_pipe h
    rw [hconnected]
    exact h
  · unfold ChannelDestructed
    split <;> rfl

/-- Witness for C11 (as amended): the state after `InitAsyncChannel`,
`CONNECT_TO_PROCESS(5)`, `ConnectMessagePipe(1, 7)` and `PEER_PIPE_CONNECTED(1, 5)`, in
which dispatcher 7 is connected to the registry channel 1 of process 5. -/
theorem ChannelDestructed_keeps_connected_pipes_witness :
    (ChannelDestructed 1 (runEvents 1
      [.InitAsyncChannel (100, 101) 0 55,
       .OnReadMessage true { type := .CONNECT_TO_PROCESS, pipe_id := 0, process_id := 5 }
         (some [77]),
       .ConnectMessagePipe (100, 101) 1 7,
       .OnReadMessage true { type := .PEER_PIPE_CONNECTED, pipe_id := 1, process_id := 5 }
         none] ChildBroker.ChildBroker).state).connected_pipes_ =
    (runEvents 1
      [.InitAsyncChannel (100, 101) 0 55,
       .OnReadMessage true { type := .CONNECT_TO_PROCESS, pipe_id := 0, process_id := 5 }
         (some [77]),
       .ConnectMessagePipe (100, 101) 1 7,
       .OnReadMessage true { type := .PEER_PIPE_CONNECTED, pipe_id := 1, process_id := 5 }
         none] ChildBroker.ChildBroker).state.connected_pipes_ :=
  (ChannelDestructed_keeps_connected_pipes 1 1
    (runEvents 1
      [.InitAsyncChannel (100, 101) 0 55,
       .OnReadMessage true { type := .CONNECT_TO_PROCESS, pipe_id := 0, process_id := 5 }
         (some [77]),
       .ConnectMessagePipe (100, 101) 1 7,
       .OnReadMessage true { type := .PEER_PIPE_CONNECTED, pipe_id := 1, process_id := 5 }
         none] ChildBroker.ChildBroker).state
    (Reachable.of_runEvents 1
      [.InitAsyncChannel (100, 101) 0 55,
       .OnReadMessage true { type := .CONNECT_TO_PROCESS, pipe_id := 0, process_id := 5 }
         (some [77]),
       .ConnectMessagePipe (100, 101) 1 7,
       .OnReadMessage true { type := .PEER_PIPE_CONNECTED, pipe_id := 1, process_id := 5 }
         none] ChildBroker.ChildBroker _ Reachable.ctor rfl)).2.1

/-- C11 (counterexample): after `InitAsyncChannel`, `CONNECT_TO_PROCESS(5)` (registry channel
1), `ConnectMessagePipe(1, 7)` and `PEER_PIPE_CONNECTED(1, 5)`, dispatcher 7 is connected
to channel 1.  `ChannelDestructed(1)` empties the registry, but the connected-pipe table
still maps dispatcher 7 to channel 1. -/
theorem ChannelDestructed_keeps_connected_pipes_counterexample :
    StdMap.find 7 (runEvents 1
      [.InitAsyncChannel (100, 101) 0 55,
       .OnReadMessage true { type := .CONNECT_TO_PROCESS, pipe_id := 0, process_id := 5 }
         (some [77]),
       .ConnectMessagePipe (100, 101) 1 7,
       .OnReadMessage true { type := .PEER_PIPE_CONNECTED, pipe_id := 1, process_id := 5 }
         none] ChildBroker.ChildBroker).state.connected_pipes_ = some 1 ∧
    (ChannelDestructed 1 (runEvents 1
      [.InitAsyncChannel (100, 101) 0 55,
       .OnReadMessage true { type := .CONNECT_TO_PROCESS, pipe_id := 0, process_id := 5 }
         (some [77]),
       .ConnectMessagePipe (100, 101) 1 7,
       .OnReadMessage true { type := .PEER_PIPE_CONNECTED, pipe_id := 1, process_id := 5 }
         none] ChildBroker.ChildBroker).state).channels_ = [] ∧
    StdMap.find 7 (ChannelDestructed 1 (runEvents 1
      [.InitAsyncChannel (100, 101) 0 55,
       .OnReadMessage true { type := .CONNECT_TO_PROCESS, pipe_id := 0, process_id := 5 }
         (some [77]),
       .ConnectMessagePipe (100, 101) 1 7,
       .OnReadMessage true { type := .PEER_PIPE_CONNECTED, pipe_id := 1, process_id := 5 }
         none] ChildBroker.ChildBroker).state).connected_pipes_ = some 1 := by
  decide

/-! ## Unexpected and bootstrap messages -/

/-- C15 (as amended): a message on the broker route whose kind is neither
`CONNECT_TO_PROCESS` nor `PEER_PIPE_CONNECTED` reaches `NOTREACHED()`: when DCHECKs are
compiled in, `OnReadMessage` aborts; when they are compiled out, the message is ignored and
`OnReadMessage` returns.  In both cases the state is the state before the call, so no
table is modified. -/
theorem OnReadMessage_unexpected_kind (DCHECK_IS_ON : Bool) (message_view : MessageView)
    (platform_handles : Option (List Nat)) (s : ChildBroker)
    (h1 : message_view.type ≠ .CONNECT_TO_PROCESS)
    (h2 : message_view.type ≠ .PEER_PIPE_CONNECTED) :
    OnReadMessage DCHECK_IS_ON message_view platform_handles s =
      if DCHECK_IS_ON = true then .fatal .DCHECK s else .ok s := by
  unfold OnReadMessage
  split
  · rename_i h
    exact absurd h h1
  · rename_i h
    exact absurd h h2
  · rfl

/-- Witness for C15 (as amended): a `CANCEL_CONNECT_MESSAGE_PIPE` sent to the child, with
DCHECKs compiled in. -/
theorem OnReadMessage_unexpected_kind_witness :
    OnReadMessage true
      { type := .CANCEL_CONNECT_MESSAGE_PIPE, pipe_id := 42, process_id := 0 } none
      ChildBroker.ChildBroker = .fatal .DCHECK ChildBroker.ChildBroker :=
  OnReadMessage_unexpected_kind true
    { type := .CANCEL_CONNECT_MESSAGE_PIPE, pipe_id := 42, process_id := 0 } none
    ChildBroker.ChildBroker (by decide) (by decide)

/-- C15 (counterexample): with DCHECKs compiled out, a `CONNECT_MESSAGE_PIPE` received by
the child is ignored: `OnReadMessage` returns, in the unchanged state, instead of
failing. -/
theorem OnReadMessage_unexpected_kind_counterexample :
    OnReadMessage false
      { type := .CONNECT_MESSAGE_PIPE, pipe_id := 42, process_id := 0 } none
      ChildBroker.ChildBroker = .ok ChildBroker.ChildBroker ∧
    (OnReadMessage false
      { type := .CONNECT_MESSAGE_PIPE, pipe_id := 42, process_id := 0 } none
      ChildBroker.ChildBroker).isFatal = false := by
  decide

/-- C16: in every reachable broker state, receiving `CONNECT_TO_PROCESS(process_id)` with
one transferred handle: when the registry has no entry for `process_id`, the handler
returns, the registry maps `process_id` to a channel newly built on that handle, every
other registry lookup is as before, the new channel differs from every channel the broker
held (registry, connected-pipe table, parent channel, in-process pair), and the pending
table, the connected-pipe table, the staging map and the queue are unchanged; when the
registry already has an entry for `process_id`, the handler aborts on its `CHECK` and the
state is the state before the call. -/
theorem OnReadMessage_connect_to_process (kBrokerRouteId : Nat) (DCHECK_IS_ON : Bool)
    (pipe_id process_id handle : Nat) (s : ChildBroker)
    (hreach : Reachable kBrokerRouteId s) :
    (StdMap.find process_id s.channels_ = none →
      ∃ s1 channel,
        OnReadMessage DCHECK_IS_ON
          { type := .CONNECT_TO_PROCESS, pipe_id := pipe_id, process_id := process_id }
          (some [handle]) s = .ok s1 ∧
        s1.log = s.log ++ [Effect.NewRoutedRawChannel channel handle] ∧
        StdMap.find process_id s1.channels_ = some channel ∧
        (∀ other, other ≠ process_id →
          StdMap.find other s1.channels_ = StdMap.find other s.channels_) ∧
        (∀ it ∈ s.channels_, it.2 ≠ channel) ∧
        (∀ it ∈ s.connected_pipes_, it.2 ≠ channel) ∧
        s.parent_async_channel_ ≠ some channel ∧
        s.in_process_pipes_channel1_ ≠ some channel ∧
        s.in_process_pipes_channel2_ ≠ some channel ∧
        s1.pending_connects_ = s.pending_connects_ ∧
        s1.connected_pipes_ = s.connected_pipes_ ∧
        s1.pending_inprocess_connects_ = s.pending_inprocess_connects_ ∧
        s1.async_channel_queue_ = s.async_channel_queue_ ∧
        s1.parent_async_channel_ = s.parent_async_channel_ ∧
        s1.in_process_pipes_channel1_ = s.in_process_pipes_channel1_ ∧
        s1.in_process_pipes_channel2_ = s.in_process_pipes_channel2_) ∧
    (StdMap.find process_id s.channels_ ≠ none →
      OnReadMessage DCHECK_IS_ON
        { type := .CONNECT_TO_PROCESS, pipe_id := pipe_id, process_id := process_id }
        (some [handle]) s = .fatal .CHECK s) := by
  have hwf := hreach.wellFormed
  constructor
  · intro hfree
    have hrun : OnReadMessage DCHECK_IS_ON
        { type := .CONNECT_TO_PROCESS, pipe_id := pipe_id, process_id := process_id }
        (some [handle]) s =
        .ok { s with
              channels_ := StdMap.assign process_id s.next_channel s.channels_
              next_channel := s.next_channel + 1
              log := s.log ++ [Effect.NewRoutedRawChannel s.next_channel handle] } := by
      simp [OnReadMessage, hfree]
    refine ⟨_, s.next_channel, hrun, rfl, StdMap.find_assign_self _ _ _,
      fun other ho => StdMap.find_assign_ne _ _ _ _ ho, ?_, ?_, ?_, ?_, ?_,
      rfl, rfl, rfl, rfl, rfl, rfl, rfl⟩
    · intro it hit
      exact Nat.ne_of_lt (hwf.registry it hit)
    · intro it hit
      exact Nat.ne_of_lt (hwf.connected it hit)
    · intro h
      exact Nat.lt_irrefl _ (hwf.parent _ h)
    · intro h
      rcases hwf.pair with ⟨h1, _⟩ | ⟨channel1, channel2, h1, _, _, hlt1, _⟩
      · rw [h1] at h
        exact Option.noConfusion h
      · rw [h1] at h
        cases h
        exact Nat.lt_irrefl _ hlt1
    · intro h
      rcases hwf.pair with ⟨_, h2⟩ | ⟨channel1, channel2, _, h2, _, _, hlt2⟩
      · rw [h2] at h
        exact Option.noConfusion h
      · rw [h2] at h
        cases h
        exact Nat.lt_irrefl _ hlt2
  · intro hbusy
    simp [OnReadMessage, hbusy]

/-- Witness for C16: after `InitAsyncChannel` and `CONNECT_TO_PROCESS(5)` the registry has
an entry for process 5 and none for process 6. -/
theorem OnReadMessage_connect_to_process_witness :
    (∃ s1 channel,
      OnReadMessage true { type := .CONNECT_TO_PROCESS, pipe_id := 0, process_id := 6 }
        (some [78])
        (runEvents 1
          [.InitAsyncChannel (100, 101) 0 55,
           .OnReadMessage true { type := .CONNECT_TO_PROCESS, pipe_id := 0, process_id := 5 }
             (some [77])] ChildBroker.ChildBroker).state = .ok s1 ∧
      StdMap.find 6 s1.channels_ = some channel ∧
      StdMap.find 5 s1.channels_ = some 1 ∧
      channel ≠ 1 ∧ channel ≠ 0) ∧
    OnReadMessage true { type := .CONNECT_TO_PROCESS, pipe_id := 0, process_id := 5 }
      (some [78])
      (runEvents 1
        [.InitAsyncChannel (100, 101) 0 55,
         .OnReadMessage true { type := .CONNECT_TO_PROCESS, pipe_id := 0, process_id := 5 }
           (some [77])] ChildBroker.ChildBroker).state =
      .fatal .CHECK
        (runEvents 1
          [.InitAsyncChannel (100, 101) 0 55,
           .OnReadMessage true { type := .CONNECT_TO_PROCESS, pipe_id := 0, process_id := 5 }
             (some [77])] ChildBroker.ChildBroker).state := by
  have hreach : Reachable 1 (runEvents 1
      [.InitAsyncChannel (100, 101) 0 55,
       .OnReadMessage true { type := .CONNECT_TO_PROCESS, pipe_id := 0, process_id := 5 }
         (some [77])] ChildBroker.ChildBroker).state :=
    Reachable.of_runEvents 1
      [.InitAsyncChannel (100, 101) 0 55,
       .OnReadMessage true { type := .CONNECT_TO_PROCESS, pipe_id := 0, process_id := 5 }
         (some [77])] ChildBroker.ChildBroker _ Reachable.ctor rfl
  refine ⟨?_, (OnReadMessage_connect_to_process 1 true 0 5 78 _ hreach).2 (by decide)⟩
  obtain ⟨s1, channel, h1, _, h3, h4, h5, _, h7, _⟩ :=
    (OnReadMessage_connect_to_process 1 true 0 6 78 _ hreach).1 rfl
  refine ⟨s1, channel, h1, h3, ?_, ?_, ?_⟩
  · rw [h4 5 (by decide)]
    rfl
  · exact fun e => h5 (5, 1) (by decide) e.symm
  · exact fun e => h7 (by rw [e]; rfl)

/-! ## Further invariants of the reachable states -/

theorem StdMap.keys_nodup_assign (k v : Nat) (m : List (Nat × Nat))
    (h : StdMap.find k m = none) (hkeys : (m.map Prod.fst).Nodup) :
    ((StdMap.assign k v m).map Prod.fst).Nodup := by
  refine (((StdMap.assign_perm k v m h).map Prod.fst).nodup_iff).2 ?_
  simp only [List.map_cons, List.nodup_cons]
  refine ⟨?_, hkeys⟩
  intro hmem
  rcases List.mem_map.1 hmem with ⟨it, hit, e⟩
  exact (StdMap.find_eq_none_iff _ _).1 h it hit e

theorem StdMap.keys_nodup_erase (k : Nat) (m : List (Nat × Nat))
    (hkeys : (m.map Prod.fst).Nodup) : ((StdMap.erase k m).map Prod.fst).Nodup :=
  hkeys.sublist ((StdMap.erase_sublist k m).map _)

theorem ConnectMessagePipe_cases (kBrokerRouteId : Nat) (channel_pair : Nat × Nat)
    (pipe_id message_pipe : Nat) (s s1 : ChildBroker) (hwf : WellFormed s)
    (hrun : ConnectMessagePipe kBrokerRouteId channel_pair pipe_id message_pipe s = .ok s1) :
    (StdMap.find pipe_id s.pending_connects_ = none ∧
      s1 = WriteAsyncMessage kBrokerRouteId
        { type := .CONNECT_MESSAGE_PIPE, pipe_id := pipe_id }
        { s with pending_connects_ :=
            StdMap.assign pipe_id message_pipe s.pending_connects_ }) ∨
    (StdMap.find pipe_id s.pending_connects_ ≠ none ∧ s.parent_async_channel_ = none ∧
      StdMap.find pipe_id s.pending_inprocess_connects_ = none ∧
      s1 = { s with pending_inprocess_connects_ :=
              StdMap.assign pipe_id message_pipe s.pending_inprocess_connects_ }) ∨
    (∃ pending_pipe parent channel1 channel2 created,
      StdMap.find pipe_id s.pending_connects_ = some pending_pipe ∧
      s.parent_async_channel_ = some parent ∧
      (s.in_process_pipes_channel1_ = none ∨ s.in_process_pipes_channel1_ = some channel1) ∧
      (s.in_process_pipes_channel2_ = none ∨ s.in_process_pipes_channel2_ = some channel2) ∧
      s.next_channel ≤ s1.next_channel ∧
      s1 = { s with
             in_process_pipes_channel1_ := some channel1
             in_process_pipes_channel2_ := some channel2
             next_channel := s1.next_channel
             connected_pipes_ :=
               StdMap.assign message_pipe channel2
                 (StdMap.assign pending_pipe channel1 s.connected_pipes_)
             log := s.log ++
               Effect.WriteMessage parent
                 { route_id := kBrokerRouteId,
                   data := { type := .CANCEL_CONNECT_MESSAGE_PIPE, pipe_id := pipe_id } } ::
               (created ++
               [Effect.AddRoute channel1 pipe_id (.pipe pending_pipe),
                Effect.AddRoute channel2 pipe_id (.pipe message_pipe),
                Effect.GotNonTransferableChannel pending_pipe channel1,
                Effect.GotNonTransferableChannel message_pipe channel2])
             pending_connects_ := StdMap.erase pipe_id s.pending_connects_ } ∧
      writes created = []) := by
  cases hp : StdMap.find pipe_id s.pending_connects_ with
  | none =>
    rw [ConnectMessagePipe_eq_first _ _ _ _ _ hp] at hrun
    cases hrun
    exact Or.inl ⟨rfl, rfl⟩
  | some pending_pipe =>
    have hcases : s.parent_async_channel_ = none ∨
        ∃ parent, s.parent_async_channel_ = some parent := by
      cases s.parent_async_channel_ <;> simp
    rcases hcases with hparent | ⟨parent, hparent⟩
    · by_cases hst : StdMap.find pipe_id s.pending_inprocess_connects_ = none
      · rw [ConnectMessagePipe_eq_staged _ _ _ _ _ _ hp hparent hst] at hrun
        cases hrun
        exact Or.inr (Or.inl ⟨fun h => Option.noConfusion h, hparent, hst, rfl⟩)
      · rw [ConnectMessagePipe_eq_staged_twice _ _ _ _ _ _ hp hparent hst] at hrun
        cases hrun
    · refine Or.inr (Or.inr ?_)
      rcases hwf.pair with ⟨h1, h2⟩ | ⟨channel1, channel2, h1, h2, _, _, _⟩
      · rw [ConnectMessagePipe_eq_shortcut_new _ _ _ _ _ _ _ hp hparent h1] at hrun
        cases hrun
        exact ⟨pending_pipe, parent, s.next_channel, s.next_channel + 1,
          [Effect.NewRoutedRawChannel s.next_channel channel_pair.1,
           Effect.NewRoutedRawChannel (s.next_channel + 1) channel_pair.2],
          rfl, hparent, Or.inl h1, Or.inl h2, Nat.le_add_right _ _, rfl, rfl⟩
      · rw [ConnectMessagePipe_eq_shortcut _ _ _ _ _ _ _ _ _ hp hparent h1 h2] at hrun
        cases hrun
        refine ⟨pending_pipe, parent, channel1, channel2, [], rfl, hparent, Or.inr h1,
          Or.inr h2, Nat.le_refl _, ?_, rfl⟩
        cases s
        simp only at h1 h2
        subst h1 h2
        rfl

theorem InitAsyncChannel.replay_invariant (P : ChildBroker → Prop) (kBrokerRouteId : Nat)
    (channel_pair : Nat × Nat)
    (hconnect : ∀ pipe_id message_pipe s s1, P s →
      ConnectMessagePipe kBrokerRouteId channel_pair pipe_id message_pipe s = .ok s1 → P s1)
    (hstaging : ∀ s, P s →
      P { s with pending_inprocess_connects_ := s.pending_inprocess_connects_.tail })
    (fuel : Nat) (s s1 : ChildBroker) (h : P s)
    (hrun : InitAsyncChannel.replay kBrokerRouteId channel_pair fuel s = .ok s1) : P s1 := by
  induction fuel generalizing s with
  | zero =>
    unfold InitAsyncChannel.replay at hrun
    split at hrun
    · cases hrun; exact h
    · cases hrun
  | succ fuel ih =>
    unfold InitAsyncChannel.replay at hrun
    split at hrun
    · cases hrun; exact h
    · simp only at hrun
      split at hrun
      · rename_i s2 hstep
        exact ih _ (hstaging _ (hconnect _ _ _ _ h hstep)) hrun
      · rename_i hfailed
        rw [hrun] at hfailed
        exact absurd rfl (hfailed s1)

theorem InitAsyncChannel_eq_replay (kBrokerRouteId : Nat) (channel_pair : Nat × Nat)
    (fuel handle : Nat) (s : ChildBroker) :
    InitAsyncChannel kBrokerRouteId channel_pair fuel handle s =
      InitAsyncChannel.replay kBrokerRouteId channel_pair fuel
        { s with
          parent_async_channel_ := some s.next_channel
          next_channel := s.next_channel + 1
          async_channel_queue_ := []
          log := s.log ++ [Effect.NewRoutedRawChannel s.next_channel handle,
                           Effect.AddRoute s.next_channel kBrokerRouteId .broker] ++
            s.async_channel_queue_.map (Effect.WriteMessage s.next_channel) } := by
  simp only [InitAsyncChannel, InitAsyncChannel.drain_eq]

theorem InitAsyncChannel_start_wellFormed (kBrokerRouteId handle : Nat) (s : ChildBroker)
    (h : WellFormed s) :
    WellFormed
      { s with
        parent_async_channel_ := some s.next_channel
        next_channel := s.next_channel + 1
        async_channel_queue_ := []
        log := s.log ++ [Effect.NewRoutedRawChannel s.next_channel handle,
                         Effect.AddRoute s.next_channel kBrokerRouteId .broker] ++
          s.async_channel_queue_.map (Effect.WriteMessage s.next_channel) } := by
  constructor
  · rcases h.pair with hn | ⟨channel1, channel2, h1, h2, hne, hlt1, hlt2⟩
    · exact Or.inl hn
    · exact Or.inr ⟨channel1, channel2, h1, h2, hne,
        Nat.lt_succ_of_lt hlt1, Nat.lt_succ_of_lt hlt2⟩
  · intro c hc
    show c < s.next_channel + 1
    cases hc
    simp
  · exact h.keys
  · exact h.values
  · intro it hit
    exact Nat.lt_succ_of_lt (h.registry it hit)
  · intro it hit
    exact Nat.lt_succ_of_lt (h.connected it hit)

theorem WriteAsyncMessage_frame (kBrokerRouteId : Nat) (data : ConnectMessagePipeMessage)
    (s : ChildBroker) :
    (WriteAsyncMessage kBrokerRouteId data s).pending_connects_ = s.pending_connects_ ∧
    (WriteAsyncMessage kBrokerRouteId data s).pending_inprocess_connects_ =
      s.pending_inprocess_connects_ ∧
    (WriteAsyncMessage kBrokerRouteId data s).parent_async_channel_ =
      s.parent_async_channel_ ∧
    (WriteAsyncMessage kBrokerRouteId data s).in_process_pipes_channel1_ =
      s.in_process_pipes_channel1_ ∧
    (WriteAsyncMessage kBrokerRouteId data s).in_process_pipes_channel2_ =
      s.in_process_pipes_channel2_ := by
  unfold WriteAsyncMessage
  cases s.parent_async_channel_ <;> exact ⟨rfl, rfl, rfl, rfl, rfl⟩

theorem ConnectMessagePipe_pending_unique (kBrokerRouteId : Nat) (channel_pair : Nat × Nat)
    (pipe_id message_pipe : Nat) (s s1 : ChildBroker) (hwf : WellFormed s)
    (h : (s.pending_connects_.map Prod.fst).Nodup)
    (hrun : ConnectMessagePipe kBrokerRouteId channel_pair pipe_id message_pipe s = .ok s1) :
    (s1.pending_connects_.map Prod.fst).Nodup := by
  rcases ConnectMessagePipe_cases _ _ _ _ _ _ hwf hrun with
    ⟨hp, rfl⟩ | ⟨_, _, _, rfl⟩ | ⟨_, _, _, _, _, _, _, _, _, _, hs1, _⟩
  · rw [(WriteAsyncMessage_frame _ _ _).1]
    exact StdMap.keys_nodup_assign _ _ _ hp h
  · exact h
  · rw [hs1]
    exact StdMap.keys_nodup_erase _ _ h

theorem OnReadMessage_pending_unique (DCHECK_IS_ON : Bool) (message_view : MessageView)
    (platform_handles : Option (List Nat)) (s s1 : ChildBroker)
    (h : (s.pending_connects_.map Prod.fst).Nodup)
    (hrun : OnReadMessage DCHECK_IS_ON message_view platform_handles s = .ok s1) :
    (s1.pending_connects_.map Prod.fst).Nodup := by
  have herase := StdMap.keys_nodup_erase message_view.pipe_id _ h
  unfold OnReadMessage at hrun
  split at hrun
  · split at hrun
    · cases hrun
    · split at hrun
      · cases hrun
      · split at hrun
        · cases hrun
        · split at hrun
          · cases hrun; exact h
          · cases hrun
  · split at hrun
    · cases hrun
    · simp only at hrun
      split at hrun
      · cases hrun
      · split at hrun
        · split at hrun
          · cases hrun
          · cases hrun; exact herase
        · split at hrun
          · cases hrun; exact herase
          · split at hrun
            · cases hrun; exact herase
            · cases hrun
  · split at hrun
    · cases hrun
    · cases hrun; exact h

theorem Reachable.pending_unique (kBrokerRouteId : Nat) (s : ChildBroker)
    (h : Reachable kBrokerRouteId s) : (s.pending_connects_.map Prod.fst).Nodup := by
  induction h with
  | ctor => simp [ChildBroker.ChildBroker]
  | step e s s1 hreach hrun ih =>
    have hwf := hreach.wellFormed
    cases e with
    | ConnectMessagePipe channel_pair pipe_id message_pipe =>
      exact ConnectMessagePipe_pending_unique _ _ _ _ _ _ hwf ih hrun
    | CloseMessagePipe pipe_id message_pipe =>
      simp only [Event.run, CloseMessagePipe] at hrun
      split at hrun
      · cases hrun
      · cases hrun; exact ih
    | OnReadMessage dcheck message_view platform_handles =>
      exact OnReadMessage_pending_unique _ _ _ _ _ ih hrun
    | ChannelDestructed channel =>
      simp only [Event.run, Outcome.ok.injEq] at hrun
      rw [← hrun]
      unfold ChannelDestructed
      split <;> exact ih
    | InitAsyncChannel channel_pair fuel handle =>
      simp only [Event.run, InitAsyncChannel_eq_replay] at hrun
      exact (InitAsyncChannel.replay_invariant
        (fun t => WellFormed t ∧ (t.pending_connects_.map Prod.fst).Nodup) _ _
        (fun p e t t1 ht hstep =>
          ⟨ConnectMessagePipe_wellFormed _ _ _ _ _ _ ht.1 hstep,
           ConnectMessagePipe_pending_unique _ _ _ _ _ _ ht.1 ht.2 hstep⟩)
        (fun t ht =>
          ⟨WellFormed_of_channel_members t _ ht.1 rfl rfl rfl rfl rfl rfl, ht.2⟩)
        _ _ _ ⟨InitAsyncChannel_start_wellFormed _ _ _ hwf, ih⟩ hrun).2

/-! ## At most one pending entry per pipe id -/

/-- C14: in every reachable broker state the pending table has at most one entry per pipe
id, and `ConnectMessagePipe(pipe_id, Y)` for a pipe id that is pending with `X`: while the
bootstrap channel does not exist, it either returns or aborts on the `CHECK` of the staging
map, and in both cases the pending table is the table from before the call (`pipe_id`
still maps to `X`); when the bootstrap channel exists, it returns, `pipe_id` has no pending
entry afterwards, and the entries of all other pipe ids are as before. -/
theorem ConnectMessagePipe_pending_entry (kBrokerRouteId : Nat) (channel_pair : Nat × Nat)
    (pipe_id X Y : Nat) (s : ChildBroker)
    (hreach : Reachable kBrokerRouteId s)
    (hpending : StdMap.find pipe_id s.pending_connects_ = some X) :
    (s.pending_connects_.map Prod.fst).Nodup ∧
    (s.parent_async_channel_ = none →
      ((∃ s1, ConnectMessagePipe kBrokerRouteId channel_pair pipe_id Y s = .ok s1) ∨
        ConnectMessagePipe kBrokerRouteId channel_pair pipe_id Y s = .fatal .CHECK s) ∧
      (ConnectMessagePipe kBrokerRouteId channel_pair pipe_id Y s).state.pending_connects_
        = s.pending_connects_ ∧
      StdMap.find pipe_id
        (ConnectMessagePipe kBrokerRouteId channel_pair pipe_id Y s).state.pending_connects_
        = some X) ∧
    (s.parent_async_channel_ ≠ none →
      ∃ s1, ConnectMessagePipe kBrokerRouteId channel_pair pipe_id Y s = .ok s1 ∧
        s1.pending_connects_ = StdMap.erase pipe_id s.pending_connects_ ∧
        StdMap.find pipe_id s1.pending_connects_ = none ∧
        (∀ q, q ≠ pipe_id →
          StdMap.find q s1.pending_connects_ = StdMap.find q s.pending_connects_) ∧
        (s1.pending_connects_.map Prod.fst).Nodup) := by
  have hwf := hreach.wellFormed
  have hunique := hreach.pending_unique
  refine ⟨hunique, ?_, ?_⟩
  · intro hparent
    by_cases hst : StdMap.find pipe_id s.pending_inprocess_connects_ = none
    · have hrun := ConnectMessagePipe_eq_staged kBrokerRouteId channel_pair pipe_id Y X s
        hpending hparent hst
      rw [hrun]
      exact ⟨Or.inl ⟨_, rfl⟩, rfl, hpending⟩
    · have hrun := ConnectMessagePipe_eq_staged_twice kBrokerRouteId channel_pair pipe_id Y X s
        hpending hparent hst
      rw [hrun]
      exact ⟨Or.inr rfl, rfl, hpending⟩
  · intro hparent
    have hsome : ∃ parent, s.parent_async_channel_ = some parent := by
      cases h : s.parent_async_channel_ with
      | none => exact absurd h hparent
      | some parent => exact ⟨parent, rfl⟩
    rcases hsome with ⟨parent, hp⟩
    rcases hwf.pair with ⟨h1, _⟩ | ⟨channel1, channel2, h1, h2, _, _, _⟩
    · exact ⟨_, ConnectMessagePipe_eq_shortcut_new _ _ _ _ _ _ _ hpending hp h1, rfl,
        StdMap.find_erase_self _ _, fun q hq => StdMap.find_erase_ne _ _ _ hq,
        StdMap.keys_nodup_erase _ _ hunique⟩
    · exact ⟨_, ConnectMessagePipe_eq_shortcut _ _ _ _ _ _ _ _ _ hpending hp h1 h2, rfl,
        StdMap.find_erase_self _ _, fun q hq => StdMap.find_erase_ne _ _ _ hq,
        StdMap.keys_nodup_erase _ _ hunique⟩

/-- Witness for C14: after `ConnectMessagePipe(42, 7)` on the constructed broker, pipe id 42
is pending with dispatcher 7 and the bootstrap channel does not exist; a second connect
for pipe id 42 leaves the pending table as it is. -/
theorem ConnectMessagePipe_pending_entry_witness :
    StdMap.find 42 (runEvents 1 [.ConnectMessagePipe (100, 101) 42 7]
      ChildBroker.ChildBroker).state.pending_connects_ = some 7 ∧
    (ConnectMessagePipe 1 (100, 101) 42 8
      (runEvents 1 [.ConnectMessagePipe (100, 101) 42 7]
        ChildBroker.ChildBroker).state).state.pending_connects_ =
      (runEvents 1 [.ConnectMessagePipe (100, 101) 42 7]
        ChildBroker.ChildBroker).state.pending_connects_ :=
  ⟨rfl,
   ((ConnectMessagePipe_pending_entry 1 (100, 101) 42 7 8
      (runEvents 1 [.ConnectMessagePipe (100, 101) 42 7] ChildBroker.ChildBroker).state
      (Reachable.of_runEvents 1 [.ConnectMessagePipe (100, 101) 42 7]
        ChildBroker.ChildBroker _ Reachable.ctor rfl) rfl).2.1 rfl).2.1⟩

/-! ## The in-process pair -/

theorem OnReadMessage_frame (DCHECK_IS_ON : Bool) (message_view : MessageView)
    (platform_handles : Option (List Nat)) (s s1 : ChildBroker)
    (hrun : OnReadMessage DCHECK_IS_ON message_view platform_handles s = .ok s1) :
    s1.parent_async_channel_ = s.parent_async_channel_ ∧
    s1.in_process_pipes_channel1_ = s.in_process_pipes_channel1_ ∧
    s1.in_process_pipes_channel2_ = s.in_process_pipes_channel2_ ∧
    s1.pending_inprocess_connects_ = s.pending_inprocess_connects_ ∧
    s1.async_channel_queue_ = s.async_channel_queue_ := by
  unfold OnReadMessage at hrun
  split at hrun
  · split at hrun
    · cases hrun
    · split at hrun
      · cases hrun
      · split at hrun
        · cases hrun
        · split at hrun
          · cases hrun; exact ⟨rfl, rfl, rfl, rfl, rfl⟩
          · cases hrun
  · split at hrun
    · cases hrun
    · simp only at hrun
      split at hrun
      · cases hrun
      · split at hrun
        · split at hrun
          · cases hrun
          · cases hrun; exact ⟨rfl, rfl, rfl, rfl, rfl⟩
        · split at hrun
          · cases hrun; exact ⟨rfl, rfl, rfl, rfl, rfl⟩
          · split at hrun
            · cases hrun; exact ⟨rfl, rfl, rfl, rfl, rfl⟩
            · cases hrun
  · split at hrun
    · cases hrun
    · cases hrun; exact ⟨rfl, rfl, rfl, rfl, rfl⟩

theorem CloseMessagePipe_frame (pipe_id message_pipe : Nat) (s s1 : ChildBroker)
    (hrun : CloseMessagePipe pipe_id message_pipe s = .ok s1) :
    s1.parent_async_channel_ = s.parent_async_channel_ ∧
    s1.in_process_pipes_channel1_ = s.in_process_pipes_channel1_ ∧
    s1.in_process_pipes_channel2_ = s.in_process_pipes_channel2_ ∧
    s1.pending_inprocess_connects_ = s.pending_inprocess_connects_ ∧
    s1.async_channel_queue_ = s.async_channel_queue_ ∧
    s1.pending_connects_ = s.pending_connects_ := by
  unfold CloseMessagePipe at hrun
  split at hrun
  · cases hrun
  · cases hrun; exact ⟨rfl, rfl, rfl, rfl, rfl, rfl⟩

theorem ChannelDestructed_frame (channel : Nat) (s : ChildBroker) :
    (ChannelDestructed channel s).parent_async_channel_ = s.parent_async_channel_ ∧
    (ChannelDestructed channel s).in_process_pipes_channel1_ =
      s.in_process_pipes_channel1_ ∧
    (ChannelDestructed channel s).in_process_pipes_channel2_ =
      s.in_process_pipes_channel2_ ∧
    (ChannelDestructed channel s).pending_inprocess_connects_ =
      s.pending_inprocess_connects_ ∧
    (ChannelDestructed channel s).async_channel_queue_ = s.async_channel_queue_ ∧
    (ChannelDestructed channel s).pending_connects_ = s.pending_connects_ := by
  unfold ChannelDestructed
  split <;> exact ⟨rfl, rfl, rfl, rfl, rfl, rfl⟩

theorem ConnectMessagePipe_pair_kept (kBrokerRouteId : Nat) (channel_pair : Nat × Nat)
    (pipe_id message_pipe : Nat) (s s1 : ChildBroker) (hwf : WellFormed s)
    (hrun : ConnectMessagePipe kBrokerRouteId channel_pair pipe_id message_pipe s = .ok s1) :
    (∀ c, s.in_process_pipes_channel1_ = some c → s1.in_process_pipes_channel1_ = some c) ∧
    (∀ c, s.in_process_pipes_channel2_ = some c → s1.in_process_pipes_channel2_ = some c) := by
  rcases ConnectMessagePipe_cases _ _ _ _ _ _ hwf hrun with
    ⟨_, rfl⟩ | ⟨_, _, _, rfl⟩ | ⟨_, _, channel1, channel2, _, _, _, h1, h2, _, hs1, _⟩
  · rw [(WriteAsyncMessage_frame _ _ _).2.2.2.1, (WriteAsyncMessage_frame _ _ _).2.2.2.2]
    exact ⟨fun _ h => h, fun _ h => h⟩
  · exact ⟨fun _ h => h, fun _ h => h⟩
  · rw [hs1]
    constructor
    · intro c hc
      rcases h1 with h1 | h1
      · rw [h1] at hc; exact Option.noConfusion hc
      · rw [h1] at hc; exact hc
    · intro c hc
      rcases h2 with h2 | h2
      · rw [h2] at hc; exact Option.noConfusion hc
      · rw [h2] at hc; exact hc

theorem InitAsyncChannel_pair_kept (kBrokerRouteId : Nat) (channel_pair : Nat × Nat)
    (fuel handle : Nat) (s s1 : ChildBroker) (hwf : WellFormed s)
    (hrun : InitAsyncChannel kBrokerRouteId channel_pair fuel handle s = .ok s1) :
    (∀ c, s.in_process_pipes_channel1_ = some c → s1.in_process_pipes_channel1_ = some c) ∧
    (∀ c, s.in_process_pipes_channel2_ = some c → s1.in_process_pipes_channel2_ = some c) := by
  rw [InitAsyncChannel_eq_replay] at hrun
  constructor
  · intro c hc
    exact (InitAsyncChannel.replay_invariant
      (fun t => WellFormed t ∧ t.in_process_pipes_channel1_ = some c) _ _
      (fun p e t t1 ht hstep =>
        ⟨ConnectMessagePipe_wellFormed _ _ _ _ _ _ ht.1 hstep,
         (ConnectMessagePipe_pair_kept _ _ _ _ _ _ ht.1 hstep).1 c ht.2⟩)
      (fun t ht => ⟨WellFormed_of_channel_members t _ ht.1 rfl rfl rfl rfl rfl rfl, ht.2⟩)
      _ _ _ ⟨InitAsyncChannel_start_wellFormed _ _ _ hwf, hc⟩ hrun).2
  · intro c hc
    exact (InitAsyncChannel.replay_invariant
      (fun t => WellFormed t ∧ t.in_process_pipes_channel2_ = some c) _ _
      (fun p e t t1 ht hstep =>
        ⟨ConnectMessagePipe_wellFormed _ _ _ _ _ _ ht.1 hstep,
         (ConnectMessagePipe_pair_kept _ _ _ _ _ _ ht.1 hstep).2 c ht.2⟩)
      (fun t ht => ⟨WellFormed_of_channel_members t _ ht.1 rfl rfl rfl rfl rfl rfl, ht.2⟩)
      _ _ _ ⟨InitAsyncChannel_start_wellFormed _ _ _ hwf, hc⟩ hrun).2

/-- C18: in every reachable broker state the two in-process channels are both null, or
both set and distinct.  Every event that returns keeps a channel that is set: neither
further connects, nor close, nor resolution messages, nor `ChannelDestructed`, nor
`InitAsyncChannel` replace or clear either half.  `CloseMessagePipe`, `OnReadMessage` and
`ChannelDestructed` do not touch the two members at all; a `ConnectMessagePipe` that sets
them starts from both null, for a pipe id that is pending while the bootstrap channel
exists (the same-process branch), and a `ConnectMessagePipe` that finds them set leaves
them as they are. -/
theorem in_process_pair_created_once (kBrokerRouteId : Nat) (s : ChildBroker)
    (hreach : Reachable kBrokerRouteId s) :
    ((s.in_process_pipes_channel1_ = none ∧ s.in_process_pipes_channel2_ = none) ∨
      (∃ channel1 channel2, s.in_process_pipes_channel1_ = some channel1 ∧
        s.in_process_pipes_channel2_ = some channel2 ∧ channel1 ≠ channel2)) ∧
    (∀ (e : Event) (s1 : ChildBroker), e.run kBrokerRouteId s = .ok s1 →
      (∀ c, s.in_process_pipes_channel1_ = some c → s1.in_process_pipes_channel1_ = some c) ∧
      (∀ c, s.in_process_pipes_channel2_ = some c →
        s1.in_process_pipes_channel2_ = some c)) ∧
    (∀ pipe_id message_pipe s1, CloseMessagePipe pipe_id message_pipe s = .ok s1 →
      s1.in_process_pipes_channel1_ = s.in_process_pipes_channel1_ ∧
      s1.in_process_pipes_channel2_ = s.in_process_pipes_channel2_) ∧
    (∀ DCHECK_IS_ON message_view platform_handles s1,
      OnReadMessage DCHECK_IS_ON message_view platform_handles s = .ok s1 →
      s1.in_process_pipes_channel1_ = s.in_process_pipes_channel1_ ∧
      s1.in_process_pipes_channel2_ = s.in_process_pipes_channel2_) ∧
    (∀ channel,
      (ChannelDestructed channel s).in_process_pipes_channel1_ =
        s.in_process_pipes_channel1_ ∧
      (ChannelDestructed channel s).in_process_pipes_channel2_ =
        s.in_process_pipes_channel2_) ∧
    (∀ channel_pair pipe_id message_pipe s1,
      ConnectMessagePipe kBrokerRouteId channel_pair pipe_id message_pipe s = .ok s1 →
      s1.in_process_pipes_channel1_ ≠ s.in_process_pipes_channel1_ ∨
        s1.in_process_pipes_channel2_ ≠ s.in_process_pipes_channel2_ →
      s.in_process_pipes_channel1_ = none ∧ s.in_process_pipes_channel2_ = none ∧
      StdMap.find pipe_id s.pending_connects_ ≠ none ∧ s.parent_async_channel_ ≠ none) := by
  have hwf := hreach.wellFormed
  refine ⟨?_, ?_, ?_, ?_, ?_, ?_⟩
  · rcases hwf.pair with hn | ⟨channel1, channel2, h1, h2, hne, _, _⟩
    · exact Or.inl hn
    · exact Or.inr ⟨channel1, channel2, h1, h2, hne⟩
  · intro e s1 hrun
    cases e with
    | ConnectMessagePipe channel_pair pipe_id message_pipe =>
      exact ConnectMessagePipe_pair_kept _ _ _ _ _ _ hwf hrun
    | CloseMessagePipe pipe_id message_pipe =>
      have hf := CloseMessagePipe_frame _ _ _ _ hrun
      rw [hf.2.1, hf.2.2.1]
      exact ⟨fun _ h => h, fun _ h => h⟩
    | OnReadMessage dcheck message_view platform_handles =>
      have hf := OnReadMessage_frame _ _ _ _ _ hrun
      rw [hf.2.1, hf.2.2.1]
      exact ⟨fun _ h => h, fun _ h => h⟩
    | ChannelDestructed channel =>
      simp only [Event.run, Outcome.ok.injEq] at hrun
      rw [← hrun, (ChannelDestructed_frame _ _).2.1, (ChannelDestructed_frame _ _).2.2.1]
      exact ⟨fun _ h => h, fun _ h => h⟩
    | InitAsyncChannel channel_pair fuel handle =>
      exact InitAsyncChannel_pair_kept _ _ _ _ _ _ hwf hrun
  · intro pipe_id message_pipe s1 hrun
    have hf := CloseMessagePipe_frame _ _ _ _ hrun
    exact ⟨hf.2.1, hf.2.2.1⟩
  · intro d message_view platform_handles s1 hrun
    have hf := OnReadMessage_frame _ _ _ _ _ hrun
    exact ⟨hf.2.1, hf.2.2.1⟩
  · intro channel
    exact ⟨(ChannelDestructed_frame _ _).2.1, (ChannelDestructed_frame _ _).2.2.1⟩
  · intro channel_pair pipe_id message_pipe s1 hrun hchanged
    rcases ConnectMessagePipe_cases _ _ _ _ _ _ hwf hrun with
      ⟨_, rfl⟩ | ⟨_, _, _, rfl⟩ |
      ⟨pending_pipe, parent, channel1, channel2, _, hp, hparent, h1, h2, _, hs1, _⟩
    · rw [(WriteAsyncMessage_frame _ _ _).2.2.2.1, (WriteAsyncMessage_frame _ _ _).2.2.2.2]
        at hchanged
      rcases hchanged with h | h <;> exact absurd rfl h
    · rcases hchanged with h | h <;> exact absurd rfl h
    · have hpend : StdMap.find pipe_id s.pending_connects_ ≠ none := by
        rw [hp]; exact fun h => Option.noConfusion h
      have hpar : s.parent_async_channel_ ≠ none := by
        rw [hparent]; exact fun h => Option.noConfusion h
      rcases hwf.pair with ⟨hn1, hn2⟩ | ⟨c1, c2, hc1, hc2, _, _, _⟩
      · exact ⟨hn1, hn2, hpend, hpar⟩
      · exfalso
        have e1 : channel1 = c1 := by
          rcases h1 with h1 | h1
          · rw [hc1] at h1; exact Option.noConfusion h1
          · rw [hc1] at h1; exact (Option.some.inj h1).symm
        have e2 : channel2 = c2 := by
          rcases h2 with h2 | h2
          · rw [hc2] at h2; exact Option.noConfusion h2
          · rw [hc2] at h2; exact (Option.some.inj h2).symm
        rw [hs1] at hchanged
        simp only [e1, e2, hc1, hc2, ne_eq, not_true_eq_false, or_self] at hchanged

/-- Witness for C18: after `InitAsyncChannel`, `ConnectMessagePipe(42, 7)`,
`ConnectMessagePipe(42, 8)` and `ConnectMessagePipe(43, 9)` the pair is channels 1 and 2; the
same-process resolution of pipe id 43 by `ConnectMessagePipe(43, 10)` keeps both halves. -/
theorem in_process_pair_created_once_witness :
    (ConnectMessagePipe 1 (100, 101) 43 10
      (runEvents 1
        [.InitAsyncChannel (100, 101) 0 55, .ConnectMessagePipe (100, 101) 42 7,
         .ConnectMessagePipe (100, 101) 42 8, .ConnectMessagePipe (100, 101) 43 9]
        ChildBroker.ChildBroker).state).state.in_process_pipes_channel1_ = some 1 ∧
    (ConnectMessagePipe 1 (100, 101) 43 10
      (runEvents 1
        [.InitAsyncChannel (100, 101) 0 55, .ConnectMessagePipe (100, 101) 42 7,
         .ConnectMessagePipe (100, 101) 42 8, .ConnectMessagePipe (100, 101) 43 9]
        ChildBroker.ChildBroker).state).state.in_process_pipes_channel2_ = some 2 :=
  ⟨((in_process_pair_created_once 1
      (runEvents 1
        [.InitAsyncChannel (100, 101) 0 55, .ConnectMessagePipe (100, 101) 42 7,
         .ConnectMessagePipe (100, 101) 42 8, .ConnectMessagePipe (100, 101) 43 9]
        ChildBroker.ChildBroker).state
      (Reachable.of_runEvents 1
        [.InitAsyncChannel (100, 101) 0 55, .ConnectMessagePipe (100, 101) 42 7,
         .ConnectMessagePipe (100, 101) 42 8, .ConnectMessagePipe (100, 101) 43 9]
        ChildBroker.ChildBroker _ Reachable.ctor rfl)).2.1
      (.ConnectMessagePipe (100, 101) 43 10) _ rfl).1 1 rfl,
   ((in_process_pair_created_once 1
      (runEvents 1
        [.InitAsyncChannel (100, 101) 0 55, .ConnectMessagePipe (100, 101) 42 7,
         .ConnectMessagePipe (100, 101) 42 8, .ConnectMessagePipe (100, 101) 43 9]
        ChildBroker.ChildBroker).state
      (Reachable.of_runEvents 1
        [.InitAsyncChannel (100, 101) 0 55, .ConnectMessagePipe (100, 101) 42 7,
         .ConnectMessagePipe (100, 101) 42 8, .ConnectMessagePipe (100, 101) 43 9]
        ChildBroker.ChildBroker _ Reachable.ctor rfl)).2.1
      (.ConnectMessagePipe (100, 101) 43 10) _ rfl).2 2 rfl⟩

/-! ## The window before the bootstrap channel exists -/

theorem ReachableByProtocol.reachable (kBrokerRouteId : Nat) (s : ChildBroker)
    (h : ReachableByProtocol kBrokerRouteId s) : Reachable kBrokerRouteId s := by
  induction h with
  | ctor => exact Reachable.ctor
  | step e s s1 _ _ hrun ih => exact Reachable.step e s s1 ih hrun

theorem WriteAsyncMessage_queue (kBrokerRouteId : Nat) (data : ConnectMessagePipeMessage)
    (s : ChildBroker) :
    (s.parent_async_channel_ = none →
      (WriteAsyncMessage kBrokerRouteId data s).async_channel_queue_ =
        s.async_channel_queue_ ++ [{ route_id := kBrokerRouteId, data := data }]) ∧
    (s.parent_async_channel_ ≠ none →
      (WriteAsyncMessage kBrokerRouteId data s).async_channel_queue_ =
        s.async_channel_queue_) := by
  unfold WriteAsyncMessage
  cases h : s.parent_async_channel_ with
  | none => exact ⟨fun _ => rfl, fun hne => absurd rfl hne⟩
  | some parent => exact ⟨fun he => Option.noConfusion he, fun _ => rfl⟩

theorem ConnectMessagePipe_parent (kBrokerRouteId : Nat) (channel_pair : Nat × Nat)
    (pipe_id message_pipe : Nat) (s s1 : ChildBroker) (hwf : WellFormed s)
    (hrun : ConnectMessagePipe kBrokerRouteId channel_pair pipe_id message_pipe s = .ok s1) :
    s1.parent_async_channel_ = s.parent_async_channel_ := by
  rcases ConnectMessagePipe_cases _ _ _ _ _ _ hwf hrun with
    ⟨_, rfl⟩ | ⟨_, _, _, rfl⟩ | ⟨_, _, _, _, _, _, _, _, _, _, hs1, _⟩
  · exact (WriteAsyncMessage_frame _ _ _).2.2.1
  · rfl
  · rw [hs1]

theorem ConnectMessagePipe_bootstrapWindow (kBrokerRouteId : Nat) (channel_pair : Nat × Nat)
    (pipe_id message_pipe : Nat) (s s1 : ChildBroker) (hwf : WellFormed s)
    (h : BootstrapWindow s)
    (hrun : ConnectMessagePipe kBrokerRouteId channel_pair pipe_id message_pipe s = .ok s1) :
    BootstrapWindow s1 := by
  rcases ConnectMessagePipe_cases _ _ _ _ _ _ hwf hrun with
    ⟨hp, rfl⟩ | ⟨hp, hparent, hst, rfl⟩ | ⟨_, parent, _, _, _, _, hparent, _, _, _, hs1, _⟩
  · have hf := WriteAsyncMessage_frame kBrokerRouteId
      { type := .CONNECT_MESSAGE_PIPE, pipe_id := pipe_id }
      { s with pending_connects_ := StdMap.assign pipe_id message_pipe s.pending_connects_ }
    have hq := WriteAsyncMessage_queue kBrokerRouteId
      { type := .CONNECT_MESSAGE_PIPE, pipe_id := pipe_id }
      { s with pending_connects_ := StdMap.assign pipe_id message_pipe s.pending_connects_ }
    constructor
    · intro hparent it hit
      rw [hf.2.2.1] at hparent
      rw [hf.2.1] at hit
      rw [hf.1]
      show StdMap.find it.1 (StdMap.assign pipe_id message_pipe s.pending_connects_) ≠ none
      by_cases e : it.1 = pipe_id
      · rw [e, StdMap.find_assign_self]
        exact fun h => Option.noConfusion h
      · rw [StdMap.find_assign_ne _ _ _ _ e]
        exact h.staged_pending hparent it hit
    · intro hparent message hmem
      rw [hf.2.2.1] at hparent
      rw [hq.1 hparent] at hmem
      rcases List.mem_append.1 hmem with hmem | hmem
      · exact h.queued_connects hparent message hmem
      · rw [List.mem_singleton.1 hmem]
    · intro hparent
      rw [hf.2.2.1] at hparent
      rw [hq.2 hparent, hf.2.1]
      exact h.flushed hparent
    · rw [hf.2.1]
      exact h.staged_unique
  · constructor
    · intro _ it hit
      rcases StdMap.mem_assign _ _ _ _ hit with e | hmem
      · rw [e]
        exact hp
      · exact h.staged_pending hparent it hmem
    · intro _ message hmem
      exact h.queued_connects hparent message hmem
    · intro hne
      exact absurd hparent hne
    · exact StdMap.keys_nodup_assign _ _ _ hst h.staged_unique
  · have hne : s.parent_async_channel_ ≠ none := by
      rw [hparent]; exact fun e => Option.noConfusion e
    have hflushed := h.flushed hne
    rw [hs1]
    constructor
    · intro hnone
      exact absurd hnone hne
    · intro hnone
      exact absurd hnone hne
    · intro _
      exact hflushed
    · exact h.staged_unique

theorem InitAsyncChannel.replay_staging_empty (kBrokerRouteId : Nat)
    (channel_pair : Nat × Nat) (fuel : Nat) (s s1 : ChildBroker)
    (hrun : InitAsyncChannel.replay kBrokerRouteId channel_pair fuel s = .ok s1) :
    s1.pending_inprocess_connects_ = [] := by
  induction fuel generalizing s with
  | zero =>
    unfold InitAsyncChannel.replay at hrun
    split at hrun
    · rename_i hempty
      cases hrun; exact hempty
    · cases hrun
  | succ fuel ih =>
    unfold InitAsyncChannel.replay at hrun
    split at hrun
    · rename_i hempty
      cases hrun; exact hempty
    · simp only at hrun
      split at hrun
      · exact ih _ hrun
      · rename_i hfailed
        rw [hrun] at hfailed
        exact absurd rfl (hfailed s1)

theorem InitAsyncChannel_flushed (kBrokerRouteId : Nat) (channel_pair : Nat × Nat)
    (fuel handle : Nat) (s s1 : ChildBroker) (hwf : WellFormed s)
    (hrun : InitAsyncChannel kBrokerRouteId channel_pair fuel handle s = .ok s1) :
    s1.parent_async_channel_ = some s.next_channel ∧ s1.async_channel_queue_ = [] ∧
      s1.pending_inprocess_connects_ = [] := by
  rw [InitAsyncChannel_eq_replay] at hrun
  have hinv := InitAsyncChannel.replay_invariant
    (fun t => WellFormed t ∧ t.parent_async_channel_ = some s.next_channel ∧
      t.async_channel_queue_ = []) _ _
    (fun p e t t1 ht hstep => by
      refine ⟨ConnectMessagePipe_wellFormed _ _ _ _ _ _ ht.1 hstep, ?_, ?_⟩
      · rw [ConnectMessagePipe_parent _ _ _ _ _ _ ht.1 hstep]
        exact ht.2.1
      · have hne : t.parent_async_channel_ ≠ none := by
          rw [ht.2.1]; exact fun e => Option.noConfusion e
        rcases ConnectMessagePipe_cases _ _ _ _ _ _ ht.1 hstep with
          ⟨_, rfl⟩ | ⟨_, hnone, _, _⟩ | ⟨_, _, _, _, _, _, _, _, _, _, hs1, _⟩
        · rw [(WriteAsyncMessage_queue _ _ _).2 (by exact hne)]
          exact ht.2.2
        · exact absurd hnone hne
        · rw [hs1]
          exact ht.2.2)
    (fun t ht => ⟨WellFormed_of_channel_members t _ ht.1 rfl rfl rfl rfl rfl rfl, ht.2⟩)
    _ _ _ ⟨InitAsyncChannel_start_wellFormed _ _ _ hwf, rfl, rfl⟩ hrun
  exact ⟨hinv.2.1, hinv.2.2, InitAsyncChannel.replay_staging_empty _ _ _ _ _ hrun⟩

theorem Event.run_bootstrapWindow (kBrokerRouteId : Nat) (e : Event) (s s1 : ChildBroker)
    (hwf : WellFormed s) (h : BootstrapWindow s)
    (hallowed : e.allowed s ∨ s.parent_async_channel_ ≠ none)
    (hrun : e.run kBrokerRouteId s = .ok s1) : BootstrapWindow s1 := by
  cases e with
  | ConnectMessagePipe channel_pair pipe_id message_pipe =>
    exact ConnectMessagePipe_bootstrapWindow _ _ _ _ _ _ hwf h hrun
  | CloseMessagePipe pipe_id message_pipe =>
    have hf := CloseMessagePipe_frame _ _ _ _ hrun
    constructor
    · rw [hf.1, hf.2.2.2.1, hf.2.2.2.2.2]; exact h.staged_pending
    · rw [hf.1, hf.2.2.2.2.1]; exact h.queued_connects
    · rw [hf.1, hf.2.2.2.1, hf.2.2.2.2.1]; exact h.flushed
    · rw [hf.2.2.2.1]; exact h.staged_unique
  | OnReadMessage dcheck message_view platform_handles =>
    have hf := OnReadMessage_frame _ _ _ _ _ hrun
    have hne : s.parent_async_channel_ ≠ none := by
      rcases hallowed with ha | ha <;> exact ha
    constructor
    · rw [hf.1]; intro hnone; exact absurd hnone hne
    · rw [hf.1]; intro hnone; exact absurd hnone hne
    · rw [hf.1, hf.2.2.2.1, hf.2.2.2.2]; exact h.flushed
    · rw [hf.2.2.2.1]; exact h.staged_unique
  | ChannelDestructed channel =>
    simp only [Event.run, Outcome.ok.injEq] at hrun
    rw [← hrun]
    have hf := ChannelDestructed_frame channel s
    constructor
    · rw [hf.1, hf.2.2.2.1, hf.2.2.2.2.2]; exact h.staged_pending
    · rw [hf.1, hf.2.2.2.2.1]; exact h.queued_connects
    · rw [hf.1, hf.2.2.2.1, hf.2.2.2.2.1]; exact h.flushed
    · rw [hf.2.2.2.1]; exact h.staged_unique
  | InitAsyncChannel channel_pair fuel handle =>
    have hf := InitAsyncChannel_flushed _ _ _ _ _ _ hwf hrun
    constructor
    · rw [hf.1]; intro hnone; exact Option.noConfusion hnone
    · rw [hf.1]; intro hnone; exact Option.noConfusion hnone
    · intro _; exact ⟨hf.2.1, hf.2.2⟩
    · rw [hf.2.2]; exact List.nodup_nil

theorem ReachableByProtocol.bootstrapWindow (kBrokerRouteId : Nat) (s : ChildBroker)
    (h : ReachableByProtocol kBrokerRouteId s) : BootstrapWindow s := by
  induction h with
  | ctor =>
    constructor
    · intro _ it hit; simp [ChildBroker.ChildBroker] at hit
    · intro _ message hmem; simp [ChildBroker.ChildBroker] at hmem
    · intro hne; exact absurd rfl hne
    · simp [ChildBroker.ChildBroker]
  | step e s s1 hreach hallowed hrun ih =>
    exact Event.run_bootstrapWindow _ e s s1
      (Reachable.wellFormed _ _ (ReachableByProtocol.reachable _ _ hreach)) ih
      (Or.inl hallowed) hrun

theorem writes_map_queue (channel : Nat) (queue : List MessageInTransit) :
    writes (queue.map (Effect.WriteMessage channel)) = queue.map (fun m => (channel, m)) := by
  induction queue with
  | nil => rfl
  | cons message rest ih => simp [writes, ih]

theorem ConnectMessagePipe_same_process_ok (kBrokerRouteId : Nat) (channel_pair : Nat × Nat)
    (pipe_id X Y parent : Nat) (s : ChildBroker) (hwf : WellFormed s)
    (hpending : StdMap.find pipe_id s.pending_connects_ = some X)
    (hparent : s.parent_async_channel_ = some parent) :
    ∃ s1, ConnectMessagePipe kBrokerRouteId channel_pair pipe_id Y s = .ok s1 ∧
      s1.pending_connects_ = StdMap.erase pipe_id s.pending_connects_ ∧
      s1.pending_inprocess_connects_ = s.pending_inprocess_connects_ ∧
      s1.async_channel_queue_ = s.async_channel_queue_ ∧
      s1.parent_async_channel_ = some parent ∧
      writes s1.log = writes s.log ++
        [(parent, { route_id := kBrokerRouteId,
                    data := { type := .CANCEL_CONNECT_MESSAGE_PIPE, pipe_id := pipe_id } })] := by
  rcases hwf.pair with ⟨h1, _⟩ | ⟨channel1, channel2, h1, h2, _, _, _⟩
  · exact ⟨_, ConnectMessagePipe_eq_shortcut_new _ _ _ _ _ _ _ hpending hparent h1, rfl, rfl,
      rfl, hparent, by simp [writes_append, writes]⟩
  · exact ⟨_, ConnectMessagePipe_eq_shortcut _ _ _ _ _ _ _ _ _ hpending hparent h1 h2, rfl, rfl,
      rfl, hparent, by simp [writes_append, writes]⟩

theorem InitAsyncChannel.replay_terminates (kBrokerRouteId : Nat) (channel_pair : Nat × Nat)
    (parent : Nat) (staged : List (Nat × Nat)) (fuel : Nat) (t : ChildBroker)
    (hwf : WellFormed t) (hparent : t.parent_async_channel_ = some parent)
    (hstaged : t.pending_inprocess_connects_ = staged)
    (hunique : (staged.map Prod.fst).Nodup)
    (hpending : ∀ it ∈ staged, StdMap.find it.1 t.pending_connects_ ≠ none)
    (hfuel : staged.length ≤ fuel) :
    ∃ t1, InitAsyncChannel.replay kBrokerRouteId channel_pair fuel t = .ok t1 ∧
      t1.pending_inprocess_connects_ = [] ∧
      t1.async_channel_queue_ = t.async_channel_queue_ ∧
      t1.parent_async_channel_ = some parent ∧
      writes t1.log = writes t.log ++ staged.map (fun it =>
        (parent, { route_id := kBrokerRouteId,
                   data := { type := .CANCEL_CONNECT_MESSAGE_PIPE, pipe_id := it.1 } })) := by
  induction staged generalizing t fuel with
  | nil =>
    exact ⟨t, InitAsyncChannel.replay_nothing_staged _ _ _ _ hstaged, hstaged, rfl, hparent,
      by simp⟩
  | cons it rest ih =>
    cases fuel with
    | zero => simp at hfuel
    | succ fuel =>
      have hnd : it.1 ∉ rest.map Prod.fst ∧ (rest.map Prod.fst).Nodup := by
        simpa using hunique
      have hsome : ∃ X, StdMap.find it.1 t.pending_connects_ = some X := by
        have hne := hpending it (List.mem_cons_self _ _)
        cases h : StdMap.find it.1 t.pending_connects_ with
        | none => exact absurd h hne
        | some X => exact ⟨X, rfl⟩
      rcases hsome with ⟨X, hX⟩
      obtain ⟨s1, hrun, hpend1, hstaged1, hqueue1, hparent1, hwrites1⟩ :=
        ConnectMessagePipe_same_process_ok kBrokerRouteId channel_pair it.1 X it.2 parent t
          hwf hX hparent
      have hwf1 := ConnectMessagePipe_wellFormed _ _ _ _ _ _ hwf hrun
      have htail : s1.pending_inprocess_connects_.tail = rest := by
        rw [hstaged1, hstaged]; rfl
      obtain ⟨t1, h1, h2, h3, h4, h5⟩ := ih fuel
        { s1 with pending_inprocess_connects_ := s1.pending_inprocess_connects_.tail }
        (WellFormed_of_channel_members s1 _ hwf1 rfl rfl rfl rfl rfl rfl)
        hparent1 htail hnd.2
        (by
          intro it2 hit2
          have hne : it2.1 ≠ it.1 := by
            intro e
            exact hnd.1 (e ▸ List.mem_map_of_mem Prod.fst hit2)
          show StdMap.find it2.1 s1.pending_connects_ ≠ none
          rw [hpend1, StdMap.find_erase_ne _ _ _ hne]
          exact hpending it2 (List.mem_cons_of_mem _ hit2))
        (by simpa using hfuel)
      refine ⟨t1, ?_, h2, ?_, h4, ?_⟩
      · rw [InitAsyncChannel.replay_step _ _ _ _ it rest s1 hstaged hrun]
        exact h1
      · rw [h3]
        exact hqueue1
      · rw [h5]
        show writes s1.log ++ _ = _
        rw [hwrites1]
        simp

theorem Event.run_parent_kept (kBrokerRouteId : Nat) (e : Event) (s s1 : ChildBroker)
    (hwf : WellFormed s) (hparent : s.parent_async_channel_ ≠ none)
    (hrun : e.run kBrokerRouteId s = .ok s1) : s1.parent_async_channel_ ≠ none := by
  cases e with
  | ConnectMessagePipe channel_pair pipe_id message_pipe =>
    rw [ConnectMessagePipe_parent _ _ _ _ _ _ hwf hrun]
    exact hparent
  | CloseMessagePipe pipe_id message_pipe =>
    rw [(CloseMessagePipe_frame _ _ _ _ hrun).1]
    exact hparent
  | OnReadMessage dcheck message_view platform_handles =>
    rw [(OnReadMessage_frame _ _ _ _ _ hrun).1]
    exact hparent
  | ChannelDestructed channel =>
    simp only [Event.run, Outcome.ok.injEq] at hrun
    rw [← hrun, (ChannelDestructed_frame _ _).1]
    exact hparent
  | InitAsyncChannel channel_pair fuel handle =>
    rw [(InitAsyncChannel_flushed _ _ _ _ _ _ hwf hrun).1]
    exact fun h => Option.noConfusion h

/-- C19: in every state reachable from the constructed broker under the transport
contract: while the bootstrap channel does not exist, every staged pipe id has a pending
entry, the queue holds only `CONNECT_MESSAGE_PIPE` messages, and `InitAsyncChannel`, given
a loop bound of at least the number of staged entries, returns with the queue and the
staging map empty, having written the queued messages in order and then exactly one
`CANCEL_CONNECT_MESSAGE_PIPE` per staged entry, in staging order (every replayed connect
takes the same-process branch).  Once the bootstrap channel exists, the queue and the
staging map are empty, and after every event that returns the bootstrap channel still
exists and both are still empty. -/
theorem bootstrap_window (kBrokerRouteId : Nat) (s : ChildBroker)
    (hreach : ReachableByProtocol kBrokerRouteId s) :
    (s.parent_async_channel_ = none →
      (∀ it ∈ s.pending_inprocess_connects_,
        StdMap.find it.1 s.pending_connects_ ≠ none) ∧
      (∀ message ∈ s.async_channel_queue_,
        message.data.type = MultiplexMessages.CONNECT_MESSAGE_PIPE) ∧
      (∀ (channel_pair : Nat × Nat) (fuel handle : Nat),
        s.pending_inprocess_connects_.length ≤ fuel →
        ∃ s1, InitAsyncChannel kBrokerRouteId channel_pair fuel handle s = .ok s1 ∧
          s1.parent_async_channel_ = some s.next_channel ∧
          s1.async_channel_queue_ = [] ∧
          s1.pending_inprocess_connects_ = [] ∧
          writes s1.log = writes s.log ++
            s.async_channel_queue_.map (fun m => (s.next_channel, m)) ++
            s.pending_inprocess_connects_.map (fun it =>
              (s.next_channel,
                { route_id := kBrokerRouteId,
                  data := { type := .CANCEL_CONNECT_MESSAGE_PIPE, pipe_id := it.1 } })))) ∧
    (s.parent_async_channel_ ≠ none →
      s.async_channel_queue_ = [] ∧ s.pending_inprocess_connects_ = [] ∧
      ∀ (e : Event) (s1 : ChildBroker), e.run kBrokerRouteId s = .ok s1 →
        s1.parent_async_channel_ ≠ none ∧ s1.async_channel_queue_ = [] ∧
        s1.pending_inprocess_connects_ = []) := by
  have hwf := Reachable.wellFormed _ _ (ReachableByProtocol.reachable _ _ hreach)
  have hwin := ReachableByProtocol.bootstrapWindow _ _ hreach
  constructor
  · intro hnone
    refine ⟨hwin.staged_pending hnone, hwin.queued_connects hnone, ?_⟩
    intro channel_pair fuel handle hfuel
    obtain ⟨s1, h1, h2, h3, h4, h5⟩ :=
      InitAsyncChannel.replay_terminates kBrokerRouteId channel_pair s.next_channel
        s.pending_inprocess_connects_ fuel
        { s with
          parent_async_channel_ := some s.next_channel
          next_channel := s.next_channel + 1
          async_channel_queue_ := []
          log := s.log ++ [Effect.NewRoutedRawChannel s.next_channel handle,
                           Effect.AddRoute s.next_channel kBrokerRouteId .broker] ++
            s.async_channel_queue_.map (Effect.WriteMessage s.next_channel) }
        (InitAsyncChannel_start_wellFormed _ _ _ hwf) rfl rfl hwin.staged_unique
        (hwin.staged_pending hnone) hfuel
    refine ⟨s1, ?_, h4, h3, h2, ?_⟩
    · rw [InitAsyncChannel_eq_replay]
      exact h1
    · rw [h5]
      simp [writes_append, writes, writes_map_queue]
  · intro hsome
    refine ⟨(hwin.flushed hsome).1, (hwin.flushed hsome).2, ?_⟩
    intro e s1 hrun
    have hparent1 := Event.run_parent_kept _ e s s1 hwf hsome hrun
    have hwin1 := Event.run_bootstrapWindow _ e s s1 hwf hwin (Or.inr hsome) hrun
    exact ⟨hparent1, (hwin1.flushed hparent1).1, (hwin1.flushed hparent1).2⟩

/-- Witness for C19: after `ConnectMessagePipe(42, 7)` and `ConnectMessagePipe(42, 8)` on the
constructed broker, one connect is queued and one is staged; `InitAsyncChannel` with a loop
bound of one iteration returns and writes `CONNECT(42)` and then `CANCEL(42)`. -/
theorem bootstrap_window_witness :
    (runEvents 1 [.ConnectMessagePipe (100, 101) 42 7, .ConnectMessagePipe (100, 101) 42 8]
      ChildBroker.ChildBroker).state.pending_inprocess_connects_ = [(42, 8)] ∧
    ∃ s1, InitAsyncChannel 1 (100, 101) 1 55
      (runEvents 1 [.ConnectMessagePipe (100, 101) 42 7, .ConnectMessagePipe (100, 101) 42 8]
        ChildBroker.ChildBroker).state = .ok s1 ∧
      s1.async_channel_queue_ = [] ∧
      s1.pending_inprocess_connects_ = [] ∧
      writes s1.log =
        [(0, { route_id := 1, data := { type := .CONNECT_MESSAGE_PIPE, pipe_id := 42 } }),
         (0, { route_id := 1,
               data := { type := .CANCEL_CONNECT_MESSAGE_PIPE, pipe_id := 42 } })] := by
  refine ⟨rfl, ?_⟩
  obtain ⟨s1, h1, _, h3, h4, h5⟩ :=
    ((bootstrap_window 1
      (runEvents 1 [.ConnectMessagePipe (100, 101) 42 7, .ConnectMessagePipe (100, 101) 42 8]
        ChildBroker.ChildBroker).state
      (ReachableByProtocol.step (.ConnectMessagePipe (100, 101) 42 8) _ _
        (ReachableByProtocol.step (.ConnectMessagePipe (100, 101) 42 7) _ _
          ReachableByProtocol.ctor trivial rfl) trivial rfl)).1 rfl).2.2
      (100, 101) 1 55 (by decide)
  exact ⟨s1, h1, h3, h4, h5⟩

/-! ## The synchronous round trip -/

theorem store_nil (buffer : List Nat) (response : Nat) : store buffer response [] = buffer := by
  simp [store]

theorem store_length (buffer : List Nat) (response : Nat) (bytes : List Nat)
    (h : response + bytes.length ≤ buffer.length) :
    (store buffer response bytes).length = buffer.length := by
  simp only [store, List.length_append, List.length_take, List.length_drop]
  omega

theorem store_store (buffer : List Nat) (response : Nat) (bytes rest : List Nat)
    (h : response + bytes.length ≤ buffer.length) :
    store (store buffer response bytes) (response + bytes.length) rest =
      store buffer response (bytes ++ rest) := by
  have hlen : (buffer.take response ++ bytes).length = response + bytes.length := by
    simp only [List.length_append, List.length_take]
    omega
  have h1 : (store buffer response bytes).take (response + bytes.length) =
      buffer.take response ++ bytes := by
    unfold store
    rw [← hlen, List.take_left]
  have h2 : (store buffer response bytes).drop (response + bytes.length + rest.length) =
      buffer.drop (response + (bytes ++ rest).length) := by
    unfold store
    rw [show response + bytes.length + rest.length =
      (buffer.take response ++ bytes).length + rest.length by rw [hlen]]
    rw [List.drop_append, List.drop_drop, List.length_append]
    congr 1
    omega
  show (store buffer response bytes).take (response + bytes.length) ++ rest ++
      (store buffer response bytes).drop (response + bytes.length + rest.length) = _
  rw [h1, h2]
  simp [store, List.append_assoc]

theorem store_zero (buffer bytes : List Nat) :
    store buffer 0 bytes = bytes ++ buffer.drop bytes.length := by
  simp [store]

theorem WriteAndReadResponse.loop_spec (ReadFile : Nat → Nat → Option (List Nat))
    (hread : ∀ k requested bytes, 1 ≤ requested → ReadFile k requested = some bytes →
      1 ≤ bytes.length ∧ bytes.length ≤ requested)
    (fuel k response_size response : Nat) (buffer : List Nat) (io : List PipeCall)
    (hsize : response_size < 4294967296)
    (hroom : response + response_size ≤ buffer.length)
    (hfuel : response_size ≤ fuel) :
    ∃ fragments : List (List Nat),
      (fragments.flatten.length = response_size ∧
        WriteAndReadResponse.loop ReadFile fuel k response_size response buffer io =
          .returned true (store buffer response fragments.flatten)
            (io ++ expectedReads response_size fragments)) ∨
      (fragments.flatten.length < response_size ∧
        WriteAndReadResponse.loop ReadFile fuel k response_size response buffer io =
          .returned false (store buffer response fragments.flatten)
            (io ++ (expectedReads response_size fragments ++
              [PipeCall.ReadFile (response_size - fragments.flatten.length) none]))) := by
  induction fuel generalizing k response_size response buffer io with
  | zero =>
    have h0 : response_size = 0 := Nat.le_zero.1 hfuel
    subst h0
    exact ⟨[], Or.inl ⟨rfl, by simp [WriteAndReadResponse.loop, store_nil, expectedReads]⟩⟩
  | succ fuel ih =>
    by_cases h0 : response_size = 0
    · subst h0
      exact ⟨[], Or.inl ⟨rfl, by simp [WriteAndReadResponse.loop, store_nil, expectedReads]⟩⟩
    · cases hr : ReadFile k response_size with
      | none =>
        refine ⟨[], Or.inr ⟨by simpa using Nat.pos_of_ne_zero h0, ?_⟩⟩
        simp [WriteAndReadResponse.loop, h0, hr, store_nil, expectedReads]
      | some bytes =>
        obtain ⟨hpos, hle⟩ := hread k response_size bytes (Nat.pos_of_ne_zero h0) hr
        have hb : uint32 bytes.length = bytes.length := by
          unfold uint32
          exact Nat.mod_eq_of_lt (by omega)
        have hnext : uint32 (response_size + 4294967296 - bytes.length) =
            response_size - bytes.length := by
          unfold uint32
          omega
        obtain ⟨fragments, hcase⟩ := ih (k + 1) (response_size - bytes.length)
          (response + bytes.length) (store buffer response bytes)
          (io ++ [PipeCall.ReadFile response_size (some bytes)])
          (by omega)
          (by rw [store_length _ _ _ (by omega)]; omega)
          (by omega)
        have hunfold : WriteAndReadResponse.loop ReadFile (fuel + 1) k response_size response
            buffer io =
            WriteAndReadResponse.loop ReadFile fuel (k + 1) (response_size - bytes.length)
              (response + bytes.length) (store buffer response bytes)
              (io ++ [PipeCall.ReadFile response_size (some bytes)]) := by
          simp only [WriteAndReadResponse.loop, h0, if_false, hr, hb, hnext]
        refine ⟨bytes :: fragments, ?_⟩
        rcases hcase with ⟨hlen, hrun⟩ | ⟨hlen, hrun⟩
        · refine Or.inl ⟨?_, ?_⟩
          · simp only [List.flatten_cons, List.length_append]
            omega
          · rw [hunfold, hrun, store_store _ _ _ _ (by omega)]
            simp [expectedReads]
        · refine Or.inr ⟨?_, ?_⟩
          · simp only [List.flatten_cons, List.length_append]
            omega
          · rw [hunfold, hrun, store_store _ _ _ _ (by omega)]
            simp only [List.flatten_cons, List.length_append, expectedReads, List.append_assoc,
              List.singleton_append, List.cons_append, List.nil_append, Nat.sub_sub]

theorem expectedReads_no_failure (response_size requested : Nat)
    (fragments : List (List Nat)) :
    PipeCall.ReadFile requested none ∉ expectedReads response_size fragments := by
  induction fragments generalizing response_size with
  | nil => simp [expectedReads]
  | cons bytes rest ih =>
    intro hmem
    simp only [expectedReads] at hmem
    rcases List.mem_cons.1 hmem with h | h
    · cases h
    · exact ih _ h

theorem WriteAndReadResponse_eq_write_failed (parent_sync_channel_ : SyncChannel)
    (fuel : Nat) (message : BrokerMessage) (buffer : List Nat) (response_size : Nat)
    (io : List PipeCall) (hvalid : parent_sync_channel_.is_valid = true)
    (hwrite : ¬ ((parent_sync_channel_.WriteFile message).1 = true ∧
      (parent_sync_channel_.WriteFile message).2 = message.size)) :
    WriteAndReadResponse parent_sync_channel_ fuel message buffer response_size io =
      .returned false buffer (io ++ [PipeCall.WriteFile message message.size]) := by
  simp only [WriteAndReadResponse, hvalid, if_true, hwrite, if_false]

theorem WriteAndReadResponse_eq_loop (parent_sync_channel_ : SyncChannel)
    (fuel : Nat) (message : BrokerMessage) (buffer : List Nat) (response_size : Nat)
    (io : List PipeCall) (hvalid : parent_sync_channel_.is_valid = true)
    (hwrite : (parent_sync_channel_.WriteFile message).1 = true ∧
      (parent_sync_channel_.WriteFile message).2 = message.size) :
    WriteAndReadResponse parent_sync_channel_ fuel message buffer response_size io =
      WriteAndReadResponse.loop parent_sync_channel_.ReadFile fuel 0 response_size 0 buffer
        (io ++ [PipeCall.WriteFile message message.size]) := by
  simp only [WriteAndReadResponse, hvalid, if_true, hwrite, and_self]

theorem WriteAndReadResponse.loop_zero (ReadFile : Nat → Nat → Option (List Nat))
    (fuel k response : Nat) (buffer : List Nat) (io : List PipeCall) :
    WriteAndReadResponse.loop ReadFile fuel k 0 response buffer io =
      .returned true buffer io := by
  cases fuel <;> simp [WriteAndReadResponse.loop]

/-- C17: `WriteAndReadResponse(message, response, n)` on a valid pipe whose successful reads
deliver at least one and at most the requested number of bytes, with a response buffer of
at least `n` bytes: for every loop bound of at least `n` iterations it returns.  It issues
exactly one `WriteFile`, for `message.size` bytes.  It returns true if and only if that
write succeeded with `message.size` bytes written and no read failed.  After a failed
write, and when `n = 0`, no read is issued.  The reads are those of a sequence of
fragments in arrival order, each asking for exactly the bytes still missing, followed by
at most one failed read; and when it returns true the fragments add up to exactly `n`
bytes and the buffer holds their concatenation in its first `n` bytes. -/
theorem WriteAndReadResponse_spec (parent_sync_channel_ : SyncChannel) (fuel : Nat)
    (message : BrokerMessage) (buffer : List Nat) (response_size : Nat) (io : List PipeCall)
    (hvalid : parent_sync_channel_.is_valid = true)
    (hread : ∀ k requested bytes, 1 ≤ requested →
      parent_sync_channel_.ReadFile k requested = some bytes →
      1 ≤ bytes.length ∧ bytes.length ≤ requested)
    (hsize : response_size < 4294967296)
    (hroom : response_size ≤ buffer.length)
    (hfuel : response_size ≤ fuel) :
    ∃ (result : Bool) (buffer1 : List Nat) (reads : List PipeCall),
      WriteAndReadResponse parent_sync_channel_ fuel message buffer response_size io =
        .returned result buffer1 (io ++ PipeCall.WriteFile message message.size :: reads) ∧
      (result = true ↔
        ((parent_sync_channel_.WriteFile message).1 = true ∧
          (parent_sync_channel_.WriteFile message).2 = message.size) ∧
        ∀ requested, PipeCall.ReadFile requested none ∉ reads) ∧
      (¬ ((parent_sync_channel_.WriteFile message).1 = true ∧
          (parent_sync_channel_.WriteFile message).2 = message.size) →
        reads = [] ∧ buffer1 = buffer) ∧
      (response_size = 0 → reads = []) ∧
      ∃ fragments : List (List Nat),
        (reads = expectedReads response_size fragments ∨
          reads = expectedReads response_size fragments ++
            [PipeCall.ReadFile (response_size - fragments.flatten.length) none]) ∧
        (result = true →
          fragments.flatten.length = response_size ∧
          buffer1 = fragments.flatten ++ buffer.drop response_size) := by
  by_cases hwrite : (parent_sync_channel_.WriteFile message).1 = true ∧
      (parent_sync_channel_.WriteFile message).2 = message.size
  · rw [WriteAndReadResponse_eq_loop _ _ _ _ _ _ hvalid hwrite]
    by_cases h0 : response_size = 0
    · subst h0
      refine ⟨true, buffer, [], ?_, ?_, fun h => absurd hwrite h, fun _ => rfl, [],
        Or.inl rfl, fun _ => ⟨rfl, by simp⟩⟩
      · rw [WriteAndReadResponse.loop_zero]
      · simp [hwrite]
    · obtain ⟨fragments, hcase⟩ := WriteAndReadResponse.loop_spec
        parent_sync_channel_.ReadFile hread fuel 0 response_size 0 buffer
        (io ++ [PipeCall.WriteFile message message.size]) hsize (by omega) hfuel
      rcases hcase with ⟨hlen, hrun⟩ | ⟨hlen, hrun⟩
      · refine ⟨true, store buffer 0 fragments.flatten, expectedReads response_size fragments,
          ?_, ?_, fun h => absurd hwrite h, fun h => absurd h h0, fragments, Or.inl rfl,
          fun _ => ⟨hlen, by rw [store_zero, hlen]⟩⟩
        · rw [hrun]
          simp
        · simp only [true_iff]
          exact ⟨hwrite, fun requested => expectedReads_no_failure _ _ _⟩
      · refine ⟨false, store buffer 0 fragments.flatten,
          expectedReads response_size fragments ++
            [PipeCall.ReadFile (response_size - fragments.flatten.length) none],
          ?_, ?_, fun h => absurd hwrite h, fun h => absurd h h0, fragments, Or.inr rfl,
          fun h => Bool.noConfusion h⟩
        · rw [hrun]
          simp
        · constructor
          · intro h
            exact Bool.noConfusion h
          · rintro ⟨_, hnone⟩
            exact absurd (List.mem_append_right _ (List.mem_singleton_self _))
              (hnone (response_size - fragments.flatten.length))
  · rw [WriteAndReadResponse_eq_write_failed _ _ _ _ _ _ hvalid hwrite]
    refine ⟨false, buffer, [], rfl, ?_, fun _ => ⟨rfl, rfl⟩, fun _ => rfl, [], Or.inl rfl,
      fun h => Bool.noConfusion h⟩
    constructor
    · intro h
      exact Bool.noConfusion h
    · rintro ⟨hw, _⟩
      exact absurd hw hwrite

/-- Witness for C17: a pipe that accepts the request and answers an 8-byte response in
fragments of at most 3 bytes. -/
theorem WriteAndReadResponse_spec_witness :
    WriteAndReadResponse
      { is_valid := true
        WriteFile := fun message => (true, message.size)
        ReadFile := fun k requested => some ((List.replicate requested (k + 1)).take 3) }
      8 { size := 16, id := .HANDLE_TO_TOKEN, payload := [5] } [0, 0, 0, 0, 0, 0, 0, 0] 8 [] =
      .returned true [1, 1, 1, 2, 2, 2, 3, 3]
        [PipeCall.WriteFile { size := 16, id := .HANDLE_TO_TOKEN, payload := [5] } 16,
         PipeCall.ReadFile 8 (some [1, 1, 1]), PipeCall.ReadFile 5 (some [2, 2, 2]),
         PipeCall.ReadFile 2 (some [3, 3])] ∧
    ∃ (result : Bool) (buffer1 : List Nat) (reads : List PipeCall),
      WriteAndReadResponse
        { is_valid := true
          WriteFile := fun message => (true, message.size)
          ReadFile := fun k requested => some ((List.replicate requested (k + 1)).take 3) }
        8 { size := 16, id := .HANDLE_TO_TOKEN, payload := [5] } [0, 0, 0, 0, 0, 0, 0, 0] 8
        [] =
        .returned result buffer1
          ([] ++ PipeCall.WriteFile { size := 16, id := .HANDLE_TO_TOKEN, payload := [5] } 16
            :: reads) := by
  refine ⟨by decide, ?_⟩
  obtain ⟨result, buffer1, reads, h, _⟩ :=
    WriteAndReadResponse_spec
      { is_valid := true
        WriteFile := fun message => (true, message.size)
        ReadFile := fun k requested => some ((List.replicate requested (k + 1)).take 3) }
      8 { size := 16, id := .HANDLE_TO_TOKEN, payload := [5] } [0, 0, 0, 0, 0, 0, 0, 0] 8 []
      rfl
      (by
        intro k requested bytes hpos h
        simp only [Option.some.injEq] at h
        subst h
        simp only [List.length_take, List.length_replicate]
        omega)
      (by decide) (by decide) (by decide)
  exact ⟨result, buffer1, reads, h⟩

/-! ## The operations of the synchronous service -/

theorem uint32_of_lt (n : Nat) (h : n < 4294967296) : uint32 n = n :=
  Nat.mod_eq_of_lt h

theorem WriteAndReadResponse.loop_io (ReadFile : Nat → Nat → Option (List Nat))
    (fuel k response_size response : Nat) (buffer : List Nat) (io : List PipeCall)
    (result : Bool) (buffer1 : List Nat) (io1 : List PipeCall)
    (hrun : WriteAndReadResponse.loop ReadFile fuel k response_size response buffer io =
      .returned result buffer1 io1) : ∃ reads, io1 = io ++ reads := by
  induction fuel generalizing k response_size response buffer io with
  | zero =>
    unfold WriteAndReadResponse.loop at hrun
    split at hrun
    · cases hrun; exact ⟨[], by simp⟩
    · cases hrun
  | succ fuel ih =>
    unfold WriteAndReadResponse.loop at hrun
    split at hrun
    · cases hrun; exact ⟨[], by simp⟩
    · split at hrun
      · cases hrun; exact ⟨_, rfl⟩
      · obtain ⟨reads, h⟩ := ih _ _ _ _ _ hrun
        exact ⟨_, by rw [h, List.append_assoc]⟩

theorem WriteAndReadResponse_io (parent_sync_channel_ : SyncChannel) (fuel : Nat)
    (message : BrokerMessage) (buffer : List Nat) (response_size : Nat) (io : List PipeCall)
    (result : Bool) (buffer1 : List Nat) (io1 : List PipeCall)
    (hrun : WriteAndReadResponse parent_sync_channel_ fuel message buffer response_size io =
      .returned result buffer1 io1) :
    ∃ reads, io1 = io ++ PipeCall.WriteFile message message.size :: reads := by
  unfold WriteAndReadResponse at hrun
  split at hrun
  · simp only at hrun
    split at hrun
    · obtain ⟨reads, h⟩ := WriteAndReadResponse.loop_io _ _ _ _ _ _ _ _ _ _ hrun
      exact ⟨reads, by rw [h, List.append_assoc]; rfl⟩
    · cases hrun; exact ⟨[], rfl⟩
  · cases hrun

theorem WriteAndReadResponse_returns (parent_sync_channel_ : SyncChannel) (fuel : Nat)
    (message : BrokerMessage) (buffer : List Nat) (response_size : Nat) (io : List PipeCall)
    (hvalid : parent_sync_channel_.is_valid = true)
    (hread : ∀ k requested bytes, 1 ≤ requested →
      parent_sync_channel_.ReadFile k requested = some bytes →
      1 ≤ bytes.length ∧ bytes.length ≤ requested)
    (hsize : response_size < 4294967296)
    (hroom : response_size ≤ buffer.length)
    (hfuel : response_size ≤ fuel) :
    ∃ result buffer1 io1,
      WriteAndReadResponse parent_sync_channel_ fuel message buffer response_size io =
        .returned result buffer1 io1 := by
  by_cases hwrite : (parent_sync_channel_.WriteFile message).1 = true ∧
      (parent_sync_channel_.WriteFile message).2 = message.size
  · rw [WriteAndReadResponse_eq_loop _ _ _ _ _ _ hvalid hwrite]
    obtain ⟨fragments, hcase⟩ := WriteAndReadResponse.loop_spec
      parent_sync_channel_.ReadFile hread fuel 0 response_size 0 buffer
      (io ++ [PipeCall.WriteFile message message.size]) hsize (by omega) hfuel
    rcases hcase with ⟨_, hrun⟩ | ⟨_, hrun⟩
    · exact ⟨_, _, _, hrun⟩
    · exact ⟨_, _, _, hrun⟩
  · rw [WriteAndReadResponse_eq_write_failed _ _ _ _ _ _ hvalid hwrite]
    exact ⟨_, _, _, rfl⟩

/-- C20: framing of the synchronous service, with `sizeof_HANDLE` the byte size of a handle
and `kBrokerMessageHeaderSize` the header size, for element counts whose request and
response sizes fit in 32 bits, called with the lock free.  `HandleToToken` is the round
trip of the request `{size = K + N*H, id = HANDLE_TO_TOKEN}` carrying the `N` input handles
in order, with a response of `N*8` bytes read into `tokens`.  `TokenToHandle` is the round
trip of the request `{size = K + N*8, id = TOKEN_TO_HANDLE}` carrying the `N` tokens in
order, with a response of `N*H` bytes, and on success the output holds the `N` returned
handles in order in its first `N` elements.  `CreatePlatformChannelPair` is the round trip
of the request `{size = K, id = CREATE_PLATFORM_CHANNEL_PAIR}` without payload, with a
response of `2*H` bytes, and on success the first returned handle is the server and the
second the client.  On a valid pipe whose successful reads deliver at least one and at most
the requested number of bytes, with room for the tokens and a loop bound of at least the
response size, each of the three operations returns. -/
theorem sync_service_framing (sizeof_HANDLE kBrokerMessageHeaderSize : Nat)
    (parent_sync_channel_ : SyncChannel) (fuel : Nat) (st : SyncState)
    (platform_handles tokens_out tokens : List Nat) (handles : List (List Nat))
    (server client : List Nat)
    (hfree : st.sync_channel_lock_ = false)
    (hrequest1 : kBrokerMessageHeaderSize + platform_handles.length * sizeof_HANDLE
      < 4294967296)
    (hresponse1 : platform_handles.length * 8 < 4294967296)
    (hrequest2 : kBrokerMessageHeaderSize + tokens.length * 8 < 4294967296)
    (hresponse2 : tokens.length * sizeof_HANDLE < 4294967296)
    (hrequest3 : kBrokerMessageHeaderSize < 4294967296)
    (hresponse3 : 2 * sizeof_HANDLE < 4294967296) :
    (∀ result tokens1 io1,
      WriteAndReadResponse parent_sync_channel_ fuel
        { size := kBrokerMessageHeaderSize + platform_handles.length * sizeof_HANDLE,
          id := .HANDLE_TO_TOKEN, payload := platform_handles }
        tokens_out (platform_handles.length * 8) st.io = .returned result tokens1 io1 →
      HandleToToken sizeof_HANDLE kBrokerMessageHeaderSize parent_sync_channel_ fuel
        platform_handles tokens_out st =
        .returned tokens1 { sync_channel_lock_ := false, io := io1 } ∧
      ∃ reads, io1 = st.io ++ PipeCall.WriteFile
        { size := kBrokerMessageHeaderSize + platform_handles.length * sizeof_HANDLE,
          id := .HANDLE_TO_TOKEN, payload := platform_handles }
        (kBrokerMessageHeaderSize + platform_handles.length * sizeof_HANDLE) :: reads) ∧
    (∀ temp io1,
      WriteAndReadResponse parent_sync_channel_ fuel
        { size := kBrokerMessageHeaderSize + tokens.length * 8,
          id := .TOKEN_TO_HANDLE, payload := tokens }
        (List.replicate (tokens.length * sizeof_HANDLE) 0) (tokens.length * sizeof_HANDLE)
        st.io = .returned true temp io1 →
      TokenToHandle sizeof_HANDLE kBrokerMessageHeaderSize parent_sync_channel_ fuel
        tokens handles st =
        .returned
          ((List.range tokens.length).map
              (fun i => (temp.drop (i * sizeof_HANDLE)).take sizeof_HANDLE)
            ++ handles.drop tokens.length)
          { sync_channel_lock_ := false, io := io1 } ∧
      ∃ reads, io1 = st.io ++ PipeCall.WriteFile
        { size := kBrokerMessageHeaderSize + tokens.length * 8,
          id := .TOKEN_TO_HANDLE, payload := tokens }
        (kBrokerMessageHeaderSize + tokens.length * 8) :: reads) ∧
    (∀ handles1 io1,
      WriteAndReadResponse parent_sync_channel_ fuel
        { size := kBrokerMessageHeaderSize, id := .CREATE_PLATFORM_CHANNEL_PAIR,
          payload := [] }
        (List.replicate (2 * sizeof_HANDLE) 0) (2 * sizeof_HANDLE) st.io
        = .returned true handles1 io1 →
      CreatePlatformChannelPair sizeof_HANDLE kBrokerMessageHeaderSize parent_sync_channel_
        fuel server client st =
        .returned
          (handles1.take sizeof_HANDLE, (handles1.drop sizeof_HANDLE).take sizeof_HANDLE)
          { sync_channel_lock_ := false, io := io1 } ∧
      ∃ reads, io1 = st.io ++ PipeCall.WriteFile
        { size := kBrokerMessageHeaderSize, id := .CREATE_PLATFORM_CHANNEL_PAIR,
          payload := [] } kBrokerMessageHeaderSize :: reads) ∧
    (parent_sync_channel_.is_valid = true →
      (∀ k requested bytes, 1 ≤ requested →
        parent_sync_channel_.ReadFile k requested = some bytes →
        1 ≤ bytes.length ∧ bytes.length ≤ requested) →
      platform_handles.length * 8 ≤ tokens_out.length →
      platform_handles.length * 8 ≤ fuel → tokens.length * sizeof_HANDLE ≤ fuel →
      2 * sizeof_HANDLE ≤ fuel →
      (∃ tokens1 st1,
        HandleToToken sizeof_HANDLE kBrokerMessageHeaderSize parent_sync_channel_ fuel
          platform_handles tokens_out st = .returned tokens1 st1) ∧
      (∃ handles1 st1,
        TokenToHandle sizeof_HANDLE kBrokerMessageHeaderSize parent_sync_channel_ fuel
          tokens handles st = .returned handles1 st1) ∧
      (∃ pair st1,
        CreatePlatformChannelPair sizeof_HANDLE kBrokerMessageHeaderSize parent_sync_channel_
          fuel server client st = .returned pair st1)) := by
  have hcount : tokens.length < 4294967296 := by
    rcases Nat.eq_zero_or_pos tokens.length with h | h
    · omega
    · have := Nat.le_mul_of_pos_right tokens.length (by omega : 0 < 8)
      omega
  refine ⟨?_, ?_, ?_, ?_⟩
  · intro result tokens1 io1 hrun
    refine ⟨?_, WriteAndReadResponse_io _ _ _ _ _ _ _ _ _ hrun⟩
    simp only [HandleToToken, hfree, uint32_of_lt _ hrequest1, uint32_of_lt _ hresponse1,
      hrun]
    simp
  · intro temp io1 hrun
    refine ⟨?_, WriteAndReadResponse_io _ _ _ _ _ _ _ _ _ hrun⟩
    simp only [TokenToHandle, hfree, uint32_of_lt _ hrequest2, uint32_of_lt _ hcount,
      uint32_of_lt _ hresponse2, hrun]
    simp
  · intro handles1 io1 hrun
    refine ⟨?_, WriteAndReadResponse_io _ _ _ _ _ _ _ _ _ hrun⟩
    simp only [CreatePlatformChannelPair, CreatePlatformChannelPairNoLock, hfree,
      uint32_of_lt _ hrequest3, uint32_of_lt _ hresponse3, hrun]
    simp
  · intro hvalid hread hroom hfuel1 hfuel2 hfuel3
    refine ⟨?_, ?_, ?_⟩
    · obtain ⟨result, tokens1, io1, hrun⟩ := WriteAndReadResponse_returns
        parent_sync_channel_ fuel
        { size := kBrokerMessageHeaderSize + platform_handles.length * sizeof_HANDLE,
          id := .HANDLE_TO_TOKEN, payload := platform_handles }
        tokens_out (platform_handles.length * 8) st.io hvalid hread hresponse1 hroom hfuel1
      refine ⟨tokens1, { sync_channel_lock_ := false, io := io1 }, ?_⟩
      simp only [HandleToToken, hfree, uint32_of_lt _ hrequest1, uint32_of_lt _ hresponse1,
        hrun]
      simp
    · obtain ⟨result, temp, io1, hrun⟩ := WriteAndReadResponse_returns
        parent_sync_channel_ fuel
        { size := kBrokerMessageHeaderSize + tokens.length * 8,
          id := .TOKEN_TO_HANDLE, payload := tokens }
        (List.replicate (tokens.length * sizeof_HANDLE) 0) (tokens.length * sizeof_HANDLE)
        st.io hvalid hread hresponse2 (by simp) hfuel2
      cases result with
      | true =>
        refine ⟨(List.range tokens.length).map
          (fun i => (temp.drop (i * sizeof_HANDLE)).take sizeof_HANDLE)
          ++ handles.drop tokens.length, { sync_channel_lock_ := false, io := io1 }, ?_⟩
        simp only [TokenToHandle, hfree, uint32_of_lt _ hrequest2, uint32_of_lt _ hcount,
          uint32_of_lt _ hresponse2, hrun]
        simp
      | false =>
        refine ⟨handles, { sync_channel_lock_ := true, io := io1 }, ?_⟩
        simp only [TokenToHandle, hfree, uint32_of_lt _ hrequest2, uint32_of_lt _ hcount,
          uint32_of_lt _ hresponse2, hrun]
        simp
    · obtain ⟨result, handles1, io1, hrun⟩ := WriteAndReadResponse_returns
        parent_sync_channel_ fuel
        { size := kBrokerMessageHeaderSize, id := .CREATE_PLATFORM_CHANNEL_PAIR,
          payload := [] }
        (List.replicate (2 * sizeof_HANDLE) 0) (2 * sizeof_HANDLE) st.io hvalid hread
        hresponse3 (by simp) hfuel3
      cases result with
      | true =>
        refine ⟨(handles1.take sizeof_HANDLE, (handles1.drop sizeof_HANDLE).take sizeof_HANDLE),
          { sync_channel_lock_ := false, io := io1 }, ?_⟩
        simp only [CreatePlatformChannelPair, CreatePlatformChannelPairNoLock, hfree,
          uint32_of_lt _ hrequest3, uint32_of_lt _ hresponse3, hrun]
        simp
      | false =>
        refine ⟨(server, client), { sync_channel_lock_ := false, io := io1 }, ?_⟩
        simp only [CreatePlatformChannelPair, CreatePlatformChannelPairNoLock, hfree,
          uint32_of_lt _ hrequest3, uint32_of_lt _ hresponse3, hrun]
        simp

/-- Witness for C20: two handles of 8 bytes with a header of 8 bytes, on a pipe that accepts
the request and answers each read in full: the request has size 24 and the response is
read as 16 bytes. -/
theorem sync_service_framing_witness :
    HandleToToken 8 8
      { is_valid := true
        WriteFile := fun message => (true, message.size)
        ReadFile := fun _ requested => some (List.replicate requested 7) }
      16 [5, 6] (List.replicate 16 0) { sync_channel_lock_ := false, io := [] } =
      .returned (List.replicate 16 7)
        { sync_channel_lock_ := false
          io := [PipeCall.WriteFile { size := 24, id := .HANDLE_TO_TOKEN, payload := [5, 6] } 24,
                 PipeCall.ReadFile 16 (some (List.replicate 16 7))] } :=
  ((sync_service_framing 8 8
    { is_valid := true
      WriteFile := fun message => (true, message.size)
      ReadFile := fun _ requested => some (List.replicate requested 7) }
    16 { sync_channel_lock_ := false, io := [] } [5, 6] (List.replicate 16 0) [1]
    [[9, 9, 9, 9, 9, 9, 9, 9]] [9] [9] rfl (by decide) (by decide) (by decide) (by decide)
    (by decide) (by decide)).1 true (List.replicate 16 7)
    [PipeCall.WriteFile { size := 24, id := .HANDLE_TO_TOKEN, payload := [5, 6] } 24,
     PipeCall.ReadFile 16 (some (List.replicate 16 7))] rfl).1

/-! ## The lock and the caller's output when a round trip fails -/

theorem HandleToToken_releases_lock (sizeof_HANDLE kBrokerMessageHeaderSize : Nat)
    (parent_sync_channel_ : SyncChannel) (fuel : Nat) (platform_handles tokens : List Nat)
    (st : SyncState) (tokens1 : List Nat) (st1 : SyncState)
    (hrun : HandleToToken sizeof_HANDLE kBrokerMessageHeaderSize parent_sync_channel_ fuel
      platform_handles tokens st = .returned tokens1 st1) :
    st1.sync_channel_lock_ = false := by
  unfold HandleToToken at hrun
  simp only at hrun
  split at hrun
  · cases hrun
  · split at hrun <;> cases hrun
    rfl

theorem CreatePlatformChannelPair_releases_lock (sizeof_HANDLE kBrokerMessageHeaderSize : Nat)
    (parent_sync_channel_ : SyncChannel) (fuel : Nat) (server client : List Nat)
    (st : SyncState) (value : List Nat × List Nat) (st1 : SyncState)
    (hrun : CreatePlatformChannelPair sizeof_HANDLE kBrokerMessageHeaderSize
      parent_sync_channel_ fuel server client st = .returned value st1) :
    st1.sync_channel_lock_ = false := by
  unfold CreatePlatformChannelPair at hrun
  split at hrun
  · cases hrun
  · split at hrun
    · cases hrun
      rfl
    · rename_i hfailed
      rw [hrun] at hfailed
      exact absurd rfl (hfailed value st1)

theorem TokenToHandle_lock_after (sizeof_HANDLE kBrokerMessageHeaderSize : Nat)
    (parent_sync_channel_ : SyncChannel) (fuel : Nat) (tokens : List Nat)
    (handles : List (List Nat)) (io : List PipeCall) (result : Bool) (temp : List Nat)
    (io1 : List PipeCall)
    (hrun : WriteAndReadResponse parent_sync_channel_ fuel
      { size := uint32 (kBrokerMessageHeaderSize + tokens.length * 8),
        id := .TOKEN_TO_HANDLE, payload := tokens }
      (List.replicate (tokens.length * sizeof_HANDLE) 0)
      (uint32 (uint32 tokens.length * sizeof_HANDLE)) io = .returned result temp io1) :
    ∃ handles1,
      TokenToHandle sizeof_HANDLE kBrokerMessageHeaderSize parent_sync_channel_ fuel tokens
        handles { sync_channel_lock_ := false, io := io } =
        .returned handles1 { sync_channel_lock_ := !result, io := io1 } ∧
      (result = false → handles1 = handles) := by
  cases result with
  | true =>
    refine ⟨(List.range tokens.length).map
      (fun i => (temp.drop (i * sizeof_HANDLE)).take sizeof_HANDLE)
      ++ handles.drop tokens.length, ?_, fun h => Bool.noConfusion h⟩
    simp only [TokenToHandle, hrun]
    simp
  | false =>
    refine ⟨handles, ?_, fun _ => rfl⟩
    simp only [TokenToHandle, hrun]
    simp

theorem CreatePlatformChannelPair_failure_keeps_output
    (sizeof_HANDLE kBrokerMessageHeaderSize : Nat) (parent_sync_channel_ : SyncChannel)
    (fuel : Nat) (server client : List Nat) (io : List PipeCall) (handles1 : List Nat)
    (io1 : List PipeCall)
    (hrun : WriteAndReadResponse parent_sync_channel_ fuel
      { size := uint32 kBrokerMessageHeaderSize, id := .CREATE_PLATFORM_CHANNEL_PAIR,
        payload := [] }
      (List.replicate (2 * sizeof_HANDLE) 0) (uint32 (2 * sizeof_HANDLE)) io =
      .returned false handles1 io1) :
    CreatePlatformChannelPair sizeof_HANDLE kBrokerMessageHeaderSize parent_sync_channel_
      fuel server client { sync_channel_lock_ := false, io := io } =
      .returned (server, client) { sync_channel_lock_ := false, io := io1 } := by
  simp only [CreatePlatformChannelPair, CreatePlatformChannelPairNoLock, hrun]
  simp

/-- C12 (failing input): `TokenToHandle` with one token, called with the lock free on a
valid pipe whose `WriteFile` fails.  The round trip fails, the operation returns with the
caller's handles untouched, and `sync_channel_lock_` is still held: `Unlock()` sits inside
the success branch.  On the same pipe `HandleToToken` and `CreatePlatformChannelPair`
return with the lock free. -/
theorem TokenToHandle_failure_keeps_lock :
    TokenToHandle 8 8
      { is_valid := true, WriteFile := fun _ => (false, 0), ReadFile := fun _ _ => none }
      8 [5] [[9, 9, 9, 9, 9, 9, 9, 9]] { sync_channel_lock_ := false, io := [] } =
      .returned [[9, 9, 9, 9, 9, 9, 9, 9]]
        { sync_channel_lock_ := true
          io := [PipeCall.WriteFile { size := 16, id := .TOKEN_TO_HANDLE, payload := [5] } 16] } ∧
    HandleToToken 8 8
      { is_valid := true, WriteFile := fun _ => (false, 0), ReadFile := fun _ _ => none }
      8 [5] [0, 0, 0, 0, 0, 0, 0, 0] { sync_channel_lock_ := false, io := [] } =
      .returned [0, 0, 0, 0, 0, 0, 0, 0]
        { sync_channel_lock_ := false
          io := [PipeCall.WriteFile { size := 16, id := .HANDLE_TO_TOKEN, payload := [5] } 16] } ∧
    CreatePlatformChannelPair 8 8
      { is_valid := true, WriteFile := fun _ => (false, 0), ReadFile := fun _ _ => none }
      8 [1] [2] { sync_channel_lock_ := false, io := [] } =
      .returned ([1], [2])
        { sync_channel_lock_ := false
          io := [PipeCall.WriteFile
            { size := 8, id := .CREATE_PLATFORM_CHANNEL_PAIR, payload := [] } 8] } := by
  decide

/-- C13 (failing input): `HandleToToken` with one handle and an 8-byte `tokens` array of
zeroes, on a valid pipe that accepts the request, delivers 4 bytes to the first read and
fails the second.  The round trip returns false, yet the operation returns with the first
4 bytes of the caller's `tokens` array overwritten: the reads go straight into the
caller's array. -/
theorem HandleToToken_failure_overwrites_tokens :
    WriteAndReadResponse
      { is_valid := true
        WriteFile := fun message => (true, message.size)
        ReadFile := fun k _ => if k = 0 then some [1, 2, 3, 4] else none }
      8 { size := 16, id := .HANDLE_TO_TOKEN, payload := [5] } [0, 0, 0, 0, 0, 0, 0, 0] 8 [] =
      .returned false [1, 2, 3, 4, 0, 0, 0, 0]
        [PipeCall.WriteFile { size := 16, id := .HANDLE_TO_TOKEN, payload := [5] } 16,
         PipeCall.ReadFile 8 (some [1, 2, 3, 4]), PipeCall.ReadFile 4 none] ∧
    HandleToToken 8 8
      { is_valid := true
        WriteFile := fun message => (true, message.size)
        ReadFile := fun k _ => if k = 0 then some [1, 2, 3, 4] else none }
      8 [5] [0, 0, 0, 0, 0, 0, 0, 0] { sync_channel_lock_ := false, io := [] } =
      .returned [1, 2, 3, 4, 0, 0, 0, 0]
        { sync_channel_lock_ := false
          io := [PipeCall.WriteFile { size := 16, id := .HANDLE_TO_TOKEN, payload := [5] } 16,
                 PipeCall.ReadFile 8 (some [1, 2, 3, 4]), PipeCall.ReadFile 4 none] } ∧
    TokenToHandle 8 8
      { is_valid := true
        WriteFile := fun message => (true, message.size)
        ReadFile := fun k _ => if k = 0 then some [1, 2, 3, 4] else none }
      8 [5] [[9, 9, 9, 9, 9, 9, 9, 9]] { sync_channel_lock_ := false, io := [] } =
      .returned [[9, 9, 9, 9, 9, 9, 9, 9]]
        { sync_channel_lock_ := true
          io := [PipeCall.WriteFile { size := 16, id := .TOKEN_TO_HANDLE, payload := [5] } 16,
                 PipeCall.ReadFile 8 (some [1, 2, 3, 4]), PipeCall.ReadFile 4 none] } := by
  decide

/-! ## Two connects for one pipe id in the window before the bootstrap channel -/

theorem StdMap.mem_assign_iff (k v : Nat) (m : List (Nat × Nat)) (x : Nat × Nat)
    (h : StdMap.find k m = none) : x ∈ StdMap.assign k v m ↔ x = (k, v) ∨ x ∈ m := by
  induction m with
  | nil => simp [StdMap.assign]
  | cons it rest ih =>
    have hne : ¬ it.1 = k := by
      intro e
      simp [StdMap.find, e] at h
    have hrest : StdMap.find k rest = none := by
      simpa [StdMap.find, hne] using h
    have hne1 : ¬ k = it.1 := fun e => hne e.symm
    by_cases hlt : k < it.1
    · simp [StdMap.assign, hlt]
    · simp only [StdMap.assign, hlt, hne1, if_false, List.mem_cons, ih hrest]
      tauto

theorem StdMap.filter_key (k v : Nat) (m : List (Nat × Nat))
    (hkeys : (m.map Prod.fst).Nodup) (h : (k, v) ∈ m) :
    m.filter (fun it => decide (it.1 = k)) = [(k, v)] := by
  induction m with
  | nil => cases h
  | cons it rest ih =>
    have hnd : it.1 ∉ rest.map Prod.fst ∧ (rest.map Prod.fst).Nodup := by
      simpa using hkeys
    rcases List.mem_cons.1 h with h1 | h1
    · subst h1
      have hrest : rest.filter (fun it => decide (it.1 = k)) = [] := by
        rw [List.filter_eq_nil_iff]
        intro x hx hk
        have hk1 : x.1 = k := by simpa using hk
        have hx1 : x.1 ∈ rest.map Prod.fst := List.mem_map_of_mem Prod.fst hx
        rw [hk1] at hx1
        exact hnd.1 hx1
      simp [List.filter_cons, hrest]
    · have hne : ¬ it.1 = k := by
        intro e
        exact hnd.1 (e ▸ List.mem_map_of_mem Prod.fst h1)
      simp [List.filter_cons, hne, ih hnd.2 h1]

theorem ConnectMessagePipe_before_bootstrap (kBrokerRouteId : Nat) (channel_pair : Nat × Nat)
    (pipe_id message_pipe : Nat) (s s1 : ChildBroker)
    (hparent : s.parent_async_channel_ = none)
    (hrun : ConnectMessagePipe kBrokerRouteId channel_pair pipe_id message_pipe s = .ok s1) :
    (StdMap.find pipe_id s.pending_connects_ = none ∧
      s1 = { s with
             pending_connects_ := StdMap.assign pipe_id message_pipe s.pending_connects_
             async_channel_queue_ := s.async_channel_queue_ ++
               [{ route_id := kBrokerRouteId,
                  data := { type := .CONNECT_MESSAGE_PIPE, pipe_id := pipe_id } }] }) ∨
    (StdMap.find pipe_id s.pending_connects_ ≠ none ∧
      StdMap.find pipe_id s.pending_inprocess_connects_ = none ∧
      s1 = { s with pending_inprocess_connects_ :=
              StdMap.assign pipe_id message_pipe s.pending_inprocess_connects_ }) := by
  cases hp : StdMap.find pipe_id s.pending_connects_ with
  | none =>
    rw [ConnectMessagePipe_eq_first _ _ _ _ _ hp,
      WriteAsyncMessage_eq_queued _ _ _ (by exact hparent)] at hrun
    cases hrun
    exact Or.inl ⟨rfl, rfl⟩
  | some pending_pipe =>
    by_cases hst : StdMap.find pipe_id s.pending_inprocess_connects_ = none
    · rw [ConnectMessagePipe_eq_staged _ _ _ _ _ _ hp hparent hst] at hrun
      cases hrun
      exact Or.inr ⟨fun h => Option.noConfusion h, hst, rfl⟩
    · rw [ConnectMessagePipe_eq_staged_twice _ _ _ _ _ _ hp hparent hst] at hrun
      cases hrun

theorem ReachableByProtocol.of_window (kBrokerRouteId : Nat) (es : List Event)
    (s0 s : ChildBroker) (h0 : ReachableByProtocol kBrokerRouteId s0)
    (hwindow : ∀ e ∈ es, e.beforeBootstrap = true)
    (hrun : runEvents kBrokerRouteId es s0 = .ok s) : ReachableByProtocol kBrokerRouteId s := by
  induction es generalizing s0 with
  | nil =>
    simp only [runEvents, Outcome.ok.injEq] at hrun
    exact hrun ▸ h0
  | cons e rest ih =>
    simp only [runEvents] at hrun
    have hb := hwindow e (List.mem_cons_self _ _)
    have hallowed : e.allowed s0 := by
      cases e <;> simp [Event.beforeBootstrap] at hb <;> simp [Event.allowed]
    cases hstep : e.run kBrokerRouteId s0 with
    | ok s1 =>
      rw [hstep] at hrun
      exact ih s1 (ReachableByProtocol.step e s0 s1 h0 hallowed hstep)
        (fun e1 he1 => hwindow e1 (List.mem_cons_of_mem _ he1)) hrun
    | fatal failure s1 =>
      rw [hstep] at hrun
      cases hrun
    | outOfFuel s1 =>
      rw [hstep] at hrun
      cases hrun

theorem ChannelDestructed_frame_connected (channel : Nat) (s : ChildBroker) :
    (ChannelDestructed channel s).connected_pipes_ = s.connected_pipes_ ∧
    (ChannelDestructed channel s).log = s.log := by
  unfold ChannelDestructed
  split <;> exact ⟨rfl, rfl⟩

theorem Event.run_before_bootstrap (kBrokerRouteId : Nat) (e : Event) (s0 s1 : ChildBroker)
    (hb : e.beforeBootstrap = true)
    (hparent : s0.parent_async_channel_ = none) (hconnected : s0.connected_pipes_ = [])
    (hqueue : ∀ q, s0.async_channel_queue_.filter (fun m => decide (m.data.pipe_id = q)) =
      if StdMap.find q s0.pending_connects_ = none then []
      else [{ route_id := kBrokerRouteId,
              data := { type := .CONNECT_MESSAGE_PIPE, pipe_id := q } }])
    (hstep : e.run kBrokerRouteId s0 = .ok s1) :
    s1.parent_async_channel_ = none ∧ s1.connected_pipes_ = [] ∧ s1.log = s0.log ∧
    (∀ q, s1.async_channel_queue_.filter (fun m => decide (m.data.pipe_id = q)) =
      if StdMap.find q s1.pending_connects_ = none then []
      else [{ route_id := kBrokerRouteId,
              data := { type := .CONNECT_MESSAGE_PIPE, pipe_id := q } }]) ∧
    (∀ q Z, ((q, Z) ∈ s1.pending_connects_ ∨ (q, Z) ∈ s1.pending_inprocess_connects_) ↔
      ((q, Z) ∈ s0.pending_connects_ ∨ (q, Z) ∈ s0.pending_inprocess_connects_ ∨
        ∃ channel_pair, Event.ConnectMessagePipe channel_pair q Z = e)) := by
  cases e with
  | ConnectMessagePipe channel_pair pipe_id message_pipe =>
    rcases ConnectMessagePipe_before_bootstrap _ _ _ _ _ _ hparent hstep with
      ⟨hfind, rfl⟩ | ⟨hfind, hstaged, rfl⟩
    · refine ⟨hparent, hconnected, rfl, ?_, ?_⟩
      · intro q
        show (s0.async_channel_queue_ ++ _).filter _ =
          if StdMap.find q (StdMap.assign pipe_id message_pipe s0.pending_connects_) = none
          then [] else _
        rw [List.filter_append, hqueue q]
        by_cases hq : q = pipe_id
        · subst hq
          simp [hfind, StdMap.find_assign_self]
        · have hq1 : ¬ pipe_id = q := fun e => hq e.symm
          rw [StdMap.find_assign_ne _ _ _ _ hq]
          simp [hq1]
      · intro q Z
        show ((q, Z) ∈ StdMap.assign pipe_id message_pipe s0.pending_connects_ ∨ _) ↔ _
        rw [StdMap.mem_assign_iff _ _ _ _ hfind]
        simp only [Event.ConnectMessagePipe.injEq, Prod.mk.injEq]
        constructor
        · rintro ((⟨h1, h2⟩ | h) | h)
          · exact Or.inr (Or.inr ⟨channel_pair, rfl, h1, h2⟩)
          · exact Or.inl h
          · exact Or.inr (Or.inl h)
        · rintro (h | h | ⟨_, _, h1, h2⟩)
          · exact Or.inl (Or.inr h)
          · exact Or.inr h
          · exact Or.inl (Or.inl ⟨h1, h2⟩)
    · refine ⟨hparent, hconnected, rfl, hqueue, ?_⟩
      intro q Z
      show (_ ∨ (q, Z) ∈ StdMap.assign pipe_id message_pipe s0.pending_inprocess_connects_)
        ↔ _
      rw [StdMap.mem_assign_iff _ _ _ _ hstaged]
      simp only [Event.ConnectMessagePipe.injEq, Prod.mk.injEq]
      constructor
      · rintro (h | ⟨h1, h2⟩ | h)
        · exact Or.inl h
        · exact Or.inr (Or.inr ⟨channel_pair, rfl, h1, h2⟩)
        · exact Or.inr (Or.inl h)
      · rintro (h | h | ⟨_, _, h1, h2⟩)
        · exact Or.inl h
        · exact Or.inr (Or.inr h)
        · exact Or.inr (Or.inl ⟨h1, h2⟩)
  | CloseMessagePipe pipe_id message_pipe =>
    simp [Event.run, mojo.edk.CloseMessagePipe, hconnected, StdMap.find] at hstep
  | OnReadMessage dcheck message_view platform_handles =>
    simp [Event.beforeBootstrap] at hb
  | ChannelDestructed channel =>
    simp only [Event.run, Outcome.ok.injEq] at hstep
    subst hstep
    have hf := ChannelDestructed_frame channel s0
    have hc := ChannelDestructed_frame_connected channel s0
    refine ⟨hf.1.trans hparent, hc.1.trans hconnected, hc.2, ?_, ?_⟩
    · intro q
      rw [hf.2.2.2.2.1, hf.2.2.2.2.2]
      exact hqueue q
    · intro q Z
      rw [hf.2.2.2.2.2, hf.2.2.2.1]
      simp
  | InitAsyncChannel channel_pair fuel handle =>
    simp [Event.beforeBootstrap] at hb

theorem runEvents_before_bootstrap (kBrokerRouteId : Nat) (es : List Event)
    (s0 s : ChildBroker)
    (hparent : s0.parent_async_channel_ = none) (hconnected : s0.connected_pipes_ = [])
    (hqueue : ∀ q, s0.async_channel_queue_.filter (fun m => decide (m.data.pipe_id = q)) =
      if StdMap.find q s0.pending_connects_ = none then []
      else [{ route_id := kBrokerRouteId,
              data := { type := .CONNECT_MESSAGE_PIPE, pipe_id := q } }])
    (hwindow : ∀ e ∈ es, e.beforeBootstrap = true)
    (hrun : runEvents kBrokerRouteId es s0 = .ok s) :
    s.parent_async_channel_ = none ∧ s.connected_pipes_ = [] ∧ s.log = s0.log ∧
    (∀ q, s.async_channel_queue_.filter (fun m => decide (m.data.pipe_id = q)) =
      if StdMap.find q s.pending_connects_ = none then []
      else [{ route_id := kBrokerRouteId,
              data := { type := .CONNECT_MESSAGE_PIPE, pipe_id := q } }]) ∧
    (∀ q Z, ((q, Z) ∈ s.pending_connects_ ∨ (q, Z) ∈ s.pending_inprocess_connects_) ↔
      ((q, Z) ∈ s0.pending_connects_ ∨ (q, Z) ∈ s0.pending_inprocess_connects_ ∨
        ∃ channel_pair, Event.ConnectMessagePipe channel_pair q Z ∈ es)) := by
  induction es generalizing s0 with
  | nil =>
    simp only [runEvents, Outcome.ok.injEq] at hrun
    subst hrun
    exact ⟨hparent, hconnected, rfl, hqueue, by simp⟩
  | cons e rest ih =>
    simp only [runEvents] at hrun
    cases hstep : e.run kBrokerRouteId s0 with
    | ok s1 =>
      rw [hstep] at hrun
      obtain ⟨h1, h2, h3, h4, h5⟩ := Event.run_before_bootstrap kBrokerRouteId e s0 s1
        (hwindow e (List.mem_cons_self _ _)) hparent hconnected hqueue hstep
      obtain ⟨k1, k2, k3, k4, k5⟩ := ih s1 h1 h2 h4
        (fun e1 he1 => hwindow e1 (List.mem_cons_of_mem _ he1)) hrun
      refine ⟨k1, k2, k3.trans h3, k4, ?_⟩
      intro q Z
      rw [k5 q Z]
      simp only [List.mem_cons]
      constructor
      · rintro (h | h | ⟨channel_pair, h⟩)
        · rcases (h5 q Z).1 (Or.inl h) with h | h | ⟨channel_pair, h⟩
          · exact Or.inl h
          · exact Or.inr (Or.inl h)
          · exact Or.inr (Or.inr ⟨channel_pair, Or.inl h⟩)
        · rcases (h5 q Z).1 (Or.inr h) with h | h | ⟨channel_pair, h⟩
          · exact Or.inl h
          · exact Or.inr (Or.inl h)
          · exact Or.inr (Or.inr ⟨channel_pair, Or.inl h⟩)
        · exact Or.inr (Or.inr ⟨channel_pair, Or.inr h⟩)
      · rintro (h | h | ⟨channel_pair, h | h⟩)
        · rcases (h5 q Z).2 (Or.inl h) with h | h
          · exact Or.inl h
          · exact Or.inr (Or.inl h)
        · rcases (h5 q Z).2 (Or.inr (Or.inl h)) with h | h
          · exact Or.inl h
          · exact Or.inr (Or.inl h)
        · rcases (h5 q Z).2 (Or.inr (Or.inr ⟨channel_pair, h⟩)) with h | h
          · exact Or.inl h
          · exact Or.inr (Or.inl h)
        · exact Or.inr (Or.inr ⟨channel_pair, h⟩)
    | fatal failure s1 =>
      rw [hstep] at hrun
      cases hrun
    | outOfFuel s1 =>
      rw [hstep] at hrun
      cases hrun

theorem InitAsyncChannel.replay_invariant_head (P : ChildBroker → Prop)
    (kBrokerRouteId : Nat) (channel_pair : Nat × Nat)
    (hstep : ∀ s it rest s1, P s → s.pending_inprocess_connects_ = it :: rest →
      ConnectMessagePipe kBrokerRouteId channel_pair it.1 it.2 s = .ok s1 →
      P { s1 with pending_inprocess_connects_ := s1.pending_inprocess_connects_.tail })
    (fuel : Nat) (s s1 : ChildBroker) (h : P s)
    (hrun : InitAsyncChannel.replay kBrokerRouteId channel_pair fuel s = .ok s1) : P s1 := by
  induction fuel generalizing s with
  | zero =>
    unfold InitAsyncChannel.replay at hrun
    split at hrun
    · cases hrun; exact h
    · cases hrun
  | succ fuel ih =>
    unfold InitAsyncChannel.replay at hrun
    split at hrun
    · cases hrun; exact h
    · rename_i it rest hstaged
      simp only at hrun
      split at hrun
      · rename_i s2 hconnect
        exact ih _ (hstep _ _ _ _ h hstaged hconnect) hrun
      · rename_i hfailed
        rw [hrun] at hfailed
        exact absurd rfl (hfailed s1)

theorem StdMap.find_assign (k v q : Nat) (m : List (Nat × Nat)) :
    StdMap.find q (StdMap.assign k v m) = if q = k then some v else StdMap.find q m := by
  by_cases hq : q = k
  · subst hq
    simp [StdMap.find_assign_self]
  · simp [hq, StdMap.find_assign_ne _ _ _ _ hq]

theorem InitAsyncChannel.ReplayInvariant_step (exclusive : Prop) (kBrokerRouteId : Nat)
    (channel_pair : Nat × Nat) (pipe_id X Y : Nat) (hne : X ≠ Y)
    (s : ChildBroker) (it : Nat × Nat) (rest : List (Nat × Nat)) (s1 : ChildBroker)
    (h : InitAsyncChannel.ReplayInvariant exclusive pipe_id X Y s)
    (hstaged : s.pending_inprocess_connects_ = it :: rest)
    (hrun : ConnectMessagePipe kBrokerRouteId channel_pair it.1 it.2 s = .ok s1) :
    InitAsyncChannel.ReplayInvariant exclusive pipe_id X Y
      { s1 with pending_inprocess_connects_ := s1.pending_inprocess_connects_.tail } := by
  obtain ⟨hwf, hparent, hunique, hpending, hexcl, hphase⟩ := h
  have hwf1 := ConnectMessagePipe_wellFormed _ _ _ _ _ _ hwf hrun
  have hit : StdMap.find it.1 s.pending_connects_ ≠ none :=
    hpending it (hstaged ▸ List.mem_cons_self _ _)
  have hnd : it.1 ∉ rest.map Prod.fst ∧ (rest.map Prod.fst).Nodup := by
    rw [hstaged] at hunique
    simpa using hunique
  rcases ConnectMessagePipe_cases _ _ _ _ _ _ hwf hrun with
    ⟨hnone, _⟩ | ⟨_, hnoparent, _⟩ |
    ⟨Z, parent, channel1, channel2, created, hZ, hp, hc1, hc2, _, hs1, _⟩
  · exact absurd hnone hit
  · exact absurd hnoparent hparent
  · have hpair1 : s1.in_process_pipes_channel1_ = some channel1 := by rw [hs1]
    have hpair2 : s1.in_process_pipes_channel2_ = some channel2 := by rw [hs1]
    have hdistinct : channel1 ≠ channel2 := by
      rcases hwf1.pair with ⟨h1, _⟩ | ⟨c1, c2, h1, h2, hd, _, _⟩
      · rw [hpair1] at h1
        cases h1
      · rw [hpair1] at h1
        rw [hpair2] at h2
        cases h1
        cases h2
        exact hd
    have hconn : s1.connected_pipes_ =
        StdMap.assign it.2 channel2 (StdMap.assign Z channel1 s.connected_pipes_) := by
      rw [hs1]
    have hpend : s1.pending_connects_ = StdMap.erase it.1 s.pending_connects_ := by
      rw [hs1]
    have hst1 : s1.pending_inprocess_connects_ = s.pending_inprocess_connects_ := by
      rw [hs1]
    have htail : s1.pending_inprocess_connects_.tail = rest := by
      rw [hst1, hstaged]
      rfl
    have hparent1 : s1.parent_async_channel_ = s.parent_async_channel_ := by
      rw [hs1]
    have hmemZ : (it.1, Z) ∈ s.pending_connects_ := StdMap.mem_of_find _ _ _ hZ
    refine ⟨WellFormed_of_channel_members s1 _ hwf1 rfl rfl rfl rfl rfl rfl, ?_, ?_, ?_, ?_, ?_⟩
    · show s1.parent_async_channel_ ≠ none
      rw [hparent1]
      exact hparent
    · show (s1.pending_inprocess_connects_.tail.map Prod.fst).Nodup
      rw [htail]
      exact hnd.2
    · intro it2 hit2
      have hit2 : it2 ∈ rest := htail ▸ hit2
      have hne2 : it2.1 ≠ it.1 := by
        intro e
        exact hnd.1 (e ▸ List.mem_map_of_mem Prod.fst hit2)
      show StdMap.find it2.1 s1.pending_connects_ ≠ none
      rw [hpend, StdMap.find_erase_ne _ _ _ hne2]
      exact hpending it2 (hstaged ▸ List.mem_cons_of_mem _ hit2)
    · intro hex
      obtain ⟨ha, hb⟩ := hexcl hex
      constructor
      · intro it2 hit2
        have hit2 : it2 ∈ rest := htail ▸ hit2
        exact ha it2 (hstaged ▸ List.mem_cons_of_mem _ hit2)
      · intro it2 hit2
        have hit2 : it2 ∈ StdMap.erase it.1 s.pending_connects_ := hpend ▸ hit2
        exact hb it2 ((StdMap.mem_erase _ _ _).1 hit2).1
    · show (StdMap.find pipe_id s1.pending_connects_ = some X ∧
          (pipe_id, Y) ∈ s1.pending_inprocess_connects_.tail) ∨
        (StdMap.find pipe_id s1.pending_connects_ = none ∧
          ∃ c1 c2, s1.in_process_pipes_channel1_ = some c1 ∧
            s1.in_process_pipes_channel2_ = some c2 ∧ c1 ≠ c2 ∧
            (StdMap.find X s1.connected_pipes_ = some c1 ∨
              StdMap.find X s1.connected_pipes_ = some c2) ∧
            (StdMap.find Y s1.connected_pipes_ = some c1 ∨
              StdMap.find Y s1.connected_pipes_ = some c2) ∧
            (exclusive →
              StdMap.find X s1.connected_pipes_ = some c1 ∧
              StdMap.find Y s1.connected_pipes_ = some c2))
      rw [htail, hpend, hconn]
      rcases hphase with ⟨hX, hY⟩ | ⟨hgone, c1, c2, h1, h2, _, hfX, hfY, hexact⟩
      · by_cases hkey : it.1 = pipe_id
        · right
          have hZX : Z = X := by
            rw [hkey, hX] at hZ
            exact (Option.some.inj hZ).symm
          have hitY : it.2 = Y := by
            rw [hstaged] at hY
            rcases List.mem_cons.1 hY with h | h
            · rw [← h]
            · exact absurd (hkey ▸ List.mem_map_of_mem Prod.fst h) hnd.1
          have hneYX : ¬ X = Y := hne
          refine ⟨?_, channel1, channel2, hpair1, hpair2, hdistinct, ?_, ?_, ?_⟩
          · rw [← hkey]
            exact StdMap.find_erase_self _ _
          · left
            rw [hitY, hZX, StdMap.find_assign, StdMap.find_assign]
            simp [hneYX]
          · right
            rw [hitY, StdMap.find_assign]
            simp
          · intro _
            rw [hitY, hZX, StdMap.find_assign, StdMap.find_assign, StdMap.find_assign]
            simp [hneYX]
        · left
          constructor
          · rw [StdMap.find_erase_ne _ _ _ (fun e => hkey e.symm)]
            exact hX
          · rw [hstaged] at hY
            rcases List.mem_cons.1 hY with h | h
            · exact absurd (by rw [← h]) hkey
            · exact h
      · right
        have hkey : it.1 ≠ pipe_id := by
          intro e
          rw [e] at hit
          exact hit hgone
        have hch1 : channel1 = c1 := by
          rcases hc1 with h | h
          · rw [h1] at h
            cases h
          · rw [h1] at h
            exact (Option.some.inj h).symm
        have hch2 : channel2 = c2 := by
          rcases hc2 with h | h
          · rw [h2] at h
            cases h
          · rw [h2] at h
            exact (Option.some.inj h).symm
        subst hch1 hch2
        refine ⟨?_, channel1, channel2, hpair1, hpair2, hdistinct, ?_, ?_, ?_⟩
        · rw [StdMap.find_erase_ne _ _ _ (fun e => hkey e.symm)]
          exact hgone
        · rw [StdMap.find_assign, StdMap.find_assign]
          split
          · exact Or.inr rfl
          · split
            · exact Or.inl rfl
            · exact hfX
        · rw [StdMap.find_assign, StdMap.find_assign]
          split
          · exact Or.inr rfl
          · split
            · exact Or.inl rfl
            · exact hfY
        · intro hex
          obtain ⟨ha, hb⟩ := hexcl hex
          have hs2X : ¬ X = it.2 := fun e =>
            hkey (ha it (hstaged ▸ List.mem_cons_self _ _) (Or.inl e.symm))
          have hs2Y : ¬ Y = it.2 := fun e =>
            hkey (ha it (hstaged ▸ List.mem_cons_self _ _) (Or.inr e.symm))
          have hZX : ¬ X = Z := fun e => hkey (hb (it.1, Z) hmemZ (Or.inl e.symm))
          have hZY : ¬ Y = Z := fun e => hkey (hb (it.1, Z) hmemZ (Or.inr e.symm))
          rw [StdMap.find_assign, StdMap.find_assign, StdMap.find_assign, StdMap.find_assign]
          simp only [hs2X, hs2Y, hZX, hZY, if_false]
          exact hexact hex

theorem InitAsyncChannel_replays_pair (exclusive : Prop) (kBrokerRouteId : Nat)
    (channel_pair : Nat × Nat) (fuel handle pipe_id X Y : Nat) (s : ChildBroker)
    (hwf : WellFormed s) (hlog : s.log = [])
    (hunique : (s.pending_inprocess_connects_.map Prod.fst).Nodup)
    (hpending : ∀ it ∈ s.pending_inprocess_connects_,
      StdMap.find it.1 s.pending_connects_ ≠ none)
    (hqueue : ∀ q, s.async_channel_queue_.filter (fun m => decide (m.data.pipe_id = q)) =
      if StdMap.find q s.pending_connects_ = none then []
      else [{ route_id := kBrokerRouteId,
              data := { type := .CONNECT_MESSAGE_PIPE, pipe_id := q } }])
    (hne : X ≠ Y) (hX : StdMap.find pipe_id s.pending_connects_ = some X)
    (hY : (pipe_id, Y) ∈ s.pending_inprocess_connects_)
    (hexcl : exclusive →
      (∀ it ∈ s.pending_inprocess_connects_, it.2 = X ∨ it.2 = Y → it.1 = pipe_id) ∧
      (∀ it ∈ s.pending_connects_, it.2 = X ∨ it.2 = Y → it.1 = pipe_id))
    (hfuel : s.pending_inprocess_connects_.length ≤ fuel) :
    ∃ s1 channel1 channel2,
      InitAsyncChannel kBrokerRouteId channel_pair fuel handle s = .ok s1 ∧
      s1.parent_async_channel_ = some s.next_channel ∧
      s1.in_process_pipes_channel1_ = some channel1 ∧
      s1.in_process_pipes_channel2_ = some channel2 ∧ channel1 ≠ channel2 ∧
      (StdMap.find X s1.connected_pipes_ = some channel1 ∨
        StdMap.find X s1.connected_pipes_ = some channel2) ∧
      (StdMap.find Y s1.connected_pipes_ = some channel1 ∨
        StdMap.find Y s1.connected_pipes_ = some channel2) ∧
      (exclusive →
        StdMap.find X s1.connected_pipes_ = some channel1 ∧
        StdMap.find Y s1.connected_pipes_ = some channel2) ∧
      StdMap.find pipe_id s1.pending_connects_ = none ∧
      s1.pending_inprocess_connects_ = [] ∧
      s1.async_channel_queue_ = [] ∧
      (writes s1.log).filter (fun w => decide (w.2.data.pipe_id = pipe_id)) =
        [(s.next_channel,
          { route_id := kBrokerRouteId
            data := { type := .CONNECT_MESSAGE_PIPE, pipe_id := pipe_id } }),
         (s.next_channel,
          { route_id := kBrokerRouteId
            data := { type := .CANCEL_CONNECT_MESSAGE_PIPE, pipe_id := pipe_id } })] := by
  have hwf0 := InitAsyncChannel_start_wellFormed kBrokerRouteId handle s hwf
  obtain ⟨t1, h1, h2, h3, h4, h5⟩ :=
    InitAsyncChannel.replay_terminates kBrokerRouteId channel_pair s.next_channel
      s.pending_inprocess_connects_ fuel
      { s with
        parent_async_channel_ := some s.next_channel
        next_channel := s.next_channel + 1
        async_channel_queue_ := []
        log := s.log ++ [Effect.NewRoutedRawChannel s.next_channel handle,
                         Effect.AddRoute s.next_channel kBrokerRouteId .broker] ++
          s.async_channel_queue_.map (Effect.WriteMessage s.next_channel) }
      hwf0 rfl rfl hunique hpending hfuel
  have hinv1 := InitAsyncChannel.replay_invariant_head
    (InitAsyncChannel.ReplayInvariant exclusive pipe_id X Y) kBrokerRouteId channel_pair
    (fun s it rest s1 h hst hrun =>
      InitAsyncChannel.ReplayInvariant_step exclusive kBrokerRouteId channel_pair pipe_id X Y
        hne s it rest s1 h hst hrun)
    fuel _ t1
    ⟨hwf0, fun h => Option.noConfusion h, hunique, hpending, hexcl, Or.inl ⟨hX, hY⟩⟩ h1
  obtain ⟨_, _, _, _, _, hphase⟩ := hinv1
  have hw : writes t1.log =
      s.async_channel_queue_.map (fun m => (s.next_channel, m)) ++
      s.pending_inprocess_connects_.map (fun it =>
        (s.next_channel,
          { route_id := kBrokerRouteId,
            data := { type := .CANCEL_CONNECT_MESSAGE_PIPE, pipe_id := it.1 } })) := by
    rw [h5]
    simp [writes_append, writes, writes_map_queue, hlog]
  have hq1 : (s.async_channel_queue_.map (fun m => (s.next_channel, m))).filter
      (fun w => decide (w.2.data.pipe_id = pipe_id)) =
      [(s.next_channel,
        { route_id := kBrokerRouteId
          data := { type := .CONNECT_MESSAGE_PIPE, pipe_id := pipe_id } })] := by
    rw [List.filter_map]
    have hq := hqueue pipe_id
    rw [if_neg (by rw [hX]; exact fun h => Option.noConfusion h)] at hq
    show (s.async_channel_queue_.filter (fun m => decide (m.data.pipe_id = pipe_id))).map _
      = _
    rw [hq]
    rfl
  have hq2 : (s.pending_inprocess_connects_.map (fun it =>
        (s.next_channel,
          ({ route_id := kBrokerRouteId,
             data := { type := .CANCEL_CONNECT_MESSAGE_PIPE, pipe_id := it.1 } } :
            MessageInTransit)))).filter
      (fun w => decide (w.2.data.pipe_id = pipe_id)) =
      [(s.next_channel,
        { route_id := kBrokerRouteId
          data := { type := .CANCEL_CONNECT_MESSAGE_PIPE, pipe_id := pipe_id } })] := by
    rw [List.filter_map]
    show (s.pending_inprocess_connects_.filter (fun it => decide (it.1 = pipe_id))).map _
      = _
    rw [StdMap.filter_key pipe_id Y _ hunique hY]
    rfl
  rcases hphase with ⟨_, hmem⟩ | ⟨hgone, c1, c2, hc1, hc2, hd, hfX, hfY, hexact⟩
  · rw [h2] at hmem
    cases hmem
  · refine ⟨t1, c1, c2, ?_, h4, hc1, hc2, hd, hfX, hfY, hexact, hgone, h2, h3, ?_⟩
    · rw [InitAsyncChannel_eq_replay]
      exact h1
    · rw [hw, List.filter_append, hq1, hq2]
      rfl

/-- C8 (as amended): let any sequence of calls reach the constructed broker before the
bootstrap channel exists (so no `InitAsyncChannel` and no `OnReadMessage` among them), all
of them returning, among them `ConnectMessagePipe(pipe_id, X)` and
`ConnectMessagePipe(pipe_id, Y)` with `X ≠ Y`, in either order.  Nothing has been written
by then.  `InitAsyncChannel`, with a loop bound of at least the number of staged entries,
returns; afterwards the in-process pair exists, its halves are distinct, `X` and `Y` are
both in the connected-pipe table, each on a half of the pair; when neither `X` nor `Y` was
passed to a connect for another pipe id they are on opposite halves; `pipe_id` is neither
pending nor staged; and the messages about `pipe_id` written to channels are exactly
`CONNECT_MESSAGE_PIPE(pipe_id)` followed by `CANCEL_CONNECT_MESSAGE_PIPE(pipe_id)`, both on
the parent channel. -/
theorem InitAsyncChannel_replays_staged_connect (kBrokerRouteId : Nat) (es : List Event)
    (s : ChildBroker) (channel_pairX channel_pairY channel_pair : Nat × Nat)
    (fuel handle pipe_id X Y : Nat)
    (hwindow : ∀ e ∈ es, e.beforeBootstrap = true)
    (hrun : runEvents kBrokerRouteId es ChildBroker.ChildBroker = .ok s)
    (hX : Event.ConnectMessagePipe channel_pairX pipe_id X ∈ es)
    (hY : Event.ConnectMessagePipe channel_pairY pipe_id Y ∈ es)
    (hne : X ≠ Y)
    (hfuel : s.pending_inprocess_connects_.length ≤ fuel) :
    s.parent_async_channel_ = none ∧ s.log = [] ∧
    ∃ s1 parent channel1 channel2,
      InitAsyncChannel kBrokerRouteId channel_pair fuel handle s = .ok s1 ∧
      s1.parent_async_channel_ = some parent ∧
      s1.in_process_pipes_channel1_ = some channel1 ∧
      s1.in_process_pipes_channel2_ = some channel2 ∧ channel1 ≠ channel2 ∧
      (StdMap.find X s1.connected_pipes_ = some channel1 ∨
        StdMap.find X s1.connected_pipes_ = some channel2) ∧
      (StdMap.find Y s1.connected_pipes_ = some channel1 ∨
        StdMap.find Y s1.connected_pipes_ = some channel2) ∧
      ((∀ other_pair q Z, Event.ConnectMessagePipe other_pair q Z ∈ es →
          Z = X ∨ Z = Y → q = pipe_id) →
        (StdMap.find X s1.connected_pipes_ = some channel1 ∧
          StdMap.find Y s1.connected_pipes_ = some channel2) ∨
        (StdMap.find X s1.connected_pipes_ = some channel2 ∧
          StdMap.find Y s1.connected_pipes_ = some channel1)) ∧
      StdMap.find pipe_id s1.pending_connects_ = none ∧
      StdMap.find pipe_id s1.pending_inprocess_connects_ = none ∧
      (writes s1.log).filter (fun w => decide (w.2.data.pipe_id = pipe_id)) =
        [(parent,
          { route_id := kBrokerRouteId
            data := { type := .CONNECT_MESSAGE_PIPE, pipe_id := pipe_id } }),
         (parent,
          { route_id := kBrokerRouteId
            data := { type := .CANCEL_CONNECT_MESSAGE_PIPE, pipe_id := pipe_id } })] := by
  have hreach := ReachableByProtocol.of_window kBrokerRouteId es ChildBroker.ChildBroker s
    ReachableByProtocol.ctor hwindow hrun
  have hwf := Reachable.wellFormed _ _ (ReachableByProtocol.reachable _ _ hreach)
  have hpu := Reachable.pending_unique _ _ (ReachableByProtocol.reachable _ _ hreach)
  have hwin := ReachableByProtocol.bootstrapWindow _ _ hreach
  obtain ⟨hparent, _, hlog, hqueue, hmem⟩ :=
    runEvents_before_bootstrap kBrokerRouteId es ChildBroker.ChildBroker s rfl rfl
      (fun q => rfl) hwindow hrun
  have hlog1 : s.log = [] := hlog
  have hmem1 : ∀ q Z, ((q, Z) ∈ s.pending_connects_ ∨ (q, Z) ∈ s.pending_inprocess_connects_) ↔
      ∃ other_pair, Event.ConnectMessagePipe other_pair q Z ∈ es := by
    intro q Z
    rw [hmem q Z]
    simp [ChildBroker.ChildBroker]
  have hsu := hwin.staged_unique
  have hsp := hwin.staged_pending hparent
  refine ⟨hparent, hlog1, ?_⟩
  rcases (hmem1 pipe_id X).2 ⟨channel_pairX, hX⟩ with hXp | hXs
  · rcases (hmem1 pipe_id Y).2 ⟨channel_pairY, hY⟩ with hYp | hYs
    · have h1 := StdMap.find_of_mem _ _ _ hpu hXp
      rw [StdMap.find_of_mem _ _ _ hpu hYp] at h1
      exact absurd (Option.some.inj h1).symm hne
    · obtain ⟨s1, c1, c2, h1, h2, h3, h4, h5, h6, h7, h8, h9, h10, _, h12⟩ :=
        InitAsyncChannel_replays_pair
          (∀ other_pair q Z, Event.ConnectMessagePipe other_pair q Z ∈ es →
            Z = X ∨ Z = Y → q = pipe_id)
          kBrokerRouteId channel_pair fuel handle pipe_id X Y s hwf hlog1 hsu hsp hqueue hne
          (StdMap.find_of_mem _ _ _ hpu hXp) hYs
          (fun hex =>
            ⟨fun it hit hz => by
              obtain ⟨other_pair, hm⟩ := (hmem1 it.1 it.2).1 (Or.inr hit)
              exact hex other_pair it.1 it.2 hm hz,
             fun it hit hz => by
              obtain ⟨other_pair, hm⟩ := (hmem1 it.1 it.2).1 (Or.inl hit)
              exact hex other_pair it.1 it.2 hm hz⟩)
          hfuel
      exact ⟨s1, s.next_channel, c1, c2, h1, h2, h3, h4, h5, h6, h7,
        fun hex => Or.inl (h8 hex), h9, by rw [h10]; rfl, h12⟩
  · rcases (hmem1 pipe_id Y).2 ⟨channel_pairY, hY⟩ with hYp | hYs
    · obtain ⟨s1, c1, c2, h1, h2, h3, h4, h5, h6, h7, h8, h9, h10, _, h12⟩ :=
        InitAsyncChannel_replays_pair
          (∀ other_pair q Z, Event.ConnectMessagePipe other_pair q Z ∈ es →
            Z = X ∨ Z = Y → q = pipe_id)
          kBrokerRouteId channel_pair fuel handle pipe_id Y X s hwf hlog1 hsu hsp hqueue
          (fun e => hne e.symm)
          (StdMap.find_of_mem _ _ _ hpu hYp) hXs
          (fun hex =>
            ⟨fun it hit hz => by
              obtain ⟨other_pair, hm⟩ := (hmem1 it.1 it.2).1 (Or.inr hit)
              exact hex other_pair it.1 it.2 hm hz.symm,
             fun it hit hz => by
              obtain ⟨other_pair, hm⟩ := (hmem1 it.1 it.2).1 (Or.inl hit)
              exact hex other_pair it.1 it.2 hm hz.symm⟩)
          hfuel
      exact ⟨s1, s.next_channel, c1, c2, h1, h2, h3, h4, h5, h7, h6,
        fun hex => Or.inr ⟨(h8 hex).2, (h8 hex).1⟩, h9, by rw [h10]; rfl, h12⟩
    · have h1 := StdMap.find_of_mem _ _ _ hsu hXs
      rw [StdMap.find_of_mem _ _ _ hsu hYs] at h1
      exact absurd (Option.some.inj h1).symm hne

/-- Witness for C8 (as amended): pipe ids 1 and 2 are each connected twice before the
bootstrap channel exists, pipe id 1 by dispatchers 7 and 8, pipe id 2 by dispatchers 9 and
10; after `InitAsyncChannel` dispatchers 7 and 8 are on opposite halves of the pair. -/
theorem InitAsyncChannel_replays_staged_connect_witness :
    ∃ s1 parent channel1 channel2,
      InitAsyncChannel 1 (100, 101) 2 55
        (runEvents 1
          [.ConnectMessagePipe (100, 101) 1 7, .ConnectMessagePipe (100, 101) 2 9,
           .ConnectMessagePipe (100, 101) 1 8, .ConnectMessagePipe (100, 101) 2 10]
          ChildBroker.ChildBroker).state = .ok s1 ∧
      s1.parent_async_channel_ = some parent ∧
      s1.in_process_pipes_channel1_ = some channel1 ∧
      s1.in_process_pipes_channel2_ = some channel2 ∧ channel1 ≠ channel2 ∧
      ((StdMap.find 7 s1.connected_pipes_ = some channel1 ∧
          StdMap.find 8 s1.connected_pipes_ = some channel2) ∨
        (StdMap.find 7 s1.connected_pipes_ = some channel2 ∧
          StdMap.find 8 s1.connected_pipes_ = some channel1)) ∧
      StdMap.find 1 s1.pending_connects_ = none ∧
      StdMap.find 1 s1.pending_inprocess_connects_ = none ∧
      (writes s1.log).filter (fun w => decide (w.2.data.pipe_id = 1)) =
        [(parent, { route_id := 1, data := { type := .CONNECT_MESSAGE_PIPE, pipe_id := 1 } }),
         (parent,
          { route_id := 1
            data := { type := .CANCEL_CONNECT_MESSAGE_PIPE, pipe_id := 1 } })] := by
  obtain ⟨_, _, s1, parent, c1, c2, h1, h2, h3, h4, h5, _, _, h8, h9, h10, h11⟩ :=
    InitAsyncChannel_replays_staged_connect 1
      [.ConnectMessagePipe (100, 101) 1 7, .ConnectMessagePipe (100, 101) 2 9,
       .ConnectMessagePipe (100, 101) 1 8, .ConnectMessagePipe (100, 101) 2 10]
      (runEvents 1
        [.ConnectMessagePipe (100, 101) 1 7, .ConnectMessagePipe (100, 101) 2 9,
         .ConnectMessagePipe (100, 101) 1 8, .ConnectMessagePipe (100, 101) 2 10]
        ChildBroker.ChildBroker).state
      (100, 101) (100, 101) (100, 101) 2 55 1 7 8
      (by decide) rfl (by decide) (by decide) (by decide) (by decide)
  refine ⟨s1, parent, c1, c2, h1, h2, h3, h4, h5, h8 ?_, h9, h10, h11⟩
  intro other_pair q Z hm hz
  simp only [List.mem_cons, Event.ConnectMessagePipe.injEq, List.mem_singleton,
    List.mem_nil_iff, or_false] at hm
  rcases hm with ⟨_, hq, hZ⟩ | ⟨_, hq, hZ⟩ | ⟨_, hq, hZ⟩ | ⟨_, hq, hZ⟩ <;> omega

/-- C8 (counterexample): `ConnectMessagePipe(1, 7)`, `ConnectMessagePipe(2, 9)`,
`ConnectMessagePipe(1, 8)`, `ConnectMessagePipe(2, 7)` and then `InitAsyncChannel` all
return.  The replay of pipe id 1 puts dispatcher 7 on channel 1 and dispatcher 8 on channel
2; the replay of pipe id 2 then moves dispatcher 7 to channel 2.  Afterwards dispatchers 7
and 8, the two endpoints of pipe id 1, are on the same half of the pair. -/
theorem InitAsyncChannel_replays_staged_connect_counterexample :
    runEvents 1
      [.ConnectMessagePipe (100, 101) 1 7, .ConnectMessagePipe (100, 101) 2 9,
       .ConnectMessagePipe (100, 101) 1 8, .ConnectMessagePipe (100, 101) 2 7,
       .InitAsyncChannel (100, 101) 2 55] ChildBroker.ChildBroker =
      .ok (runEvents 1
        [.ConnectMessagePipe (100, 101) 1 7, .ConnectMessagePipe (100, 101) 2 9,
         .ConnectMessagePipe (100, 101) 1 8, .ConnectMessagePipe (100, 101) 2 7,
         .InitAsyncChannel (100, 101) 2 55] ChildBroker.ChildBroker).state ∧
    (runEvents 1
      [.ConnectMessagePipe (100, 101) 1 7, .ConnectMessagePipe (100, 101) 2 9,
       .ConnectMessagePipe (100, 101) 1 8, .ConnectMessagePipe (100, 101) 2 7,
       .InitAsyncChannel (100, 101) 2 55]
      ChildBroker.ChildBroker).state.in_process_pipes_channel1_ = some 1 ∧
    (runEvents 1
      [.ConnectMessagePipe (100, 101) 1 7, .ConnectMessagePipe (100, 101) 2 9,
       .ConnectMessagePipe (100, 101) 1 8, .ConnectMessagePipe (100, 101) 2 7,
       .InitAsyncChannel (100, 101) 2 55]
      ChildBroker.ChildBroker).state.in_process_pipes_channel2_ = some 2 ∧
    (runEvents 1
      [.ConnectMessagePipe (100, 101) 1 7, .ConnectMessagePipe (100, 101) 2 9,
       .ConnectMessagePipe (100, 101) 1 8, .ConnectMessagePipe (100, 101) 2 7,
       .InitAsyncChannel (100, 101) 2 55]
      ChildBroker.ChildBroker).state.connected_pipes_ = [(7, 2), (8, 2), (9, 1)] ∧
    StdMap.find 7 (runEvents 1
      [.ConnectMessagePipe (100, 101) 1 7, .ConnectMessagePipe (100, 101) 2 9,
       .ConnectMessagePipe (100, 101) 1 8, .ConnectMessagePipe (100, 101) 2 7,
       .InitAsyncChannel (100, 101) 2 55]
      ChildBroker.ChildBroker).state.connected_pipes_ = some 2 ∧
    StdMap.find 8 (runEvents 1
      [.ConnectMessagePipe (100, 101) 1 7, .ConnectMessagePipe (100, 101) 2 9,
       .ConnectMessagePipe (100, 101) 1 8, .ConnectMessagePipe (100, 101) 2 7,
       .InitAsyncChannel (100, 101) 2 55]
      ChildBroker.ChildBroker).state.connected_pipes_ = some 2 := by
  decide

end mojo.edk
